import Mathlib

/-!
# Ray-scene intersection layer and shading pipeline of the ray tracer

A shallow embedding of `DataTypes.h` (with the methods of `TriangleMesh`), `Sphere.h`,
`Matrix.cpp`, `Utils.h` (namespaces `GeometryUtils` and `LightUtils`), `Scene.cpp`
(`TryGetClosestHit`, `DoesHit`, `AddMaterial`, `AddPointLight`, `AddDirectionalLight`),
`BRDFs.h` (the Fresnel, distribution and geometry terms), `Camera.h` with `Camera.cpp`, and
`Renderer.cpp` (`CycleLightingMode`, `ToggleShadows`, `RenderPixel`).

`float` is an arbitrary linearly ordered field `F`: `ℚ` when a definition is evaluated,
`ℝ` for the ideal semantics. Rounding, infinities and NaN are outside the model, except in
`NormalDistribution_GGX`, where rounding decides whether the function divides by zero: there
every operation is followed by an explicit rounding `fl`.
A C++ function that fills a `HitRecord&` returns the pair of its boolean and the record.
A method that changes its object returns the new object; where it reads `v[i]` of a
`std::vector` it returns an `Option`, `none` standing for a read outside the vector.
Functions of `<cmath>` (`sqrt`, `sinf`, `cosf`, `pow`), the constants `TO_RADIANS` and
`PI`, and helpers of headers that are not among the sources are parameters or definitions
marked as modelled from the specification. What `Camera::Update` reads from SDL and the
timer is an explicit argument.
-/

set_option autoImplicit false

namespace dae

variable {F : Type} [LinearOrderedField F]

/-! ## Math kernel -/

/-- Modelled from the spec: `Vector3.h` is not among the sources; the spec's data model has
    `Vector3` as a value type of three `float` components. -/
@[ext] structure Vector3 (F : Type) where
  x : F
  y : F
  z : F

/-- Modelled from the spec: `Vector4` (declared in the absent `Math.h`), four `float`
    components, used by `Matrix.cpp` as the rows of a matrix. -/
structure Vector4 (F : Type) where
  x : F
  y : F
  z : F
  w : F

/-- Modelled from the spec: `Matrix.h` is not among the sources; `Matrix.cpp` stores
    `data[0..3]`, four `Vector4` rows. -/
structure Matrix (F : Type) where
  data0 : Vector4 F
  data1 : Vector4 F
  data2 : Vector4 F
  data3 : Vector4 F

namespace Vector3

/-- Modelled from the spec: `Vector3{}`, all components zero. -/
def zero : Vector3 F := ⟨0, 0, 0⟩

/-- Modelled from the spec: `Vector3::operator+`, component-wise. -/
def add (a b : Vector3 F) : Vector3 F := ⟨a.x + b.x, a.y + b.y, a.z + b.z⟩

/-- Modelled from the spec: `Vector3::operator-` (binary), component-wise. -/
def sub (a b : Vector3 F) : Vector3 F := ⟨a.x - b.x, a.y - b.y, a.z - b.z⟩

/-- Modelled from the spec: `Vector3::operator-` (unary). -/
def neg (a : Vector3 F) : Vector3 F := ⟨-a.x, -a.y, -a.z⟩

/-- Modelled from the spec: `Vector3::operator*(float)`, used for both `v * s` and `s * v`. -/
def scale (a : Vector3 F) (s : F) : Vector3 F := ⟨a.x * s, a.y * s, a.z * s⟩

/-- Modelled from the spec: `Vector3::operator/(float)`. -/
def divide (a : Vector3 F) (s : F) : Vector3 F := ⟨a.x / s, a.y / s, a.z / s⟩

/-- Modelled from the spec: `Vector3::Dot`, the dot product. -/
def Dot (a b : Vector3 F) : F := a.x * b.x + a.y * b.y + a.z * b.z

/-- Modelled from the spec: `Vector3::Cross`, the cross product. -/
def Cross (a b : Vector3 F) : Vector3 F :=
  ⟨a.y * b.z - a.z * b.y, a.z * b.x - a.x * b.z, a.x * b.y - a.y * b.x⟩

/-- Modelled from the spec: `Vector3::SqrMagnitude`, the squared length. -/
def SqrMagnitude (a : Vector3 F) : F := a.x * a.x + a.y * a.y + a.z * a.z

/-- Modelled from the spec: `Vector3::Magnitude`, the length `sqrt(x*x + y*y + z*z)`;
    `sqrtf` stands for the square root of `<cmath>`. -/
def Magnitude (sqrtf : F → F) (a : Vector3 F) : F := sqrtf (SqrMagnitude a)

/-- Modelled from the spec: `Vector3::Normalized`, the vector divided by its length. -/
def Normalized (sqrtf : F → F) (a : Vector3 F) : Vector3 F := divide a (Magnitude sqrtf a)

/-- Modelled from the spec: the constant `Vector3::UnitX`. -/
def UnitX : Vector3 F := ⟨1, 0, 0⟩

/-- Modelled from the spec: the constant `Vector3::UnitY`. -/
def UnitY : Vector3 F := ⟨0, 1, 0⟩

/-- Modelled from the spec: the constant `Vector3::UnitZ`. -/
def UnitZ : Vector3 F := ⟨0, 0, 1⟩

/-- Modelled from the spec: `Vector3::operator!=`, true when some component differs. -/
def notEqual (a b : Vector3 F) : Bool := decide (a.x ≠ b.x ∨ a.y ≠ b.y ∨ a.z ≠ b.z)

end Vector3

/-- Modelled from the spec: `ColorRGB` (declared in the absent `Math.h`), a linear RGB triple
    that "supports add/scale/multiply". -/
@[ext] structure ColorRGB (F : Type) where
  r : F
  g : F
  b : F

namespace ColorRGB

/-- Modelled from the spec: `ColorRGB::operator+` (and `+=`), channel-wise. -/
def add (a b : ColorRGB F) : ColorRGB F := ⟨a.r + b.r, a.g + b.g, a.b + b.b⟩

/-- Modelled from the spec: `ColorRGB::operator*(const ColorRGB&)`, channel-wise. -/
def mul (a b : ColorRGB F) : ColorRGB F := ⟨a.r * b.r, a.g * b.g, a.b * b.b⟩

/-- Modelled from the spec: `ColorRGB::operator*(float)`. -/
def scale (a : ColorRGB F) (s : F) : ColorRGB F := ⟨a.r * s, a.g * s, a.b * s⟩

/-- The colour `ColorRGB{ 0.0f, 0.0f, 0.0f }`. -/
def black : ColorRGB F := ⟨0, 0, 0⟩

end ColorRGB

/-- Modelled from the spec: `Matrix{}`, the identity (the spec's round trip under the
    identity transform starts from freshly constructed meshes). -/
def Matrix.identity : Matrix F :=
  ⟨⟨1, 0, 0, 0⟩, ⟨0, 1, 0, 0⟩, ⟨0, 0, 1, 0⟩, ⟨0, 0, 0, 1⟩⟩

/-! ## `Matrix.cpp` -/

/-- Modelled from the spec: the conversion of a `Vector4` to a `Vector3`, which keeps
    `x`, `y`, `z`. -/
def Vector4.toVector3 (v : Vector4 F) : Vector3 F := ⟨v.x, v.y, v.z⟩

/-- Modelled from the spec: the constructor `Vector4{ v, w }` from a `Vector3` and `w`. -/
def Vector4.ofVector3 (v : Vector3 F) (w : F) : Vector4 F := ⟨v.x, v.y, v.z, w⟩

/-- Modelled from the spec: `Vector4::Dot` (declared in the absent `Math.h`), the dot product
    of the four components. -/
def Vector4.Dot (a b : Vector4 F) : F := a.x * b.x + a.y * b.y + a.z * b.z + a.w * b.w

namespace Matrix

/-- The constructor `Matrix(xAxis, yAxis, zAxis, t)` from four `Vector3`. -/
def ofAxes (xAxis yAxis zAxis t : Vector3 F) : Matrix F :=
  ⟨Vector4.ofVector3 xAxis 0, Vector4.ofVector3 yAxis 0, Vector4.ofVector3 zAxis 0,
    Vector4.ofVector3 t 1⟩

/-- The getter `Matrix::GetAxisX`. -/
def GetAxisX (m : Matrix F) : Vector3 F := m.data0.toVector3

/-- The getter `Matrix::GetAxisY`. -/
def GetAxisY (m : Matrix F) : Vector3 F := m.data1.toVector3

/-- The getter `Matrix::GetAxisZ`. -/
def GetAxisZ (m : Matrix F) : Vector3 F := m.data2.toVector3

/-- The getter `Matrix::GetTranslation`. -/
def GetTranslation (m : Matrix F) : Vector3 F := m.data3.toVector3

/-- The function `Matrix::CreateTranslation(const Vector3&)`. -/
def CreateTranslation (t : Vector3 F) : Matrix F :=
  ofAxes Vector3.UnitX Vector3.UnitY Vector3.UnitZ t

/-- The function `Matrix::CreateRotationY`; `sinf`, `cosf` stand for the functions of
    `<cmath>` and `TO_RADIANS` for the constant of the absent `MathHelpers.h`. -/
def CreateRotationY (sinf cosf : F → F) (TO_RADIANS : F) (yaw : F) : Matrix F :=
  let yawInRadians := yaw * TO_RADIANS
  let sine := sinf yawInRadians
  let cosine := cosf yawInRadians
  ofAxes ⟨cosine, 0, sine⟩ Vector3.UnitY ⟨-sine, 0, cosine⟩ ⟨0, 0, 0⟩

/-- The function `Matrix::CreateScale(float, float, float)`. -/
def CreateScale3 (sx sy sz : F) : Matrix F :=
  ofAxes ⟨sx, 0, 0⟩ ⟨0, sy, 0⟩ ⟨0, 0, sz⟩ ⟨0, 0, 0⟩

/-- The function `Matrix::CreateScale(const Vector3&)`. -/
def CreateScale (s : Vector3 F) : Matrix F := CreateScale3 s.x s.y s.z

/-- The operator `Matrix::operator*(const Vector3&)`. -/
def mulVector3 (m : Matrix F) (v : Vector3 F) : Vector3 F :=
  ⟨v.x * m.data0.x + v.y * m.data1.x + v.z * m.data2.x + m.data3.x,
    v.x * m.data0.y + v.y * m.data1.y + v.z * m.data2.y + m.data3.y,
    v.x * m.data0.z + v.y * m.data1.z + v.z * m.data2.z + m.data3.z⟩

/-- The method `Matrix::Transpose`, `result[r][c] = data[c][r]`; the static
    `Matrix::Transpose(m)` applies it to a copy of `m`. -/
def Transpose (m : Matrix F) : Matrix F :=
  ⟨⟨m.data0.x, m.data1.x, m.data2.x, m.data3.x⟩,
    ⟨m.data0.y, m.data1.y, m.data2.y, m.data3.y⟩,
    ⟨m.data0.z, m.data1.z, m.data2.z, m.data3.z⟩,
    ⟨m.data0.w, m.data1.w, m.data2.w, m.data3.w⟩⟩

/-- One pass of the inner loop of the matrix product: the entries
    `Vector4::Dot(row, m_transposed[c])` for `c = 0..3`. -/
def mulRow (row : Vector4 F) (m_transposed : Matrix F) : Vector4 F :=
  ⟨Vector4.Dot row m_transposed.data0, Vector4.Dot row m_transposed.data1,
    Vector4.Dot row m_transposed.data2, Vector4.Dot row m_transposed.data3⟩

/-- The operator `Matrix::operator*(const Matrix&)`:
    `result[r][c] = Vector4::Dot(data[r], m_transposed[c])`. -/
def mul (a m : Matrix F) : Matrix F :=
  let m_transposed := Transpose m
  ⟨mulRow a.data0 m_transposed, mulRow a.data1 m_transposed, mulRow a.data2 m_transposed,
    mulRow a.data3 m_transposed⟩

/-- The operator `Matrix::operator*=`: the same entries, computed from a copy of the object
    and stored in the object. -/
def mulAssign (a m : Matrix F) : Matrix F :=
  let copy := a
  let m_transposed := Transpose m
  ⟨mulRow copy.data0 m_transposed, mulRow copy.data1 m_transposed, mulRow copy.data2 m_transposed,
    mulRow copy.data3 m_transposed⟩

/-- The function `Matrix::CreateRotationX`. -/
def CreateRotationX (sinf cosf : F → F) (TO_RADIANS : F) (pitch : F) : Matrix F :=
  let pitchInRadians := pitch * TO_RADIANS
  let sine := sinf pitchInRadians
  let cosine := cosf pitchInRadians
  ofAxes Vector3.UnitX ⟨0, cosine, -sine⟩ ⟨0, sine, cosine⟩ ⟨0, 0, 0⟩

/-- The function `Matrix::CreateRotationZ`. -/
def CreateRotationZ (sinf cosf : F → F) (TO_RADIANS : F) (roll : F) : Matrix F :=
  let rollInRadians := roll * TO_RADIANS
  let sine := sinf rollInRadians
  let cosine := cosf rollInRadians
  ofAxes ⟨cosine, -sine, 0⟩ ⟨sine, cosine, 0⟩ Vector3.UnitZ ⟨0, 0, 0⟩

/-- The function `Matrix::CreateRotation(const Vector3&)`:
    `CreateRotationX(r.x) * CreateRotationY(-r.y) * CreateRotationZ(r.z)`. -/
def CreateRotation (sinf cosf : F → F) (TO_RADIANS : F) (r : Vector3 F) : Matrix F :=
  mul
    (mul (CreateRotationX sinf cosf TO_RADIANS r.x) (CreateRotationY sinf cosf TO_RADIANS (-r.y)))
    (CreateRotationZ sinf cosf TO_RADIANS r.z)

/-- The function `Matrix::CreateRotation(float, float, float)`. -/
def CreateRotation3 (sinf cosf : F → F) (TO_RADIANS : F) (pitch yaw roll : F) : Matrix F :=
  CreateRotation sinf cosf TO_RADIANS ⟨pitch, yaw, roll⟩

end Matrix

/-- The constant `FLT_MAX` of `<cfloat>`, the largest finite `float`:
    `(2 - 2^-23) * 2^127`. -/
def FLT_MAX : F := 340282346638528859811704183484516925440

/-- Conversion of an `int` to `unsigned char` (`hitRecord.materialIndex = sphere.GetMaterialIndex()`). -/
def toUChar (i : Int) : Nat := (i % 256).toNat

/-! ## `DataTypes.h`, `Sphere.h` -/

/-- The `struct Plane`. -/
structure Plane (F : Type) where
  origin : Vector3 F
  normal : Vector3 F
  materialIndex : Nat

/-- The `enum class TriangleCullMode`. -/
inductive TriangleCullMode where
  | FrontFaceCulling
  | BackFaceCulling
  | NoCulling
  deriving DecidableEq, Repr

/-- The `struct Triangle`. -/
structure Triangle (F : Type) where
  v0 : Vector3 F
  v1 : Vector3 F
  v2 : Vector3 F
  normal : Vector3 F
  cullMode : TriangleCullMode
  materialIndex : Nat

/-- The data members of `struct TriangleMesh`. -/
structure TriangleMesh (F : Type) where
  triangles : List (Triangle F)
  positions : List (Vector3 F)
  normals : List (Vector3 F)
  indices : List Int
  materialIndex : Nat
  cullMode : TriangleCullMode
  rotationTransform : Matrix F
  translationTransform : Matrix F
  scaleTransform : Matrix F
  transformedPositions : List (Vector3 F)
  transformedNormals : List (Vector3 F)

/-- The constructor `TriangleMesh() = default`, with the member initialisers of the struct. -/
def TriangleMesh.default : TriangleMesh F :=
  ⟨[], [], [], [], 0, TriangleCullMode.BackFaceCulling,
    Matrix.identity, Matrix.identity, Matrix.identity, [], []⟩

/-- The element `v[i]` of a `std::vector` for an `int` index; `none` outside the vector,
    where `operator[]` has no defined result. -/
def vectorAt {α : Type} (v : List α) (i : Int) : Option α :=
  if 0 ≤ i then v[i.toNat]? else none

namespace TriangleMesh

/-- The expression `positions[indices[k]]`. -/
def positionAt (mesh : TriangleMesh F) (k : Nat) : Option (Vector3 F) :=
  match mesh.indices[k]? with
  | some index => vectorAt mesh.positions index
  | none => none

/-- The method `TriangleMesh::Translate`. -/
def Translate (mesh : TriangleMesh F) (translation : Vector3 F) : TriangleMesh F :=
  { mesh with translationTransform := Matrix.CreateTranslation translation }

/-- The method `TriangleMesh::RotateY`. -/
def RotateY (sinf cosf : F → F) (TO_RADIANS : F) (mesh : TriangleMesh F) (yaw : F) :
    TriangleMesh F :=
  { mesh with rotationTransform := Matrix.CreateRotationY sinf cosf TO_RADIANS yaw }

/-- The method `TriangleMesh::Scale`. -/
def Scale (mesh : TriangleMesh F) (scale : Vector3 F) : TriangleMesh F :=
  { mesh with scaleTransform := Matrix.CreateScale scale }

/-- Iteration `i` of the loop of `CreateTriangles`: the triangle
    `Triangle(v0, v1, v2, normals[i])`, whose constructor normalises the normal, with the
    material index and cull mode of the mesh. -/
def CreateTriangles_triangle (sqrtf : F → F) (mesh : TriangleMesh F) (i : Nat) :
    Option (Triangle F) :=
  match mesh.positionAt (3 * i), mesh.positionAt (3 * i + 1), mesh.positionAt (3 * i + 2),
    mesh.normals[i]? with
  | some v0, some v1, some v2, some normal =>
    some ⟨v0, v1, v2, Vector3.Normalized sqrtf normal, mesh.cullMode, mesh.materialIndex⟩
  | _, _, _, _ => none

/-- The loop of `CreateTriangles` from iteration `i` on, with `count` iterations left. -/
def CreateTriangles_loop (sqrtf : F → F) (mesh : TriangleMesh F) :
    Nat → Nat → Option (List (Triangle F))
  | 0, _ => some []
  | count + 1, i =>
    match CreateTriangles_triangle sqrtf mesh i with
    | none => none
    | some triangle =>
      match CreateTriangles_loop sqrtf mesh count (i + 1) with
      | none => none
      | some rest => some (triangle :: rest)

/-- The method `TriangleMesh::CreateTriangles`; `none` when an element outside `positions`,
    `indices` or `normals` is read. -/
def CreateTriangles (sqrtf : F → F) (mesh : TriangleMesh F) : Option (TriangleMesh F) :=
  let triangleCount := mesh.indices.length / 3
  match CreateTriangles_loop sqrtf mesh triangleCount 0 with
  | none => none
  | some triangles => some { mesh with triangles := triangles }

/-- The loop of `CalculateNormals` from iteration `i` on, with `count` iterations left:
    the normals appended. -/
def CalculateNormals_loop (mesh : TriangleMesh F) : Nat → Nat → Option (List (Vector3 F))
  | 0, _ => some []
  | count + 1, i =>
    match mesh.positionAt (3 * i), mesh.positionAt (3 * i + 1), mesh.positionAt (3 * i + 2) with
    | some v0, some v1, some v2 =>
      match CalculateNormals_loop mesh count (i + 1) with
      | none => none
      | some rest => some (Vector3.Cross (Vector3.sub v1 v0) (Vector3.sub v2 v0) :: rest)
    | _, _, _ => none

/-- The method `TriangleMesh::CalculateNormals`; `none` when an element outside `positions`
    or `indices` is read. -/
def CalculateNormals (mesh : TriangleMesh F) : Option (TriangleMesh F) :=
  let triangleCount := mesh.indices.length / 3
  match CalculateNormals_loop mesh triangleCount 0 with
  | none => none
  | some normals => some { mesh with normals := mesh.normals ++ normals }

/-- The three statements `scaleTransform * p`, `rotationTransform * ...`,
    `translationTransform * ...` applied to a position by `UpdateTransforms`. -/
def transformPosition (mesh : TriangleMesh F) (position : Vector3 F) : Vector3 F :=
  Matrix.mulVector3 mesh.translationTransform
    (Matrix.mulVector3 mesh.rotationTransform (Matrix.mulVector3 mesh.scaleTransform position))

/-- Iteration `i` of the loop of `UpdateTransforms`: the new value of `triangles[i]`. -/
def UpdateTransforms_triangle (mesh : TriangleMesh F) (i : Nat) (triangle : Triangle F) :
    Option (Triangle F) :=
  match mesh.positionAt (3 * i), mesh.positionAt (3 * i + 1), mesh.positionAt (3 * i + 2),
    mesh.normals[i]? with
  | some position1, some position2, some position3, some normal =>
    some { triangle with
      v0 := mesh.transformPosition position1
      v1 := mesh.transformPosition position2
      v2 := mesh.transformPosition position3
      normal := Matrix.mulVector3 mesh.rotationTransform normal }
  | _, _, _, _ => none

/-- The loop of `UpdateTransforms` over the remaining triangles, from iteration `i` on:
    the new values of those triangles. -/
def UpdateTransforms_loop (mesh : TriangleMesh F) : Nat → List (Triangle F) →
    Option (List (Triangle F))
  | _, [] => some []
  | i, triangle :: rest =>
    match UpdateTransforms_triangle mesh i triangle with
    | none => none
    | some triangle' =>
      match UpdateTransforms_loop mesh (i + 1) rest with
      | none => none
      | some rest' => some (triangle' :: rest')

/-- The method `TriangleMesh::UpdateTransforms`: every iteration overwrites `triangles[i]`
    and `emplace_back`s its three transformed positions and its transformed normal to the
    two buffers; `none` when an element outside `positions`, `indices` or `normals` is read. -/
def UpdateTransforms (mesh : TriangleMesh F) : Option (TriangleMesh F) :=
  match UpdateTransforms_loop mesh 0 mesh.triangles with
  | none => none
  | some triangles =>
    some { mesh with
      triangles := triangles
      transformedPositions :=
        mesh.transformedPositions ++
          triangles.flatMap (fun triangle => [triangle.v0, triangle.v1, triangle.v2])
      transformedNormals := mesh.transformedNormals ++ triangles.map (fun triangle => triangle.normal) }

/-- The method `TriangleMesh::AppendTriangle`. -/
def AppendTriangle (mesh : TriangleMesh F) (triangle : Triangle F) (ignoreTransformUpdate : Bool) :
    Option (TriangleMesh F) :=
  let startIndex : Int := mesh.positions.length
  let mesh' := { mesh with
    positions := mesh.positions ++ [triangle.v0, triangle.v1, triangle.v2]
    indices := mesh.indices ++ [startIndex, startIndex + 1, startIndex + 2]
    normals := mesh.normals ++ [triangle.normal] }
  if !ignoreTransformUpdate then UpdateTransforms mesh' else some mesh'

/-- The constructor `TriangleMesh(_positions, _indices, _cullMode)`. -/
def new3 (sqrtf : F → F) (_positions : List (Vector3 F)) (_indices : List Int)
    (_cullMode : TriangleCullMode) : Option (TriangleMesh F) :=
  match CreateTriangles sqrtf
    { (TriangleMesh.default : TriangleMesh F) with
      positions := _positions, indices := _indices, cullMode := _cullMode } with
  | none => none
  | some mesh => UpdateTransforms mesh

/-- The constructor `TriangleMesh(_positions, _indices, _normals, _cullMode)`. -/
def new4 (sqrtf : F → F) (_positions : List (Vector3 F)) (_indices : List Int)
    (_normals : List (Vector3 F)) (_cullMode : TriangleCullMode) : Option (TriangleMesh F) :=
  match CreateTriangles sqrtf
    { (TriangleMesh.default : TriangleMesh F) with
      positions := _positions, indices := _indices, normals := _normals,
      cullMode := _cullMode } with
  | none => none
  | some mesh => UpdateTransforms mesh

end TriangleMesh

/-- The `struct Ray`. -/
structure Ray (F : Type) where
  origin : Vector3 F
  direction : Vector3 F
  min : F
  max : F

/-- The aggregate `Ray{ origin, direction }` with the default `min{ 0.0001f }`, `max{ FLT_MAX }`. -/
def Ray.mk2 (origin direction : Vector3 F) : Ray F := ⟨origin, direction, 1 / 10000, FLT_MAX⟩

/-- The `struct HitRecord`. -/
@[ext] structure HitRecord (F : Type) where
  origin : Vector3 F
  normal : Vector3 F
  cameraToPointDistance : F
  didHit : Bool
  materialIndex : Nat

/-- The value-initialised `HitRecord{}`: zero vectors, `t = FLT_MAX`, no hit, material 0. -/
def HitRecord.fresh : HitRecord F := ⟨Vector3.zero, Vector3.zero, FLT_MAX, false, 0⟩

/-- The `class Sphere` (`Sphere.h`). -/
structure Sphere (F : Type) where
  m_Center : Vector3 F
  m_Color : Vector3 F
  m_Radius : F
  m_MaterialIndex : Int

/-- The getter `Sphere::GetCenter`. -/
def Sphere.GetCenter (s : Sphere F) : Vector3 F := s.m_Center

/-- The getter `Sphere::GetRadius`. -/
def Sphere.GetRadius (s : Sphere F) : F := s.m_Radius

/-- The getter `Sphere::GetMaterialIndex`. -/
def Sphere.GetMaterialIndex (s : Sphere F) : Int := s.m_MaterialIndex

/-- The `enum class LightType`. -/
inductive LightType where
  | Point
  | Directional
  deriving DecidableEq, Repr

/-- The `struct Light`. -/
structure Light (F : Type) where
  origin : Vector3 F
  direction : Vector3 F
  color : ColorRGB F
  intensity : F
  type : LightType

/-- A default-initialised `Light l;`: every member has the initialiser `{}`, so the vectors
    and the colour are zero, the intensity is 0 and the type is the first enumerator. -/
def Light.default : Light F := ⟨Vector3.zero, Vector3.zero, ColorRGB.black, 0, LightType.Point⟩

/-- Modelled from the spec: `Material.h` is not among the sources; of a material the spec
    fixes that its "only contract is `Shade(hit, lightDir, viewDir) -> ColorRGB`, a pure
    function of the hit surface and the two unit directions". -/
structure Material (F : Type) where
  Shade : HitRecord F → Vector3 F → Vector3 F → ColorRGB F

/-- Modelled from the spec: `Material_SolidColor`, which "ignores geometry, returns a fixed
    diffuse color". -/
def Material_SolidColor (color : ColorRGB F) : Material F := ⟨fun _ _ _ => color⟩

/-! ## `Utils.h`, namespace `GeometryUtils` -/

namespace GeometryUtils

/-- The four-argument `HitTest_Sphere`. `sqrtf` stands for `sqrt` of `<cmath>`. -/
def HitTest_Sphere (sqrtf : F → F) (sphere : Sphere F) (ray : Ray F)
    (hitRecord : HitRecord F) (ignoreHitRecord : Bool) : Bool × HitRecord F :=
  let rayToSphere := Vector3.sub sphere.GetCenter ray.origin
  let distanceToClosestPoint := Vector3.Dot rayToSphere ray.direction
  if distanceToClosestPoint < 0 then (false, hitRecord)
  else
    let closestPointOnRay := Vector3.add ray.origin (Vector3.scale ray.direction distanceToClosestPoint)
    let pointToCenterDistanceSqrd := Vector3.SqrMagnitude (Vector3.sub closestPointOnRay sphere.GetCenter)
    if pointToCenterDistanceSqrd < sphere.GetRadius * sphere.GetRadius then
      let bSqrd := sphere.GetRadius * sphere.GetRadius - pointToCenterDistanceSqrd
      let rayToPointDistance := distanceToClosestPoint - sqrtf bSqrd
      if rayToPointDistance < ray.max ∧ rayToPointDistance > ray.min then
        if !ignoreHitRecord then
          let origin := Vector3.add ray.origin (Vector3.scale ray.direction rayToPointDistance)
          (true,
            ⟨origin, Vector3.divide (Vector3.sub origin sphere.GetCenter) sphere.GetRadius,
              rayToPointDistance, true, toUChar sphere.GetMaterialIndex⟩)
        else (true, hitRecord)
      else (false, hitRecord)
    else (false, hitRecord)

/-- The two-argument overload `HitTest_Sphere(sphere, ray)`. -/
def HitTest_Sphere_Shadow (sqrtf : F → F) (sphere : Sphere F) (ray : Ray F) : Bool :=
  (HitTest_Sphere sqrtf sphere ray HitRecord.fresh true).1

/-- The four-argument `HitTest_Plane`. -/
def HitTest_Plane (plane : Plane F) (ray : Ray F)
    (hitRecord : HitRecord F) (ignoreHitRecord : Bool) : Bool × HitRecord F :=
  let planeToRayOrigin := Vector3.sub ray.origin plane.origin
  let distanceFromPlaneToRay := Vector3.Dot planeToRayOrigin plane.normal
  let rayDotNegNormal := Vector3.Dot ray.direction (Vector3.neg plane.normal)
  if rayDotNegNormal > 0 then
    let rayToPointDistance := distanceFromPlaneToRay / rayDotNegNormal
    if rayToPointDistance < ray.max ∧ rayToPointDistance > ray.min then
      if !ignoreHitRecord then
        (true,
          ⟨Vector3.add ray.origin (Vector3.scale ray.direction rayToPointDistance), plane.normal,
            rayToPointDistance, true, plane.materialIndex⟩)
      else (true, hitRecord)
    else (false, hitRecord)
  else (false, hitRecord)

/-- The two-argument overload `HitTest_Plane(plane, ray)`. -/
def HitTest_Plane_Shadow (plane : Plane F) (ray : Ray F) : Bool :=
  (HitTest_Plane plane ray HitRecord.fresh true).1

/-- The function `IsPointInTriangleEdge`. -/
def IsPointInTriangleEdge (vertex1 vertex2 point normal : Vector3 F) : Bool :=
  let edge := Vector3.sub vertex2 vertex1
  let vertexToPoint := Vector3.sub point vertex1
  decide (Vector3.Dot (Vector3.Cross edge vertexToPoint) normal ≥ 0)

/-- The four-argument `HitTest_Triangle`. `areEqual` stands for the helper `AreEqual` of the
    absent `Math.h`. -/
def HitTest_Triangle (areEqual : F → F → Bool) (triangle : Triangle F) (ray : Ray F)
    (hitRecord : HitRecord F) (ignoreHitRecord : Bool) : Bool × HitRecord F :=
  let rayDotNormal := Vector3.Dot ray.direction triangle.normal
  if areEqual rayDotNormal 0 = true ∨
      (triangle.cullMode = TriangleCullMode.BackFaceCulling ∧ rayDotNormal > 0) ∨
      (triangle.cullMode = TriangleCullMode.FrontFaceCulling ∧ rayDotNormal < 0) then
    (false, hitRecord)
  else
    let rayToTriangle := Vector3.sub triangle.v0 ray.origin
    let cameraToPointDistance := Vector3.Dot rayToTriangle triangle.normal / rayDotNormal
    if cameraToPointDistance ≤ ray.min ∨ cameraToPointDistance ≥ ray.max then (false, hitRecord)
    else
      let hitPoint := Vector3.add ray.origin (Vector3.scale ray.direction cameraToPointDistance)
      if IsPointInTriangleEdge triangle.v0 triangle.v1 hitPoint triangle.normal = true ∧
          IsPointInTriangleEdge triangle.v1 triangle.v2 hitPoint triangle.normal = true ∧
          IsPointInTriangleEdge triangle.v2 triangle.v0 hitPoint triangle.normal = true then
        if !ignoreHitRecord then
          (true, ⟨hitPoint, triangle.normal, cameraToPointDistance, true, triangle.materialIndex⟩)
        else (true, hitRecord)
      else (false, hitRecord)

/-- The two-argument overload `HitTest_Triangle(triangle, ray)`. -/
def HitTest_Triangle_Shadow (areEqual : F → F → Bool) (triangle : Triangle F) (ray : Ray F) : Bool :=
  (HitTest_Triangle areEqual triangle ray HitRecord.fresh true).1

/-- The range-`for` of `HitTest_TriangleMesh` over the remaining triangles, with the loop
    state `nearestTriangle`, `hitRecord`, followed by the final `return`. -/
def HitTest_TriangleMesh_loop (areEqual : F → F → Bool) (ray : Ray F) (ignoreHitRecord : Bool) :
    List (Triangle F) → F → HitRecord F → Bool × HitRecord F
  | [], _, hitRecord => (!ignoreHitRecord && hitRecord.didHit, hitRecord)
  | triangle :: rest, nearestTriangle, hitRecord =>
    let r := HitTest_Triangle areEqual triangle ray HitRecord.fresh ignoreHitRecord
    let currentHitRecord := r.2
    if r.1 = true then
      if ignoreHitRecord = true then (true, hitRecord)
      else if currentHitRecord.cameraToPointDistance < nearestTriangle then
        HitTest_TriangleMesh_loop areEqual ray ignoreHitRecord rest
          currentHitRecord.cameraToPointDistance currentHitRecord
      else HitTest_TriangleMesh_loop areEqual ray ignoreHitRecord rest nearestTriangle hitRecord
    else HitTest_TriangleMesh_loop areEqual ray ignoreHitRecord rest nearestTriangle hitRecord

/-- The four-argument `HitTest_TriangleMesh`. -/
def HitTest_TriangleMesh (areEqual : F → F → Bool) (mesh : TriangleMesh F) (ray : Ray F)
    (hitRecord : HitRecord F) (ignoreHitRecord : Bool) : Bool × HitRecord F :=
  HitTest_TriangleMesh_loop areEqual ray ignoreHitRecord mesh.triangles FLT_MAX hitRecord

/-- The two-argument overload `HitTest_TriangleMesh(mesh, ray)`. -/
def HitTest_TriangleMesh_Shadow (areEqual : F → F → Bool) (mesh : TriangleMesh F) (ray : Ray F) : Bool :=
  (HitTest_TriangleMesh areEqual mesh ray HitRecord.fresh true).1

end GeometryUtils

/-- Modelled from the spec: the exact comparison the spec gives for the parallel-ray guard
    of the triangle test (`dot(rayDir, normal) == 0`); `AreEqual` of `Math.h` is not among
    the sources. -/
def AreEqual (a b : F) : Bool := decide (a = b)

/-! ## `Scene.cpp` -/

/-- Modelled from the spec: `Scene.h` is not among the sources; the collections are the
    members that `Scene.cpp` reserves, fills and iterates over, in insertion order. -/
structure Scene (F : Type) where
  m_SphereGeometries : List (Sphere F)
  m_PlaneGeometries : List (Plane F)
  m_TriangleMeshGeometries : List (TriangleMesh F)
  m_Lights : List (Light F)
  m_Materials : List (Material F)

namespace Scene

/-- The body shared by the three loops of `TryGetClosestHit`: with `hit` the result of a
    full hit test on `HitRecord hit{ }`, the loop state `(smallestHitDistance, closestHit)`
    is replaced when the test succeeded and `hit.cameraToPointDistance <= smallestHitDistance`. -/
def closestStep (state : F × HitRecord F) (hit : Bool × HitRecord F) : F × HitRecord F :=
  if hit.1 = true ∧ hit.2.cameraToPointDistance ≤ state.1 then
    (hit.2.cameraToPointDistance, hit.2)
  else state

/-- The loop state of `Scene::TryGetClosestHit` after the three loops. -/
def closestLoops (sqrtf : F → F) (areEqual : F → F → Bool) (scene : Scene F) (ray : Ray F)
    (closestHit : HitRecord F) : F × HitRecord F :=
  let afterSpheres := scene.m_SphereGeometries.foldl
    (fun state sphere =>
      closestStep state (GeometryUtils.HitTest_Sphere sqrtf sphere ray HitRecord.fresh false))
    (FLT_MAX, closestHit)
  let afterPlanes := scene.m_PlaneGeometries.foldl
    (fun state plane =>
      closestStep state (GeometryUtils.HitTest_Plane plane ray HitRecord.fresh false))
    afterSpheres
  scene.m_TriangleMeshGeometries.foldl
    (fun state triangleMesh =>
      closestStep state
        (GeometryUtils.HitTest_TriangleMesh areEqual triangleMesh ray HitRecord.fresh false))
    afterPlanes

/-- The method `Scene::TryGetClosestHit`: the returned boolean and the output `closestHit`. -/
def TryGetClosestHit (sqrtf : F → F) (areEqual : F → F → Bool) (scene : Scene F) (ray : Ray F)
    (closestHit : HitRecord F) : Bool × HitRecord F :=
  let state := closestLoops sqrtf areEqual scene ray closestHit
  (decide (state.1 ≠ FLT_MAX), state.2)

/-- The method `Scene::DoesHit`: each loop returns `true` at its first hit. -/
def DoesHit (sqrtf : F → F) (areEqual : F → F → Bool) (scene : Scene F) (ray : Ray F) : Bool :=
  if scene.m_SphereGeometries.any (fun sphere => GeometryUtils.HitTest_Sphere_Shadow sqrtf sphere ray)
  then true
  else if scene.m_PlaneGeometries.any (fun plane => GeometryUtils.HitTest_Plane_Shadow plane ray)
  then true
  else if scene.m_TriangleMeshGeometries.any
    (fun triangleMesh => GeometryUtils.HitTest_TriangleMesh_Shadow areEqual triangleMesh ray)
  then true
  else false

/-- The constructor `Scene::Scene()`: the material list holds the default solid-colour
    material (red), every other collection is empty. -/
def new : Scene F := ⟨[], [], [], [], [Material_SolidColor ⟨1, 0, 0⟩]⟩

/-- The method `Scene::AddMaterial`: the scene after `push_back` and the returned
    `static_cast<unsigned char>(m_Materials.size() - 1)`. -/
def AddMaterial (scene : Scene F) (pMaterial : Material F) : Scene F × Nat :=
  let scene' := { scene with m_Materials := scene.m_Materials ++ [pMaterial] }
  (scene', toUChar ((scene'.m_Materials.length : Int) - 1))

/-- The method `Scene::AddPointLight`: the scene after `emplace_back` and the light that the
    returned pointer refers to. -/
def AddPointLight (scene : Scene F) (origin : Vector3 F) (intensity : F) (color : ColorRGB F) :
    Scene F × Light F :=
  let l : Light F := Light.default
  let l := { l with origin := origin }
  let l := { l with intensity := intensity }
  let l := { l with color := color }
  let l := { l with type := LightType.Point }
  ({ scene with m_Lights := scene.m_Lights ++ [l] }, l)

/-- The method `Scene::AddDirectionalLight`: the scene after `emplace_back` and the light that
    the returned pointer refers to. -/
def AddDirectionalLight (scene : Scene F) (direction : Vector3 F) (intensity : F)
    (color : ColorRGB F) : Scene F × Light F :=
  let l : Light F := Light.default
  let l := { l with direction := direction }
  let l := { l with intensity := intensity }
  let l := { l with color := color }
  let l := { l with type := LightType.Directional }
  ({ scene with m_Lights := scene.m_Lights ++ [l] }, l)

end Scene

/-! ## `Utils.h`, namespace `LightUtils` -/

namespace LightUtils

/-- The function `GetDirectionToLight`: `(origin - light.origin).Normalized()`. -/
def GetDirectionToLight (sqrtf : F → F) (light : Light F) (origin : Vector3 F) : Vector3 F :=
  Vector3.Normalized sqrtf (Vector3.sub origin light.origin)

/-- The function `GetRadiance`. -/
def GetRadiance (light : Light F) (target : Vector3 F) : ColorRGB F :=
  match light.type with
  | LightType.Directional => ColorRGB.scale light.color light.intensity
  | LightType.Point =>
    ColorRGB.scale light.color
      (light.intensity / Vector3.SqrMagnitude (Vector3.sub light.origin target))

/-- The function `GetObservedArea`; `std::fmax` is the maximum. -/
def GetObservedArea (sqrtf : F → F) (light : Light F) (hitRecord : HitRecord F) : F :=
  let direction := GetDirectionToLight sqrtf light hitRecord.origin
  let dot := - Vector3.Dot direction hitRecord.normal
  max dot 0

end LightUtils

/-- What the theorems use of the rounding of the result of a `float` operation (IEEE 754
    binary32, round to nearest): it is monotone, and it leaves the `float` values `0`, `1`,
    `-1`, `-(1 - 2^-24)` (the `float` next to `-1`), `2^-24` and `2^-48` as they are. -/
structure RoundsToFloat (fl : F → F) : Prop where
  mono : ∀ x y : F, x ≤ y → fl x ≤ fl y
  exact_zero : fl 0 = 0
  exact_one : fl 1 = 1
  exact_neg_one : fl (-1) = -1
  exact_next_to_neg_one : fl (-(1 - 1 / 16777216)) = -(1 - 1 / 16777216)
  exact_ulp : fl (1 / 16777216) = 1 / 16777216
  exact_ulp_sq : fl (1 / 281474976710656) = 1 / 281474976710656

/-! ## `BRDFs.h` -/

namespace BRDF

/-- The function `FresnelFunction_Schlick`; `powf` stands for `pow` of `<cmath>`. -/
def FresnelFunction_Schlick (powf : F → F → F) (h v : Vector3 F) (f0 : ColorRGB F) : ColorRGB F :=
  let intensity := f0.r + ((1 - f0.r) * powf (1 - Vector3.Dot v h) 5)
  ⟨intensity, intensity, intensity⟩

/-- The function `NormalDistribution_GGX`; `PI` stands for the constant of the absent
    `MathHelpers.h`. Whether this function divides by zero is decided by the rounding of
    `roughnessPow4 - 1.0f`, so here every `float` operation is followed by `fl`, the rounding
    of its exact result to a `float` (the identity gives the exact arithmetic of the other
    definitions); the value of `Vector3::Dot` is taken as returned. -/
def NormalDistribution_GGX (fl : F → F) (PI : F) (n h : Vector3 F) (roughness : F) : F :=
  let roughnessPow4 := fl (fl (fl (roughness * roughness) * roughness) * roughness)
  let denominator :=
    fl (fl (fl (Vector3.Dot n h * Vector3.Dot n h) * fl (roughnessPow4 - 1)) + 1)
  fl (roughnessPow4 / fl (PI * fl (denominator * denominator)))

/-- The function `GeometryFunction_SchlickGGX`. -/
def GeometryFunction_SchlickGGX (n v : Vector3 F) (roughness : F) : F :=
  let nDotv := Vector3.Dot n v
  if nDotv = 0 then 0
  else nDotv / (nDotv * (1 - roughness) + roughness)

/-- The function `GeometryFunction_Smith`. -/
def GeometryFunction_Smith (n v l : Vector3 F) (roughness : F) : F :=
  let a := roughness * roughness
  let k := ((a + 1) * (a + 1)) / 8
  GeometryFunction_SchlickGGX n v k * GeometryFunction_SchlickGGX n l k

end BRDF

/-! ## `Camera.h`, `Camera.cpp` -/

/-- The data members of `class Camera`. -/
structure Camera (F : Type) where
  m_Origin : Vector3 F
  m_FOVAngle : F
  m_Forward : Vector3 F
  m_Up : Vector3 F
  m_Right : Vector3 F
  m_TotalPitch : F
  m_TotalYaw : F
  m_CameraMovementSpeed : F
  m_CameraRotationSpeed : F
  m_CameraToWorld : Matrix F

/-- What `Camera::Update` reads from outside the camera: `pTimer->GetElapsed()`, the four
    keys it looks up in `SDL_GetKeyboardState`, and the relative motion and the two button
    bits returned by `SDL_GetRelativeMouseState`. -/
structure CameraControls (F : Type) where
  deltaTime : F
  keyW : Bool
  keyA : Bool
  keyS : Bool
  keyD : Bool
  mouseX : Int
  mouseY : Int
  buttonRight : Bool
  buttonLeft : Bool

namespace Camera

/-- The default member initialisers of `Camera.h`, with `m_Origin` and `m_FOVAngle` as set
    by a constructor's initialiser list. -/
def members (origin : Vector3 F) (fovAngle : F) : Camera F :=
  ⟨origin, fovAngle, Vector3.UnitZ, Vector3.UnitY, Vector3.UnitX, 0, 0, 3, 2, Matrix.identity⟩

/-- The method `Camera::CalculateCameraToWorld`, as the camera it leaves behind (the matrix
    it returns is the new `m_CameraToWorld`). -/
def CalculateCameraToWorld (sinf cosf : F → F) (TO_RADIANS : F) (camera : Camera F) : Camera F :=
  let m_CameraToWorld :=
    Matrix.CreateRotation3 sinf cosf TO_RADIANS camera.m_TotalPitch camera.m_TotalYaw 0
  { camera with
    m_CameraToWorld := Matrix.mulAssign m_CameraToWorld (Matrix.CreateTranslation camera.m_Origin) }

/-- The constructor `Camera()`. -/
def new (sinf cosf : F → F) (TO_RADIANS : F) : Camera F :=
  CalculateCameraToWorld sinf cosf TO_RADIANS (members Vector3.zero 0)

/-- The constructor `Camera(origin, fovAngle)`. -/
def new2 (sinf cosf : F → F) (TO_RADIANS : F) (origin : Vector3 F) (fovAngle : F) : Camera F :=
  CalculateCameraToWorld sinf cosf TO_RADIANS (members origin fovAngle)

/-- The getter `Camera::GetOrigin`. -/
def GetOrigin (camera : Camera F) : Vector3 F := camera.m_Origin

/-- The setter `Camera::SetOrigin`, `m_Origin = origin`. -/
def SetOrigin (camera : Camera F) (origin : Vector3 F) : Camera F :=
  { camera with m_Origin := origin }

/-- The getter `Camera::GetFOVAngle`. -/
def GetFOVAngle (camera : Camera F) : F := camera.m_FOVAngle

/-- The setter `Camera::SetFOVAngle`. -/
def SetFOVAngle (camera : Camera F) (fovAngle : F) : Camera F :=
  { camera with m_FOVAngle := fovAngle }

/-- The getter `Camera::GetCameraToWorld`. -/
def GetCameraToWorld (camera : Camera F) : Matrix F := camera.m_CameraToWorld

/-- The keyboard part of `Camera::Update`: the value of `movementDirection` after the four
    key tests. -/
def Update_keys (controls : CameraControls F) : Vector3 F :=
  let movementDirection : Vector3 F := Vector3.zero
  let movementDirection :=
    if controls.keyW then { movementDirection with z := movementDirection.z + 1 }
    else movementDirection
  let movementDirection :=
    if controls.keyA then { movementDirection with x := movementDirection.x - 1 }
    else movementDirection
  let movementDirection :=
    if controls.keyS then { movementDirection with z := movementDirection.z - 1 }
    else movementDirection
  if controls.keyD then { movementDirection with x := movementDirection.x + 1 }
  else movementDirection

/-- The mouse part of `Camera::Update`: the camera and `movementDirection` after the three
    button cases. -/
def Update_mouse (camera : Camera F) (controls : CameraControls F)
    (movementDirection : Vector3 F) : Camera F × Vector3 F :=
  if controls.buttonRight && controls.buttonLeft then
    (camera, { movementDirection with y := movementDirection.y - (controls.mouseY : F) })
  else if controls.buttonRight then
    ({ camera with
        m_TotalYaw := camera.m_TotalYaw +
          (controls.mouseX : F) * camera.m_CameraRotationSpeed * controls.deltaTime
        m_TotalPitch := camera.m_TotalPitch -
          (controls.mouseY : F) * camera.m_CameraRotationSpeed * controls.deltaTime },
      movementDirection)
  else if controls.buttonLeft then
    ({ camera with
        m_TotalYaw := camera.m_TotalYaw +
          (controls.mouseX : F) * camera.m_CameraRotationSpeed * controls.deltaTime },
      { movementDirection with z := movementDirection.z - (controls.mouseY : F) })
  else (camera, movementDirection)

/-- The movement part of `Camera::Update`: when `movementDirection != Vector3::Zero` the
    origin advances along the direction taken in the axes of the stored transform. -/
def Update_move (sqrtf : F → F) (camera : Camera F) (controls : CameraControls F)
    (movementDirection : Vector3 F) : Camera F :=
  if Vector3.notEqual movementDirection Vector3.zero then
    let movementDirection :=
      Vector3.add
        (Vector3.add (Vector3.scale camera.m_CameraToWorld.GetAxisX movementDirection.x)
          (Vector3.scale camera.m_CameraToWorld.GetAxisY movementDirection.y))
        (Vector3.scale camera.m_CameraToWorld.GetAxisZ movementDirection.z)
    { camera with
      m_Origin := Vector3.add camera.m_Origin
        (Vector3.scale
          (Vector3.scale (Vector3.Normalized sqrtf movementDirection) camera.m_CameraMovementSpeed)
          controls.deltaTime) }
  else camera

/-- The method `Camera::Update`: keys, mouse, movement, then `CalculateCameraToWorld()`. -/
def Update (sqrtf sinf cosf : F → F) (TO_RADIANS : F) (camera : Camera F)
    (controls : CameraControls F) : Camera F :=
  let moved := Update_mouse camera controls (Update_keys controls)
  CalculateCameraToWorld sinf cosf TO_RADIANS (Update_move sqrtf moved.1 controls moved.2)

end Camera

/-! ## `Renderer.h`, `Renderer.cpp` -/

/-- The `enum class LightingMode` of `Renderer`. -/
inductive LightingMode where
  | ObservedArea
  | Radiance
  | BRDF
  | Combined
  deriving DecidableEq, Repr

/-- The state of `class Renderer` that its methods read and write; the SDL window and
    surface handles are left out. -/
structure Renderer where
  m_CurrentLightingMode : LightingMode
  m_ShadowsEnabled : Bool
  m_Width : Int
  m_Height : Int

/-- Conversion of an `int` to `uint32_t`, as in `pixelIndex % m_Width`. -/
def toUInt32 (i : Int) : Nat := (i % 4294967296).toNat

namespace Renderer

/-- A renderer as constructed for a window of the given size: the member initialisers
    `LightingMode::Combined` and `m_ShadowsEnabled{ true }`. -/
def new (width height : Int) : Renderer := ⟨LightingMode.Combined, true, width, height⟩

/-- The method `Renderer::CycleLightingMode`; the call of `PrintCurrentLightingMode` only
    writes to `std::cout`. -/
def CycleLightingMode (renderer : Renderer) : Renderer :=
  match renderer.m_CurrentLightingMode with
  | LightingMode.ObservedArea => { renderer with m_CurrentLightingMode := LightingMode.Radiance }
  | LightingMode.Radiance => { renderer with m_CurrentLightingMode := LightingMode.BRDF }
  | LightingMode.BRDF => { renderer with m_CurrentLightingMode := LightingMode.Combined }
  | LightingMode.Combined => { renderer with m_CurrentLightingMode := LightingMode.ObservedArea }

/-- The method `Renderer::ToggleShadows`. -/
def ToggleShadows (renderer : Renderer) : Renderer :=
  { renderer with m_ShadowsEnabled := !renderer.m_ShadowsEnabled }

/-- The camera ray `hitRay` of `RenderPixel`. -/
def RenderPixel_hitRay (sqrtf : F → F) (renderer : Renderer) (pixelIndex : Nat)
    (FOV aspectRatio : F) (cameraToWorld : Matrix F) (cameraOrigin : Vector3 F) : Ray F :=
  let px := pixelIndex % toUInt32 renderer.m_Width
  let py := pixelIndex / toUInt32 renderer.m_Width
  let cX := (((2 * ((px : F) + 1 / 2)) / (renderer.m_Width : F)) - 1) * aspectRatio * FOV
  let cY := (1 - ((2 * (py : F)) / (renderer.m_Height : F))) * FOV
  let rayDirection := Vector3.add
    (Vector3.add (Vector3.scale cameraToWorld.GetAxisX cX) (Vector3.scale cameraToWorld.GetAxisY cY))
    cameraToWorld.GetAxisZ
  Ray.mk2 cameraOrigin (Vector3.Normalized sqrtf rayDirection)

/-- The shadow ray `pointToLight` of `RenderPixel` for a light: from the hit point along
    `directionToLight`, with `min = 0.01f` and `max = distanceFromLight`. -/
def RenderPixel_pointToLight (sqrtf : F → F) (hitRecord : HitRecord F) (light : Light F) : Ray F :=
  let hitToLight := Vector3.sub light.origin hitRecord.origin
  let distanceFromLight := Vector3.Magnitude sqrtf hitToLight
  let directionToLight := Vector3.divide hitToLight distanceFromLight
  ⟨hitRecord.origin, directionToLight, 1 / 100, distanceFromLight⟩

/-- The loop of `RenderPixel` over the remaining lights, with the loop state `finalColor`;
    `none` when `materials[hitRecord.materialIndex]` lies outside the material list. -/
def RenderPixel_lights (sqrtf : F → F) (areEqual : F → F → Bool) (renderer : Renderer)
    (scene : Scene F) (hitRecord : HitRecord F) (rayDirection : Vector3 F) :
    List (Light F) → ColorRGB F → Option (ColorRGB F)
  | [], finalColor => some finalColor
  | light :: rest, finalColor =>
    let pointToLight := RenderPixel_pointToLight sqrtf hitRecord light
    let directionToLight := pointToLight.direction
    let isInShadow :=
      renderer.m_ShadowsEnabled && scene.DoesHit sqrtf areEqual pointToLight
    if isInShadow = false then
      let illumination := LightUtils.GetObservedArea sqrtf light hitRecord
      let radiance := LightUtils.GetRadiance light hitRecord.origin
      match scene.m_Materials[hitRecord.materialIndex]? with
      | none => none
      | some material =>
        let brdf := material.Shade hitRecord directionToLight (Vector3.neg rayDirection)
        RenderPixel_lights sqrtf areEqual renderer scene hitRecord rayDirection rest
          (match renderer.m_CurrentLightingMode with
          | LightingMode.Radiance => ColorRGB.add finalColor radiance
          | LightingMode.ObservedArea =>
            ColorRGB.add finalColor ⟨illumination, illumination, illumination⟩
          | LightingMode.BRDF => ColorRGB.add finalColor brdf
          | LightingMode.Combined =>
            ColorRGB.add finalColor (ColorRGB.scale (ColorRGB.mul radiance brdf) illumination))
    else RenderPixel_lights sqrtf areEqual renderer scene hitRecord rayDirection rest finalColor

/-- The method `Renderer::RenderPixel` up to the call of `MaxToOne`: the index
    `px + (py * m_Width)` of the buffer element that is written and the value of
    `finalColor` before it is clamped; `none` when `m_Width` is zero or a material outside
    the material list is read. -/
def RenderPixel (sqrtf : F → F) (areEqual : F → F → Bool) (renderer : Renderer)
    (scene : Scene F) (pixelIndex : Nat) (FOV aspectRatio : F) (cameraToWorld : Matrix F)
    (cameraOrigin : Vector3 F) : Option (Nat × ColorRGB F) :=
  if toUInt32 renderer.m_Width = 0 then none
  else
    let px := pixelIndex % toUInt32 renderer.m_Width
    let py := pixelIndex / toUInt32 renderer.m_Width
    let hitRay := RenderPixel_hitRay sqrtf renderer pixelIndex FOV aspectRatio cameraToWorld
      cameraOrigin
    let closest := scene.TryGetClosestHit sqrtf areEqual hitRay HitRecord.fresh
    let finalColor :=
      if closest.1 = true then
        RenderPixel_lights sqrtf areEqual renderer scene closest.2 hitRay.direction
          scene.m_Lights ColorRGB.black
      else some ColorRGB.black
    match finalColor with
    | none => none
    | some color => some ((px + py * toUInt32 renderer.m_Width) % 4294967296, color)

end Renderer

/-! ## Quantities named by the specification -/

/-- The point `ray.origin + ray.direction * t` of a ray. -/
def Ray.pointAt (ray : Ray F) (t : F) : Vector3 F :=
  Vector3.add ray.origin (Vector3.scale ray.direction t)

/-- The projection `p = dot(center - ray.origin, ray.direction)` of the sphere test. -/
def sphereProjection (sphere : Sphere F) (ray : Ray F) : F :=
  Vector3.Dot (Vector3.sub sphere.GetCenter ray.origin) ray.direction

/-- The squared distance `q` from the centre to the point `ray.origin + p * ray.direction`. -/
def spherePerpDistSq (sphere : Sphere F) (ray : Ray F) : F :=
  Vector3.SqrMagnitude (Vector3.sub (ray.pointAt (sphereProjection sphere ray)) sphere.GetCenter)

/-- The near distance `t = p - sqrt(r^2 - q)` of the sphere test. -/
def sphereNearDistance (sqrtf : F → F) (sphere : Sphere F) (ray : Ray F) : F :=
  sphereProjection sphere ray -
    sqrtf (sphere.GetRadius * sphere.GetRadius - spherePerpDistSq sphere ray)

/-- The distance `dot(ray.origin - plane.origin, plane.normal) / dot(ray.direction, -plane.normal)`
    along the ray to the plane through `origin` with normal `normal`. -/
def planeDistance (origin normal : Vector3 F) (ray : Ray F) : F :=
  Vector3.Dot (Vector3.sub ray.origin origin) normal /
    Vector3.Dot ray.direction (Vector3.neg normal)

/-- The plane distance as the specification writes it,
    `dot(origin - rayOrigin, normal) / dot(rayDir, -normal)`. -/
def planeDistance_spec (origin normal : Vector3 F) (ray : Ray F) : F :=
  Vector3.Dot (Vector3.sub origin ray.origin) normal /
    Vector3.Dot ray.direction (Vector3.neg normal)

/-- The plane-intersection distance of the triangle test,
    `dot(v0 - ray.origin, normal) / dot(ray.direction, normal)`. -/
def trianglePlaneDistance (triangle : Triangle F) (ray : Ray F) : F :=
  Vector3.Dot (Vector3.sub triangle.v0 ray.origin) triangle.normal /
    Vector3.Dot ray.direction triangle.normal

/-- The three edge tests of `HitTest_Triangle` at a point. -/
def passesEdgeTests (triangle : Triangle F) (point : Vector3 F) : Prop :=
  GeometryUtils.IsPointInTriangleEdge triangle.v0 triangle.v1 point triangle.normal = true ∧
  GeometryUtils.IsPointInTriangleEdge triangle.v1 triangle.v2 point triangle.normal = true ∧
  GeometryUtils.IsPointInTriangleEdge triangle.v2 triangle.v0 point triangle.normal = true

instance (triangle : Triangle F) (point : Vector3 F) : Decidable (passesEdgeTests triangle point) := by
  unfold passesEdgeTests; infer_instance

/-- The results of the full hit tests of all primitives of the scene on fresh records:
    spheres, then planes, then triangle meshes. -/
def Scene.fullHitTests (sqrtf : F → F) (areEqual : F → F → Bool) (scene : Scene F) (ray : Ray F) :
    List (Bool × HitRecord F) :=
  scene.m_SphereGeometries.map
      (fun sphere => GeometryUtils.HitTest_Sphere sqrtf sphere ray HitRecord.fresh false) ++
    scene.m_PlaneGeometries.map
      (fun plane => GeometryUtils.HitTest_Plane plane ray HitRecord.fresh false) ++
    scene.m_TriangleMeshGeometries.map
      (fun triangleMesh =>
        GeometryUtils.HitTest_TriangleMesh areEqual triangleMesh ray HitRecord.fresh false)

/-- The sum of a list of colours. -/
def ColorRGB.sum (colors : List (ColorRGB F)) : ColorRGB F :=
  colors.foldr ColorRGB.add ColorRGB.black

/-- The closest hit of the camera ray of a pixel: the boolean and the record that
    `RenderPixel` gets from `TryGetClosestHit`. -/
def Renderer.closestHitOfPixel (sqrtf : F → F) (areEqual : F → F → Bool) (renderer : Renderer)
    (scene : Scene F) (pixelIndex : Nat) (FOV aspectRatio : F) (cameraToWorld : Matrix F)
    (cameraOrigin : Vector3 F) : Bool × HitRecord F :=
  scene.TryGetClosestHit sqrtf areEqual
    (Renderer.RenderPixel_hitRay sqrtf renderer pixelIndex FOV aspectRatio cameraToWorld cameraOrigin)
    HitRecord.fresh

/-- A light is skipped at a hit: shadows are enabled and `Scene::DoesHit` is true for the
    shadow ray from the hit point towards the light. -/
def Renderer.skipsLight (sqrtf : F → F) (areEqual : F → F → Bool) (renderer : Renderer)
    (scene : Scene F) (hitRecord : HitRecord F) (light : Light F) : Bool :=
  renderer.m_ShadowsEnabled &&
    scene.DoesHit sqrtf areEqual (Renderer.RenderPixel_pointToLight sqrtf hitRecord light)

/-- The term `radiance(light, hitPoint) * Shade(hit, directionToLight, -rayDirection) *
    observedArea(light, hit)` of a light. -/
def Renderer.combinedTerm (sqrtf : F → F) (material : Material F) (hitRecord : HitRecord F)
    (rayDirection : Vector3 F) (light : Light F) : ColorRGB F :=
  ColorRGB.scale
    (ColorRGB.mul (LightUtils.GetRadiance light hitRecord.origin)
      (material.Shade hitRecord (Renderer.RenderPixel_pointToLight sqrtf hitRecord light).direction
        (Vector3.neg rayDirection)))
    (LightUtils.GetObservedArea sqrtf light hitRecord)

/-- The triangle cache of a mesh has `indices.size() / 3` entries. -/
def TriangleMesh.cacheInvariant (mesh : TriangleMesh F) : Prop :=
  mesh.triangles.length = mesh.indices.length / 3

/-- Each of the first `3 * (indices.size() / 3)` indices `i` satisfies
    `0 <= i < positions.size()`. -/
def TriangleMesh.indicesInRange (mesh : TriangleMesh F) : Prop :=
  ∀ k : Nat, k < 3 * (mesh.indices.length / 3) →
    ∀ index : Int, mesh.indices[k]? = some index →
      0 ≤ index ∧ index < (mesh.positions.length : Int)

/-- Every element that the loops over `indices.size() / 3` triangles read exists: there are
    at least `indices.size() / 3` normals and the indices are in range. -/
def TriangleMesh.inRange (mesh : TriangleMesh F) : Prop :=
  mesh.indices.length / 3 ≤ mesh.normals.length ∧ mesh.indicesInRange

/-- The calls of the round trip under the identity transform, on a mesh whose buffers of
    transformed positions and normals are empty: `CreateTriangles`, `Scale((1,1,1))`,
    `RotateY(0)`, `Translate((0,0,0))`, `UpdateTransforms`. -/
def TriangleMesh.identityRoundTrip (sqrtf sinf cosf : F → F) (TO_RADIANS : F)
    (mesh : TriangleMesh F) : Option (TriangleMesh F) :=
  match TriangleMesh.CreateTriangles sqrtf mesh with
  | none => none
  | some created =>
    TriangleMesh.UpdateTransforms
      (TriangleMesh.Translate
        (TriangleMesh.RotateY sinf cosf TO_RADIANS (TriangleMesh.Scale created ⟨1, 1, 1⟩) 0)
        ⟨0, 0, 0⟩)

/-- The divisor `dot(n,v)*(1 - roughness) + roughness` of the Schlick-GGX geometry term. -/
def schlickGGXDivisor (n v : Vector3 F) (roughness : F) : F :=
  Vector3.Dot n v * (1 - roughness) + roughness

/-- The remapped roughness `k = (roughness^2 + 1)^2 / 8` of the Smith geometry term. -/
def smithK (roughness : F) : F := (roughness ^ 2 + 1) ^ 2 / 8

/-- The divisor `pi * (dot(n,h)^2 * (a - 1) + 1)^2` of the GGX distribution, `a = roughness^4`. -/
def ggxDivisor (PI : F) (n h : Vector3 F) (roughness : F) : F :=
  PI * (Vector3.Dot n h ^ 2 * (roughness ^ 4 - 1) + 1) ^ 2

/-- The value of `roughnessPow4` that `NormalDistribution_GGX` computes. -/
def ggxRoughnessPow4 (fl : F → F) (roughness : F) : F :=
  fl (fl (fl (roughness * roughness) * roughness) * roughness)

/-- The value of `denominator` that `NormalDistribution_GGX` computes. -/
def ggxDenominator (fl : F → F) (n h : Vector3 F) (roughness : F) : F :=
  fl (fl (fl (Vector3.Dot n h * Vector3.Dot n h) * fl (ggxRoughnessPow4 fl roughness - 1)) + 1)

/-- The divisor `PI * (denominator * denominator)` that `NormalDistribution_GGX` computes and
    divides by. -/
def ggxComputedDivisor (fl : F → F) (PI : F) (n h : Vector3 F) (roughness : F) : F :=
  fl (PI * fl (ggxDenominator fl n h roughness * ggxDenominator fl n h roughness))

/-- The unit vector `(light.origin - target) / |light.origin - target|` from a target point
    towards a light. -/
def directionTowardsLight (sqrtf : F → F) (light : Light F) (target : Vector3 F) : Vector3 F :=
  Vector3.divide (Vector3.sub light.origin target)
    (Vector3.Magnitude sqrtf (Vector3.sub light.origin target))

/-- The stored transform of a camera is the one of its current pose:
    `GetCameraToWorld() = CreateRotation(pitch, yaw, 0) * CreateTranslation(origin)`. -/
def Camera.transformCurrent (sinf cosf : F → F) (TO_RADIANS : F) (camera : Camera F) : Prop :=
  camera.GetCameraToWorld =
    Matrix.mul
      (Matrix.CreateRotation3 sinf cosf TO_RADIANS camera.m_TotalPitch camera.m_TotalYaw 0)
      (Matrix.CreateTranslation camera.GetOrigin)

/-- Two lights agree in every member other than `direction`. -/
def Light.sameButDirection (light light' : Light F) : Prop :=
  light.origin = light'.origin ∧ light.color = light'.color ∧
    light.intensity = light'.intensity ∧ light.type = light'.type

/-- Two scenes have the same geometry and materials, and lights that pairwise agree in every
    member other than `direction`. -/
def Scene.sameButLightDirections (scene scene' : Scene F) : Prop :=
  scene.m_SphereGeometries = scene'.m_SphereGeometries ∧
    scene.m_PlaneGeometries = scene'.m_PlaneGeometries ∧
    scene.m_TriangleMeshGeometries = scene'.m_TriangleMeshGeometries ∧
    scene.m_Materials = scene'.m_Materials ∧
    List.Forall₂ Light.sameButDirection scene.m_Lights scene'.m_Lights

/-- Some triangle of the mesh passes the full triangle test for the ray. -/
def someTriangleHit (areEqual : F → F → Bool) (mesh : TriangleMesh F) (ray : Ray F) : Prop :=
  ∃ triangle ∈ mesh.triangles,
    (GeometryUtils.HitTest_Triangle areEqual triangle ray HitRecord.fresh false).1 = true

/-! ## Concrete inputs -/

/-- The scenario sphere: centre `(0,0,0)`, radius 1 (colour and material as `AddSphere` sets them). -/
def unitSphere : Sphere ℚ := ⟨⟨0, 0, 0⟩, ⟨1, 1, 1⟩, 1, 0⟩

/-- The scenario ray towards the sphere: origin `(0,0,-5)`, direction `(0,0,1)`, default bounds. -/
def sphereRay : Ray ℚ := Ray.mk2 ⟨0, 0, -5⟩ ⟨0, 0, 1⟩

/-- The scenario plane: origin `(0,0,0)`, normal `(0,1,0)`. -/
def groundPlane : Plane ℚ := ⟨⟨0, 0, 0⟩, ⟨0, 1, 0⟩, 0⟩

/-- The scenario ray towards the plane: origin `(0,5,0)`, direction `(0,-1,0)`, default bounds. -/
def planeRay : Ray ℚ := Ray.mk2 ⟨0, 5, 0⟩ ⟨0, -1, 0⟩

/-- A triangle in the plane `z = 0` with normal `(0,0,1) = cross(v1 - v0, v2 - v0)`. -/
def flatTriangle (cullMode : TriangleCullMode) : Triangle ℚ :=
  ⟨⟨0, 0, 0⟩, ⟨1, 0, 0⟩, ⟨0, 1, 0⟩, ⟨0, 0, 1⟩, cullMode, 0⟩

/-- A ray striking `flatTriangle` from behind (`dot(direction, normal) = 1`), for use with
    an interior point, an edge point or a vertex as `(x, y)`. -/
def backRay (x y : ℚ) : Ray ℚ := Ray.mk2 ⟨x, y, -1⟩ ⟨0, 0, 1⟩

/-- A ray striking `flatTriangle` from the front (`dot(direction, normal) = -1`). -/
def frontRay (x y : ℚ) : Ray ℚ := Ray.mk2 ⟨x, y, 1⟩ ⟨0, 0, -1⟩

/-- A default-constructed mesh holding the given triangles. -/
def meshOf (triangles : List (Triangle ℚ)) : TriangleMesh ℚ :=
  { (TriangleMesh.default : TriangleMesh ℚ) with triangles := triangles }

/-- A scene with the scenario sphere, the scenario plane and a one-triangle mesh. -/
def demoScene : Scene ℚ :=
  ⟨[unitSphere], [groundPlane], [meshOf [flatTriangle TriangleCullMode.NoCulling]], [],
    [Material_SolidColor ⟨1, 0, 0⟩]⟩

/-- A triangle in the plane `z = FLT_MAX`. -/
def farTriangle : Triangle ℚ :=
  ⟨⟨0, 0, FLT_MAX⟩, ⟨1, 0, FLT_MAX⟩, ⟨0, 1, FLT_MAX⟩, ⟨0, 0, 1⟩, TriangleCullMode.NoCulling, 0⟩

/-- A ray from `(1/4, 1/4, 0)` along `(0,0,1)` whose `max` lies above `FLT_MAX`
    (in C++ only `+infinity` does). -/
def unboundedRay : Ray ℚ := ⟨⟨1 / 4, 1 / 4, 0⟩, ⟨0, 0, 1⟩, 1 / 10000, FLT_MAX + 1⟩

/-- A unit sphere centred at `(0,1,0)`, which the scenario ray towards the sphere touches in
    the single point `(0,0,0)`. -/
def tangentSphere : Sphere ℚ := ⟨⟨0, 1, 0⟩, ⟨1, 1, 1⟩, 1, 0⟩

/-- A ray parallel to the scenario plane: origin `(0,5,0)`, direction `(1,0,0)`. -/
def parallelRay : Ray ℚ := Ray.mk2 ⟨0, 5, 0⟩ ⟨1, 0, 0⟩

/-- A plane through the origin with normal `(1,1,0)`; it crosses the scenario plane in the
    line `x = y = 0`, which the scenario ray towards the plane meets in `(0,0,0)`. -/
def slopedPlane : Plane ℚ := ⟨⟨0, 0, 0⟩, ⟨1, 1, 0⟩, 0⟩

/-- A scene of the given planes, in the given order, and nothing else. -/
def planeScene (planes : List (Plane ℚ)) : Scene ℚ :=
  { (Scene.new : Scene ℚ) with m_PlaneGeometries := planes }

/-- The colour white. -/
def white : ColorRGB ℚ := ⟨1, 1, 1⟩

/-- The scenario directional light as `AddDirectionalLight` builds it: intensity 10, white,
    shining along `(0,-1,0)`, origin left at `(0,0,0)`. -/
def sunLight : Light ℚ := ⟨Vector3.zero, ⟨0, -1, 0⟩, white, 10, LightType.Directional⟩

/-- The scenario point light as `AddPointLight` builds it: intensity 10, white, at `(0,2,0)`,
    at distance 2 from the point `(0,0,0)`. -/
def lampLight : Light ℚ := ⟨⟨0, 2, 0⟩, Vector3.zero, white, 10, LightType.Point⟩

/-- A point light at `(0,1,0)`, straight above the point `(0,0,0)`. -/
def overheadLight : Light ℚ := ⟨⟨0, 1, 0⟩, Vector3.zero, white, 10, LightType.Point⟩

/-- A hit record at `(0,0,0)` on a surface facing up (normal `(0,1,0)`), at distance 5. -/
def floorHit : HitRecord ℚ := ⟨⟨0, 0, 0⟩, ⟨0, 1, 0⟩, 5, true, 0⟩

/-- The default material of a scene, solid red. -/
def redMaterial : Material ℚ := Material_SolidColor ⟨1, 0, 0⟩

/-- A solid blue material. -/
def blueMaterial : Material ℚ := Material_SolidColor ⟨0, 0, 1⟩

/-- A scene whose material list holds 256 entries, as after the constructor and 255 calls of
    `AddMaterial`. -/
def crowdedScene : Scene ℚ :=
  { (Scene.new : Scene ℚ) with m_Materials := List.replicate 256 redMaterial }

/-- A renderer for a window of one pixel, as constructed (`Combined`, shadows enabled). -/
def onePixelRenderer : Renderer := Renderer.new 1 1

/-- A wall in the plane `z = 4` facing the camera at the origin. -/
def wallPlane : Plane ℚ := ⟨⟨0, 0, 4⟩, ⟨0, 0, -1⟩, 0⟩

/-- A screen in the plane `z = 2` facing the wall; rays from the camera pass it from behind. -/
def screenPlane : Plane ℚ := ⟨⟨0, 0, 2⟩, ⟨0, 0, 1⟩, 0⟩

/-- A point light between the screen and the wall, at distance 1 from the wall point `(0,3,4)`. -/
def nearLight : Light ℚ := ⟨⟨0, 3, 3⟩, Vector3.zero, white, 10, LightType.Point⟩

/-- A point light behind the screen, at distance 5 from the wall point `(0,3,4)`. -/
def farLight : Light ℚ := ⟨⟨0, 3, -1⟩, Vector3.zero, white, 10, LightType.Point⟩

/-- A scene with the wall, the screen, the two lights and the default material. -/
def wallScene : Scene ℚ := ⟨[], [wallPlane, screenPlane], [], [nearLight, farLight], [redMaterial]⟩

/-- The record of the wall point `(0,3,4)` hit by the camera ray of the one-pixel renderer. -/
def wallHit : HitRecord ℚ := ⟨⟨0, 3, 4⟩, ⟨0, 0, -1⟩, 5, true, 0⟩

/-- A rational stand-in for `sinf`, exact at 0: the Taylor polynomial `x - x^3/6`. -/
def sinApprox (x : ℚ) : ℚ := x - x ^ 3 / 6

/-- A rational stand-in for `cosf`, exact at 0: the Taylor polynomial `1 - x^2/2`. -/
def cosApprox (x : ℚ) : ℚ := 1 - x ^ 2 / 2

/-- A rational stand-in for `TO_RADIANS = PI / 180`. -/
def toRadiansApprox : ℚ := 355 / (113 * 180)

/-- A mesh as the demo scene builds it: default-constructed, then
    `AppendTriangle(triangle, true)` with the flat triangle. -/
def appendedMesh : TriangleMesh ℚ :=
  { (TriangleMesh.default : TriangleMesh ℚ) with
    positions := [⟨0, 0, 0⟩, ⟨1, 0, 0⟩, ⟨0, 1, 0⟩]
    indices := [0, 1, 2]
    normals := [⟨0, 0, 1⟩] }

/-- A unit square of two triangles that share two of its four vertices. -/
def quadMesh : TriangleMesh ℚ :=
  { (TriangleMesh.default : TriangleMesh ℚ) with
    positions := [⟨0, 0, 0⟩, ⟨1, 0, 0⟩, ⟨1, 1, 0⟩, ⟨0, 1, 0⟩]
    indices := [0, 1, 2, 0, 2, 3]
    normals := [⟨0, 0, 1⟩, ⟨0, 0, 1⟩] }

/-- The camera of the demo scenes after `Initialize`: default-constructed, then
    `SetOrigin({ 0, 3, -9 })` and `SetFOVAngle(45)`. -/
def sceneCamera : Camera ℚ :=
  ((Camera.new sinApprox cosApprox toRadiansApprox).SetOrigin ⟨0, 3, -9⟩).SetFOVAngle 45

/-- Controls of a frame in which nothing is pressed or moved. -/
def idleControls : CameraControls ℚ := ⟨1 / 60, false, false, false, false, 0, 0, false, false⟩

/-- A surface normal along `+z`. -/
def upNormal : Vector3 ℚ := ⟨0, 0, 1⟩

/-- A view direction along `-z`, opposite to `upNormal`. -/
def downView : Vector3 ℚ := ⟨0, 0, -1⟩

/-- The power function at the rationals for an exponent that is a natural number. -/
def powApprox (x y : ℚ) : ℚ := x ^ y.num.toNat

/-- A rational stand-in for the constant `PI`. -/
def piApprox : ℚ := 355 / 113

/-- The `float` nearest to pi, `13176795 / 2^22`. -/
def piFloat : ℚ := 13176795 / 4194304

/-- Rounding of a rational to the nearest integer, a tie going to the even one. -/
def roundHalfEven (t : ℚ) : ℤ :=
  if t - ⌊t⌋ < 1 / 2 then ⌊t⌋
  else if 1 / 2 < t - ⌊t⌋ then ⌊t⌋ + 1
  else if ⌊t⌋ % 2 = 0 then ⌊t⌋ else ⌊t⌋ + 1

/-- The exponent of the binade of a rational among the binary32 numbers: the integer part of
    the binary logarithm of its absolute value, and `-126` for the subnormal range. -/
def binary32Exponent (x : ℚ) : ℤ := max (Int.log 2 |x|) (-126)

/-- Rounding of a rational to binary32: to the nearest multiple of `2^(e - 23)`, with `e` the
    exponent of its binade, a tie going to the even one. Overflow to infinity is left out. -/
def roundBinary32 (x : ℚ) : ℚ :=
  (roundHalfEven (x / 2 ^ (binary32Exponent x - 23)) : ℚ) * 2 ^ (binary32Exponent x - 23)

/-- A renderer for a window of 4 by 3 pixels. -/
def stripRenderer : Renderer := Renderer.new 4 3

/-- The wall scene with the `direction` member of both lights changed. -/
def wallSceneRedirected : Scene ℚ :=
  { wallScene with
    m_Lights := [{ nearLight with direction := ⟨0, -1, 0⟩ }, { farLight with direction := ⟨1, 0, 0⟩ }] }

/-- A record, already marked as a hit, as left in a caller's variable by an earlier test. -/
def staleHit : HitRecord ℚ := ⟨⟨7, 7, 7⟩, ⟨0, 1, 0⟩, 3, true, 2⟩

/-! # Theorems -/

open GeometryUtils

/-! ## The hit tests, case by case -/

/-- The sphere test returns `true` exactly when none of its guards rejects the ray. -/
theorem HitTest_Sphere_fst (sqrtf : F → F) (sphere : Sphere F) (ray : Ray F)
    (hitRecord : HitRecord F) (ignoreHitRecord : Bool) :
    (HitTest_Sphere sqrtf sphere ray hitRecord ignoreHitRecord).1 = true ↔
      (0 ≤ sphereProjection sphere ray ∧
        spherePerpDistSq sphere ray < sphere.GetRadius * sphere.GetRadius ∧
        ray.min < sphereNearDistance sqrtf sphere ray ∧
        sphereNearDistance sqrtf sphere ray < ray.max) := by
  unfold HitTest_Sphere sphereNearDistance spherePerpDistSq sphereProjection Ray.pointAt
  simp only []
  split_ifs with h1 h2 h3 h4 <;>
  first
  | exact ⟨fun _ => ⟨not_lt.mp h1, h2, h3.2, h3.1⟩, fun _ => by simp⟩
  | exact ⟨fun h => False.elim (by simp at h), fun h =>
      absurd h (fun ⟨a, b, c, d⟩ => by
        first
        | exact absurd a (not_le.mpr h1)
        | exact h2 b
        | exact h3 ⟨d, c⟩)⟩

/-- The record written by a successful full sphere test. -/
theorem HitTest_Sphere_snd (sqrtf : F → F) (sphere : Sphere F) (ray : Ray F)
    (hitRecord : HitRecord F)
    (h : (HitTest_Sphere sqrtf sphere ray hitRecord false).1 = true) :
    (HitTest_Sphere sqrtf sphere ray hitRecord false).2 =
      ⟨ray.pointAt (sphereNearDistance sqrtf sphere ray),
        Vector3.divide
          (Vector3.sub (ray.pointAt (sphereNearDistance sqrtf sphere ray)) sphere.GetCenter)
          sphere.GetRadius,
        sphereNearDistance sqrtf sphere ray, true, toUChar sphere.GetMaterialIndex⟩ := by
  revert h
  unfold HitTest_Sphere sphereNearDistance spherePerpDistSq sphereProjection Ray.pointAt
  simp only []
  split_ifs <;> simp_all

/-- With `ignoreHitRecord` set the sphere test leaves the record alone. -/
theorem HitTest_Sphere_snd_ignore (sqrtf : F → F) (sphere : Sphere F) (ray : Ray F)
    (hitRecord : HitRecord F) :
    (HitTest_Sphere sqrtf sphere ray hitRecord true).2 = hitRecord := by
  unfold HitTest_Sphere
  simp only []
  split_ifs <;> simp_all

/-- The plane test returns `true` exactly when none of its guards rejects the ray. -/
theorem HitTest_Plane_fst (plane : Plane F) (ray : Ray F)
    (hitRecord : HitRecord F) (ignoreHitRecord : Bool) :
    (HitTest_Plane plane ray hitRecord ignoreHitRecord).1 = true ↔
      (0 < Vector3.Dot ray.direction (Vector3.neg plane.normal) ∧
        ray.min < planeDistance plane.origin plane.normal ray ∧
        planeDistance plane.origin plane.normal ray < ray.max) := by
  unfold HitTest_Plane planeDistance
  simp only []
  split_ifs with h1 h2 h3 <;>
  first
  | exact ⟨fun _ => ⟨h1, h2.2, h2.1⟩, fun _ => by simp⟩
  | exact ⟨fun h => False.elim (by simp at h), fun h =>
      absurd h (fun ⟨a, b, c⟩ => by
        first
        | exact h1 a
        | exact h2 ⟨c, b⟩)⟩

/-- The record written by a successful full plane test. -/
theorem HitTest_Plane_snd (plane : Plane F) (ray : Ray F) (hitRecord : HitRecord F)
    (h : (HitTest_Plane plane ray hitRecord false).1 = true) :
    (HitTest_Plane plane ray hitRecord false).2 =
      ⟨ray.pointAt (planeDistance plane.origin plane.normal ray), plane.normal,
        planeDistance plane.origin plane.normal ray, true, plane.materialIndex⟩ := by
  revert h
  unfold HitTest_Plane planeDistance Ray.pointAt
  simp only []
  split_ifs <;> simp_all

/-- The triangle test returns `true` exactly when none of its guards rejects the ray. -/
theorem HitTest_Triangle_fst (areEqual : F → F → Bool) (triangle : Triangle F) (ray : Ray F)
    (hitRecord : HitRecord F) (ignoreHitRecord : Bool) :
    (HitTest_Triangle areEqual triangle ray hitRecord ignoreHitRecord).1 = true ↔
      (areEqual (Vector3.Dot ray.direction triangle.normal) 0 = false ∧
        ¬ (triangle.cullMode = TriangleCullMode.BackFaceCulling ∧
            0 < Vector3.Dot ray.direction triangle.normal) ∧
        ¬ (triangle.cullMode = TriangleCullMode.FrontFaceCulling ∧
            Vector3.Dot ray.direction triangle.normal < 0) ∧
        ray.min < trianglePlaneDistance triangle ray ∧
        trianglePlaneDistance triangle ray < ray.max ∧
        passesEdgeTests triangle (ray.pointAt (trianglePlaneDistance triangle ray))) := by
  unfold HitTest_Triangle trianglePlaneDistance passesEdgeTests Ray.pointAt
  simp only []
  split_ifs with h1 h2 h3 h4 <;>
  first
  | exact ⟨fun _ => ⟨by simpa using (not_or.mp h1).1, (not_or.mp (not_or.mp h1).2).1,
      (not_or.mp (not_or.mp h1).2).2, not_le.mp (not_or.mp h2).1, not_le.mp (not_or.mp h2).2, h3⟩,
      fun _ => by simp⟩
  | exact ⟨fun h => False.elim (by simp at h), fun h =>
      absurd h (fun ⟨a, b, c, d, e, f⟩ => by
        first
        | (rcases h1 with h1 | h1 | h1
           · simp [a] at h1
           · exact b h1
           · exact c h1)
        | (rcases h2 with h2 | h2
           · exact absurd d (not_lt.mpr h2)
           · exact absurd e (not_lt.mpr h2))
        | exact h3 f)⟩

/-- The record written by a successful full triangle test. -/
theorem HitTest_Triangle_snd (areEqual : F → F → Bool) (triangle : Triangle F) (ray : Ray F)
    (hitRecord : HitRecord F)
    (h : (HitTest_Triangle areEqual triangle ray hitRecord false).1 = true) :
    (HitTest_Triangle areEqual triangle ray hitRecord false).2 =
      ⟨ray.pointAt (trianglePlaneDistance triangle ray), triangle.normal,
        trianglePlaneDistance triangle ray, true, triangle.materialIndex⟩ := by
  revert h
  unfold HitTest_Triangle trianglePlaneDistance Ray.pointAt
  simp only []
  split_ifs <;> simp_all

/-! ## The triangle-mesh loop -/

/-- The loop of the full mesh test either keeps the record it started from (no triangle
    was hit nearer than `nearestTriangle`) or ends with the record of a hit triangle of
    least distance. -/
theorem HitTest_TriangleMesh_loop_full (areEqual : F → F → Bool) (ray : Ray F) :
    ∀ (triangles : List (Triangle F)) (nearestTriangle : F) (hitRecord : HitRecord F),
      ((HitTest_TriangleMesh_loop areEqual ray false triangles nearestTriangle hitRecord).2 = hitRecord ∧
        (HitTest_TriangleMesh_loop areEqual ray false triangles nearestTriangle hitRecord).1 =
          hitRecord.didHit ∧
        ∀ tri ∈ triangles, (HitTest_Triangle areEqual tri ray HitRecord.fresh false).1 = true →
          nearestTriangle ≤ trianglePlaneDistance tri ray) ∨
      (∃ tri ∈ triangles, (HitTest_Triangle areEqual tri ray HitRecord.fresh false).1 = true ∧
        (HitTest_TriangleMesh_loop areEqual ray false triangles nearestTriangle hitRecord).2 =
          (HitTest_Triangle areEqual tri ray HitRecord.fresh false).2 ∧
        (HitTest_TriangleMesh_loop areEqual ray false triangles nearestTriangle hitRecord).1 = true ∧
        trianglePlaneDistance tri ray < nearestTriangle ∧
        ∀ tri' ∈ triangles, (HitTest_Triangle areEqual tri' ray HitRecord.fresh false).1 = true →
          trianglePlaneDistance tri ray ≤ trianglePlaneDistance tri' ray) := by
  intro triangles
  induction triangles with
  | nil =>
    intro nearestTriangle hitRecord
    left
    simp [HitTest_TriangleMesh_loop]
  | cons tri rest ih =>
    intro nearestTriangle hitRecord
    by_cases hhit : (HitTest_Triangle areEqual tri ray HitRecord.fresh false).1 = true
    · have hrec := HitTest_Triangle_snd areEqual tri ray HitRecord.fresh hhit
      by_cases hlt : trianglePlaneDistance tri ray < nearestTriangle
      · have hstep : HitTest_TriangleMesh_loop areEqual ray false (tri :: rest) nearestTriangle hitRecord =
            HitTest_TriangleMesh_loop areEqual ray false rest (trianglePlaneDistance tri ray)
              (HitTest_Triangle areEqual tri ray HitRecord.fresh false).2 := by
          rw [HitTest_TriangleMesh_loop]
          simp only [hhit, if_true]
          rw [hrec]
          simp [hlt]
        rw [hstep]
        right
        rcases ih (trianglePlaneDistance tri ray)
          (HitTest_Triangle areEqual tri ray HitRecord.fresh false).2 with ⟨h2, h1, hmin⟩ | ⟨tri2, hmem, hhit2, h2, h1, hlt2, hmin⟩
        · refine ⟨tri, List.mem_cons_self _ _, hhit, h2, ?_, hlt, ?_⟩
          · rw [h1, hrec]
          · intro tri' hmem' hhit'
            rcases List.mem_cons.mp hmem' with rfl | hmem'
            · exact le_refl _
            · exact hmin tri' hmem' hhit'
        · refine ⟨tri2, List.mem_cons_of_mem _ hmem, hhit2, h2, h1, lt_trans hlt2 hlt, ?_⟩
          intro tri' hmem' hhit'
          rcases List.mem_cons.mp hmem' with rfl | hmem'
          · exact le_of_lt hlt2
          · exact hmin tri' hmem' hhit'
      · have hstep : HitTest_TriangleMesh_loop areEqual ray false (tri :: rest) nearestTriangle hitRecord =
            HitTest_TriangleMesh_loop areEqual ray false rest nearestTriangle hitRecord := by
          rw [HitTest_TriangleMesh_loop]
          simp only [hhit, if_true]
          rw [hrec]
          simp [hlt]
        rw [hstep]
        rcases ih nearestTriangle hitRecord with ⟨h2, h1, hmin⟩ | ⟨tri2, hmem, hhit2, h2, h1, hlt2, hmin⟩
        · left
          refine ⟨h2, h1, ?_⟩
          intro tri' hmem' hhit'
          rcases List.mem_cons.mp hmem' with rfl | hmem'
          · exact not_lt.mp hlt
          · exact hmin tri' hmem' hhit'
        · right
          refine ⟨tri2, List.mem_cons_of_mem _ hmem, hhit2, h2, h1, hlt2, ?_⟩
          intro tri' hmem' hhit'
          rcases List.mem_cons.mp hmem' with rfl | hmem'
          · exact le_trans (le_of_lt hlt2) (not_lt.mp hlt)
          · exact hmin tri' hmem' hhit'
    · have hstep : HitTest_TriangleMesh_loop areEqual ray false (tri :: rest) nearestTriangle hitRecord =
          HitTest_TriangleMesh_loop areEqual ray false rest nearestTriangle hitRecord := by
        rw [HitTest_TriangleMesh_loop]
        simp [hhit]
      rw [hstep]
      rcases ih nearestTriangle hitRecord with ⟨h2, h1, hmin⟩ | ⟨tri2, hmem, hhit2, h2, h1, hlt2, hmin⟩
      · left
        refine ⟨h2, h1, ?_⟩
        intro tri' hmem' hhit'
        rcases List.mem_cons.mp hmem' with rfl | hmem'
        · exact absurd hhit' hhit
        · exact hmin tri' hmem' hhit'
      · right
        refine ⟨tri2, List.mem_cons_of_mem _ hmem, hhit2, h2, h1, hlt2, ?_⟩
        intro tri' hmem' hhit'
        rcases List.mem_cons.mp hmem' with rfl | hmem'
        · exact absurd hhit' hhit
        · exact hmin tri' hmem' hhit'

/-- A hit triangle is hit at a distance below `ray.max`. -/
theorem HitTest_Triangle_lt_max (areEqual : F → F → Bool) (triangle : Triangle F) (ray : Ray F)
    (hitRecord : HitRecord F) (ignoreHitRecord : Bool)
    (h : (HitTest_Triangle areEqual triangle ray hitRecord ignoreHitRecord).1 = true) :
    trianglePlaneDistance triangle ray < ray.max :=
  ((HitTest_Triangle_fst areEqual triangle ray hitRecord ignoreHitRecord).mp h).2.2.2.2.1

/-- The boolean of a hit test does not depend on the record passed in nor on the flag. -/
theorem HitTest_Triangle_fst_indep (areEqual : F → F → Bool) (triangle : Triangle F) (ray : Ray F)
    (r1 r2 : HitRecord F) (b1 b2 : Bool) :
    (HitTest_Triangle areEqual triangle ray r1 b1).1 =
      (HitTest_Triangle areEqual triangle ray r2 b2).1 := by
  rw [Bool.eq_iff_iff, HitTest_Triangle_fst, HitTest_Triangle_fst]

/-- For a ray with `max <= FLT_MAX`, the full mesh test on a fresh record. -/
theorem HitTest_TriangleMesh_full (areEqual : F → F → Bool) (mesh : TriangleMesh F) (ray : Ray F)
    (hmax : ray.max ≤ FLT_MAX) :
    ((HitTest_TriangleMesh areEqual mesh ray HitRecord.fresh false).1 = true ↔
      ∃ tri ∈ mesh.triangles, (HitTest_Triangle areEqual tri ray HitRecord.fresh false).1 = true) ∧
    ((HitTest_TriangleMesh areEqual mesh ray HitRecord.fresh false).1 = true →
      ∃ tri ∈ mesh.triangles, (HitTest_Triangle areEqual tri ray HitRecord.fresh false).1 = true ∧
        (HitTest_TriangleMesh areEqual mesh ray HitRecord.fresh false).2 =
          (HitTest_Triangle areEqual tri ray HitRecord.fresh false).2 ∧
        ∀ tri' ∈ mesh.triangles,
          (HitTest_Triangle areEqual tri' ray HitRecord.fresh false).1 = true →
          (HitTest_TriangleMesh areEqual mesh ray HitRecord.fresh false).2.cameraToPointDistance ≤
            (HitTest_Triangle areEqual tri' ray HitRecord.fresh false).2.cameraToPointDistance) := by
  unfold HitTest_TriangleMesh
  rcases HitTest_TriangleMesh_loop_full areEqual ray mesh.triangles FLT_MAX HitRecord.fresh with
    ⟨h2, h1, hmin⟩ | ⟨tri, hmem, hhit, h2, h1, hlt, hmin⟩
  · have hnone : ¬ ∃ tri ∈ mesh.triangles,
        (HitTest_Triangle areEqual tri ray HitRecord.fresh false).1 = true := by
      rintro ⟨tri, hmem, hhit⟩
      have := hmin tri hmem hhit
      have := HitTest_Triangle_lt_max areEqual tri ray _ _ hhit
      linarith
    have hfalse : ¬ (HitTest_TriangleMesh_loop areEqual ray false mesh.triangles FLT_MAX
        HitRecord.fresh).1 = true := by
      rw [h1]; simp [HitRecord.fresh]
    exact ⟨⟨fun h => absurd h hfalse, fun h => absurd h hnone⟩, fun h => absurd h hfalse⟩
  · refine ⟨⟨fun _ => ⟨tri, hmem, hhit⟩, fun _ => h1⟩, fun _ => ⟨tri, hmem, hhit, h2, ?_⟩⟩
    intro tri' hmem' hhit'
    rw [h2, HitTest_Triangle_snd areEqual tri ray _ hhit, HitTest_Triangle_snd areEqual tri' ray _ hhit']
    exact hmin tri' hmem' hhit'

/-- The shadow mesh test returns `true` iff some triangle is hit. -/
theorem HitTest_TriangleMesh_loop_shadow (areEqual : F → F → Bool) (ray : Ray F) :
    ∀ (triangles : List (Triangle F)) (nearestTriangle : F) (hitRecord : HitRecord F),
      (HitTest_TriangleMesh_loop areEqual ray true triangles nearestTriangle hitRecord).1 = true ↔
      ∃ tri ∈ triangles, (HitTest_Triangle areEqual tri ray HitRecord.fresh false).1 = true := by
  intro triangles
  induction triangles with
  | nil => intro _ _; simp [HitTest_TriangleMesh_loop]
  | cons tri rest ih =>
    intro nearestTriangle hitRecord
    rw [HitTest_TriangleMesh_loop]
    simp only []
    rw [HitTest_Triangle_fst_indep areEqual tri ray HitRecord.fresh HitRecord.fresh true false]
    by_cases hhit : (HitTest_Triangle areEqual tri ray HitRecord.fresh false).1 = true
    · simp only [hhit, if_true]
      exact ⟨fun _ => ⟨tri, List.mem_cons_self _ _, hhit⟩, fun _ => trivial⟩
    · simp only [hhit]
      rw [if_neg (by simp), ih]
      constructor
      · rintro ⟨t, hm, ht⟩
        exact ⟨t, List.mem_cons_of_mem _ hm, ht⟩
      · rintro ⟨t, hm, ht⟩
        rcases List.mem_cons.mp hm with rfl | hm
        · exact absurd ht hhit
        · exact ⟨t, hm, ht⟩

/-! ## The scene queries -/

/-- The three loops of `TryGetClosestHit` are one fold over the full hit tests of the scene. -/
theorem closestLoops_eq_foldl (sqrtf : F → F) (areEqual : F → F → Bool) (scene : Scene F)
    (ray : Ray F) (closestHit : HitRecord F) :
    Scene.closestLoops sqrtf areEqual scene ray closestHit =
      (Scene.fullHitTests sqrtf areEqual scene ray).foldl Scene.closestStep (FLT_MAX, closestHit) := by
  unfold Scene.closestLoops Scene.fullHitTests
  simp only [List.foldl_append, List.foldl_map]

/-- The fold of `closestStep` over a list of hit-test results. -/
theorem closestStep_foldl (results : List (Bool × HitRecord F)) :
    ∀ state : F × HitRecord F,
      (results.foldl Scene.closestStep state).1 ≤ state.1 ∧
      (∀ r ∈ results, r.1 = true →
        (results.foldl Scene.closestStep state).1 ≤ r.2.cameraToPointDistance) ∧
      ((results.foldl Scene.closestStep state = state ∧
          ∀ r ∈ results, r.1 = true → state.1 < r.2.cameraToPointDistance) ∨
        ∃ r ∈ results, r.1 = true ∧
          results.foldl Scene.closestStep state = (r.2.cameraToPointDistance, r.2)) := by
  induction results with
  | nil => intro state; simp
  | cons r rest ih =>
    intro state
    rw [List.foldl_cons]
    by_cases hstep : r.1 = true ∧ r.2.cameraToPointDistance ≤ state.1
    · have hs : Scene.closestStep state r = (r.2.cameraToPointDistance, r.2) := by
        unfold Scene.closestStep; rw [if_pos hstep]
      rw [hs]
      obtain ⟨hle, hmin, hprov⟩ := ih (r.2.cameraToPointDistance, r.2)
      refine ⟨le_trans hle hstep.2, ?_, ?_⟩
      · intro r' hmem hhit
        rcases List.mem_cons.mp hmem with rfl | hmem
        · exact hle
        · exact hmin r' hmem hhit
      · right
        rcases hprov with ⟨heq, _⟩ | ⟨r2, hmem, hhit, heq⟩
        · exact ⟨r, List.mem_cons_self _ _, hstep.1, heq⟩
        · exact ⟨r2, List.mem_cons_of_mem _ hmem, hhit, heq⟩
    · have hs : Scene.closestStep state r = state := by
        unfold Scene.closestStep; rw [if_neg hstep]
      rw [hs]
      obtain ⟨hle, hmin, hprov⟩ := ih state
      have hr : r.1 = true → state.1 < r.2.cameraToPointDistance := fun h =>
        not_le.mp (fun hle' => hstep ⟨h, hle'⟩)
      refine ⟨hle, ?_, ?_⟩
      · intro r' hmem hhit
        rcases List.mem_cons.mp hmem with rfl | hmem
        · exact le_trans hle (le_of_lt (hr hhit))
        · exact hmin r' hmem hhit
      · rcases hprov with ⟨heq, hall⟩ | ⟨r2, hmem, hhit, heq⟩
        · left
          refine ⟨heq, ?_⟩
          intro r' hmem hhit
          rcases List.mem_cons.mp hmem with rfl | hmem
          · exact hr hhit
          · exact hall r' hmem hhit
        · right
          exact ⟨r2, List.mem_cons_of_mem _ hmem, hhit, heq⟩

/-- Every successful full hit test of the scene reports a distance below `ray.max`. -/
theorem fullHitTests_lt_max (sqrtf : F → F) (areEqual : F → F → Bool) (scene : Scene F)
    (ray : Ray F) (hmax : ray.max ≤ FLT_MAX) :
    ∀ r ∈ Scene.fullHitTests sqrtf areEqual scene ray, r.1 = true →
      r.2.cameraToPointDistance < ray.max := by
  intro r hmem hhit
  unfold Scene.fullHitTests at hmem
  simp only [List.mem_append, List.mem_map] at hmem
  rcases hmem with (⟨sphere, _, rfl⟩ | ⟨plane, _, rfl⟩) | ⟨mesh, _, rfl⟩
  · rw [HitTest_Sphere_snd sqrtf sphere ray _ hhit]
    exact ((HitTest_Sphere_fst sqrtf sphere ray _ _).mp hhit).2.2.2
  · rw [HitTest_Plane_snd plane ray _ hhit]
    exact ((HitTest_Plane_fst plane ray _ _).mp hhit).2.2
  · obtain ⟨tri, _, hhit', heq, _⟩ := (HitTest_TriangleMesh_full areEqual mesh ray hmax).2 hhit
    rw [heq, HitTest_Triangle_snd areEqual tri ray _ hhit']
    exact HitTest_Triangle_lt_max areEqual tri ray _ _ hhit'

/-- The closest-hit query, for a ray with `max <= FLT_MAX`. -/
theorem TryGetClosestHit_spec (sqrtf : F → F) (areEqual : F → F → Bool) (scene : Scene F)
    (ray : Ray F) (closestHit : HitRecord F) (hmax : ray.max ≤ FLT_MAX) :
    ((Scene.TryGetClosestHit sqrtf areEqual scene ray closestHit).1 = true ↔
      ∃ r ∈ Scene.fullHitTests sqrtf areEqual scene ray, r.1 = true) ∧
    ((Scene.TryGetClosestHit sqrtf areEqual scene ray closestHit).1 = true →
      ∃ r ∈ Scene.fullHitTests sqrtf areEqual scene ray, r.1 = true ∧
        (Scene.TryGetClosestHit sqrtf areEqual scene ray closestHit).2 = r.2 ∧
        ∀ r' ∈ Scene.fullHitTests sqrtf areEqual scene ray, r'.1 = true →
          (Scene.TryGetClosestHit sqrtf areEqual scene ray closestHit).2.cameraToPointDistance ≤
            r'.2.cameraToPointDistance) ∧
    ((Scene.TryGetClosestHit sqrtf areEqual scene ray closestHit).1 = false →
      (Scene.TryGetClosestHit sqrtf areEqual scene ray closestHit).2 = closestHit) := by
  unfold Scene.TryGetClosestHit
  simp only [closestLoops_eq_foldl]
  have hlt := fullHitTests_lt_max sqrtf areEqual scene ray hmax
  obtain ⟨_, hmin, hprov⟩ :=
    closestStep_foldl (Scene.fullHitTests sqrtf areEqual scene ray) (FLT_MAX, closestHit)
  rcases hprov with ⟨heq, hall⟩ | ⟨r, hmem, hhit, heq⟩
  · have hnone : ¬ ∃ r ∈ Scene.fullHitTests sqrtf areEqual scene ray, r.1 = true := by
      rintro ⟨r, hmem, hhit⟩
      have h1 := hall r hmem hhit
      have h2 := hlt r hmem hhit
      simp only at h1
      linarith
    rw [heq]
    simp only [ne_eq, not_true_eq_false, decide_False, Bool.false_eq_true, false_iff,
      false_implies, true_and, implies_true, and_true]
    exact hnone
  · rw [heq]
    have hne : r.2.cameraToPointDistance ≠ (FLT_MAX : F) :=
      ne_of_lt (lt_of_lt_of_le (hlt r hmem hhit) hmax)
    simp only [hne, ne_eq, not_false_eq_true, decide_True, true_iff, true_implies,
      Bool.true_eq_false, false_implies, and_true]
    refine ⟨⟨r, hmem, hhit⟩, r, hmem, hhit, rfl, ?_⟩
    intro r' hmem' hhit'
    have := hmin r' hmem' hhit'
    rw [heq] at this
    exact this

/-- The any-hit query returns `true` iff some full hit test of the scene succeeds. -/
theorem DoesHit_iff (sqrtf : F → F) (areEqual : F → F → Bool) (scene : Scene F)
    (ray : Ray F) (hmax : ray.max ≤ FLT_MAX) :
    Scene.DoesHit sqrtf areEqual scene ray = true ↔
      ∃ r ∈ Scene.fullHitTests sqrtf areEqual scene ray, r.1 = true := by
  have hs : ∀ sphere : Sphere F, HitTest_Sphere_Shadow sqrtf sphere ray = true ↔
      (HitTest_Sphere sqrtf sphere ray HitRecord.fresh false).1 = true := by
    intro sphere
    unfold HitTest_Sphere_Shadow
    rw [HitTest_Sphere_fst, HitTest_Sphere_fst]
  have hp : ∀ plane : Plane F, HitTest_Plane_Shadow plane ray = true ↔
      (HitTest_Plane plane ray HitRecord.fresh false).1 = true := by
    intro plane
    unfold HitTest_Plane_Shadow
    rw [HitTest_Plane_fst, HitTest_Plane_fst]
  have hm : ∀ mesh : TriangleMesh F, HitTest_TriangleMesh_Shadow areEqual mesh ray = true ↔
      (HitTest_TriangleMesh areEqual mesh ray HitRecord.fresh false).1 = true := by
    intro mesh
    rw [(HitTest_TriangleMesh_full areEqual mesh ray hmax).1]
    unfold HitTest_TriangleMesh_Shadow HitTest_TriangleMesh
    exact HitTest_TriangleMesh_loop_shadow areEqual ray mesh.triangles FLT_MAX HitRecord.fresh
  unfold Scene.DoesHit Scene.fullHitTests
  simp only [List.mem_append, List.mem_map]
  constructor
  · intro h
    split_ifs at h with h1 h2 h3
    · obtain ⟨sphere, hmem, hhit⟩ := List.any_eq_true.mp h1
      exact ⟨_, Or.inl (Or.inl ⟨sphere, hmem, rfl⟩), (hs sphere).mp hhit⟩
    · obtain ⟨plane, hmem, hhit⟩ := List.any_eq_true.mp h2
      exact ⟨_, Or.inl (Or.inr ⟨plane, hmem, rfl⟩), (hp plane).mp hhit⟩
    · obtain ⟨mesh, hmem, hhit⟩ := List.any_eq_true.mp h3
      exact ⟨_, Or.inr ⟨mesh, hmem, rfl⟩, (hm mesh).mp hhit⟩
  · rintro ⟨r, (⟨sphere, hmem, rfl⟩ | ⟨plane, hmem, rfl⟩) | ⟨mesh, hmem, rfl⟩, hhit⟩
    · rw [if_pos (List.any_eq_true.mpr ⟨sphere, hmem, (hs sphere).mpr hhit⟩)]
    · have : (scene.m_PlaneGeometries.any fun plane => HitTest_Plane_Shadow plane ray) = true :=
        List.any_eq_true.mpr ⟨plane, hmem, (hp plane).mpr hhit⟩
      split_ifs <;> rfl
    · have : (scene.m_TriangleMeshGeometries.any
          fun triangleMesh => HitTest_TriangleMesh_Shadow areEqual triangleMesh ray) = true :=
        List.any_eq_true.mpr ⟨mesh, hmem, (hm mesh).mpr hhit⟩
      split_ifs <;> rfl

/-! ## Vector identities and the scenarios -/

/-- The dot product with a negated vector. -/
theorem Dot_neg (a b : Vector3 F) : Vector3.Dot a (Vector3.neg b) = - Vector3.Dot a b := by
  simp only [Vector3.Dot, Vector3.neg]; ring

/-- The rational square root of 1. -/
theorem Rat_sqrt_one : Rat.sqrt 1 = 1 := by rfl

/-- The rational square root of 0. -/
theorem Rat_sqrt_zero : Rat.sqrt 0 = 0 := by rfl

/-- The plane scenario: hit at `t = 5`, point `(0,0,0)`, normal `(0,1,0)`. -/
theorem groundPlane_hit :
    HitTest_Plane groundPlane planeRay HitRecord.fresh false =
      (true, ⟨⟨0, 0, 0⟩, ⟨0, 1, 0⟩, 5, true, 0⟩) := by
  norm_num [HitTest_Plane, groundPlane, planeRay, Ray.mk2, Vector3.Dot, Vector3.sub, Vector3.neg,
    Vector3.add, Vector3.scale, FLT_MAX]

/-- The far triangle passes the full triangle test for the unbounded ray, at `t = FLT_MAX`. -/
theorem farTriangle_hit :
    (HitTest_Triangle AreEqual farTriangle unboundedRay HitRecord.fresh false).1 = true := by
  rw [HitTest_Triangle_fst]
  simp [farTriangle, unboundedRay, AreEqual, passesEdgeTests, IsPointInTriangleEdge,
    trianglePlaneDistance, Ray.pointAt, Vector3.Dot, Vector3.Cross, Vector3.sub, Vector3.add,
    Vector3.scale, FLT_MAX]
  norm_num

/-- The full mesh test on the mesh of the far triangle returns `false` for the unbounded ray. -/
theorem farMesh_miss :
    (HitTest_TriangleMesh AreEqual (meshOf [farTriangle]) unboundedRay HitRecord.fresh false).1
      = false := by
  have h := farTriangle_hit
  have hrec := HitTest_Triangle_snd AreEqual farTriangle unboundedRay HitRecord.fresh h
  simp only [HitTest_TriangleMesh, meshOf, HitTest_TriangleMesh_loop, h, hrec, if_true]
  norm_num [trianglePlaneDistance, farTriangle, unboundedRay, Vector3.Dot, Vector3.sub, FLT_MAX,
    HitRecord.fresh]

/-- The edge test, as an inequality. -/
theorem IsPointInTriangleEdge_iff (vertex1 vertex2 point normal : Vector3 F) :
    IsPointInTriangleEdge vertex1 vertex2 point normal = true ↔
      0 ≤ Vector3.Dot (Vector3.Cross (Vector3.sub vertex2 vertex1) (Vector3.sub point vertex1))
        normal := by
  simp [IsPointInTriangleEdge]

/-- The back ray meets the normal of the flat triangle with dot product 1. -/
theorem flatTriangle_backRay_dot (c : TriangleCullMode) (x y : ℚ) :
    Vector3.Dot (backRay x y).direction (flatTriangle c).normal = 1 := by
  norm_num [backRay, flatTriangle, Ray.mk2, Vector3.Dot]

/-- The back ray meets the plane of the flat triangle at distance 1. -/
theorem flatTriangle_backRay_distance (c : TriangleCullMode) (x y : ℚ) :
    trianglePlaneDistance (flatTriangle c) (backRay x y) = 1 := by
  norm_num [trianglePlaneDistance, backRay, flatTriangle, Ray.mk2, Vector3.Dot, Vector3.sub]

/-- The back ray meets the plane of the flat triangle in the point `(x, y, 0)`. -/
theorem flatTriangle_backRay_point (c : TriangleCullMode) (x y : ℚ) :
    (backRay x y).pointAt (trianglePlaneDistance (flatTriangle c) (backRay x y)) = ⟨x, y, 0⟩ := by
  rw [flatTriangle_backRay_distance]
  norm_num [Ray.pointAt, backRay, Ray.mk2, Vector3.add, Vector3.scale]

/-- The front ray meets the normal of the flat triangle with dot product -1. -/
theorem flatTriangle_frontRay_dot (c : TriangleCullMode) (x y : ℚ) :
    Vector3.Dot (frontRay x y).direction (flatTriangle c).normal = -1 := by
  norm_num [frontRay, flatTriangle, Ray.mk2, Vector3.Dot]

/-! ## Shadow overloads and iteration order -/

/-- The shadow overload of the sphere test agrees with the full test. -/
theorem HitTest_Sphere_Shadow_eq (sqrtf : F → F) (sphere : Sphere F) (ray : Ray F)
    (hitRecord : HitRecord F) :
    HitTest_Sphere_Shadow sqrtf sphere ray =
      (HitTest_Sphere sqrtf sphere ray hitRecord false).1 := by
  unfold HitTest_Sphere_Shadow
  rw [Bool.eq_iff_iff, HitTest_Sphere_fst, HitTest_Sphere_fst]

/-- The shadow overload of the plane test agrees with the full test. -/
theorem HitTest_Plane_Shadow_eq (plane : Plane F) (ray : Ray F) (hitRecord : HitRecord F) :
    HitTest_Plane_Shadow plane ray = (HitTest_Plane plane ray hitRecord false).1 := by
  unfold HitTest_Plane_Shadow
  rw [Bool.eq_iff_iff, HitTest_Plane_fst, HitTest_Plane_fst]

/-- The shadow mesh test returns `true` iff some triangle passes the triangle test. -/
theorem HitTest_TriangleMesh_Shadow_iff (areEqual : F → F → Bool) (mesh : TriangleMesh F)
    (ray : Ray F) :
    HitTest_TriangleMesh_Shadow areEqual mesh ray = true ↔
      ∃ tri ∈ mesh.triangles, (HitTest_Triangle areEqual tri ray HitRecord.fresh false).1 = true := by
  unfold HitTest_TriangleMesh_Shadow HitTest_TriangleMesh
  exact HitTest_TriangleMesh_loop_shadow areEqual ray mesh.triangles FLT_MAX HitRecord.fresh

/-- Two lists of hit-test results with the same members fold to the same smallest distance
    and to records with the same distance; they fold to the same record when equal distances
    of successful tests come with equal records. -/
theorem closestStep_foldl_same_members (results results' : List (Bool × HitRecord F))
    (hmem : ∀ r, r ∈ results ↔ r ∈ results') (state : F × HitRecord F) :
    (results.foldl Scene.closestStep state).1 = (results'.foldl Scene.closestStep state).1 ∧
    (results.foldl Scene.closestStep state).2.cameraToPointDistance =
      (results'.foldl Scene.closestStep state).2.cameraToPointDistance ∧
    ((∀ r ∈ results, ∀ r' ∈ results, r.1 = true → r'.1 = true →
        r.2.cameraToPointDistance = r'.2.cameraToPointDistance → r.2 = r'.2) →
      results.foldl Scene.closestStep state = results'.foldl Scene.closestStep state) := by
  obtain ⟨hle, hmin, hprov⟩ := closestStep_foldl results state
  obtain ⟨hle', hmin', hprov'⟩ := closestStep_foldl results' state
  rcases hprov with ⟨heq, hall⟩ | ⟨r, hr, hhit, heq⟩
  · rcases hprov' with ⟨heq', _⟩ | ⟨r', hr', hhit', heq'⟩
    · rw [heq, heq']
      exact ⟨rfl, rfl, fun _ => rfl⟩
    · exfalso
      have h1 := hall r' ((hmem r').mpr hr') hhit'
      rw [heq'] at hle'
      exact absurd hle' (not_le.mpr h1)
  · rcases hprov' with ⟨heq', hall'⟩ | ⟨r', hr', hhit', heq'⟩
    · exfalso
      have h1 := hall' r ((hmem r).mp hr) hhit
      rw [heq] at hle
      exact absurd hle (not_le.mpr h1)
    · have h1 := hmin r' ((hmem r').mpr hr') hhit'
      have h2 := hmin' r ((hmem r).mp hr) hhit
      rw [heq] at h1
      rw [heq'] at h2
      have ht : r.2.cameraToPointDistance = r'.2.cameraToPointDistance := le_antisymm h1 h2
      rw [heq, heq']
      refine ⟨ht, ht, fun hties => ?_⟩
      rw [hties r hr r' ((hmem r').mpr hr') hhit hhit' ht]

/-- Scenes whose geometry lists are permutations of each other have the same full hit tests,
    up to order. -/
theorem fullHitTests_perm (sqrtf : F → F) (areEqual : F → F → Bool) (scene scene' : Scene F)
    (ray : Ray F)
    (hs : scene.m_SphereGeometries.Perm scene'.m_SphereGeometries)
    (hp : scene.m_PlaneGeometries.Perm scene'.m_PlaneGeometries)
    (hm : scene.m_TriangleMeshGeometries.Perm scene'.m_TriangleMeshGeometries) :
    (Scene.fullHitTests sqrtf areEqual scene ray).Perm
      (Scene.fullHitTests sqrtf areEqual scene' ray) := by
  unfold Scene.fullHitTests
  exact ((hs.map _).append (hp.map _)).append (hm.map _)

/-- The closest-hit query on two scenes with permuted geometry lists. -/
theorem TryGetClosestHit_perm (sqrtf : F → F) (areEqual : F → F → Bool) (scene scene' : Scene F)
    (ray : Ray F) (closestHit : HitRecord F)
    (hs : scene.m_SphereGeometries.Perm scene'.m_SphereGeometries)
    (hp : scene.m_PlaneGeometries.Perm scene'.m_PlaneGeometries)
    (hm : scene.m_TriangleMeshGeometries.Perm scene'.m_TriangleMeshGeometries) :
    (Scene.TryGetClosestHit sqrtf areEqual scene ray closestHit).1 =
      (Scene.TryGetClosestHit sqrtf areEqual scene' ray closestHit).1 ∧
    (Scene.TryGetClosestHit sqrtf areEqual scene ray closestHit).2.cameraToPointDistance =
      (Scene.TryGetClosestHit sqrtf areEqual scene' ray closestHit).2.cameraToPointDistance ∧
    ((∀ r ∈ Scene.fullHitTests sqrtf areEqual scene ray,
        ∀ r' ∈ Scene.fullHitTests sqrtf areEqual scene ray, r.1 = true → r'.1 = true →
        r.2.cameraToPointDistance = r'.2.cameraToPointDistance → r.2 = r'.2) →
      (Scene.TryGetClosestHit sqrtf areEqual scene ray closestHit).2 =
        (Scene.TryGetClosestHit sqrtf areEqual scene' ray closestHit).2) := by
  have hperm := fullHitTests_perm sqrtf areEqual scene scene' ray hs hp hm
  obtain ⟨h1, h2, h3⟩ := closestStep_foldl_same_members
    (Scene.fullHitTests sqrtf areEqual scene ray) (Scene.fullHitTests sqrtf areEqual scene' ray)
    (fun r => hperm.mem_iff) (FLT_MAX, closestHit)
  unfold Scene.TryGetClosestHit
  simp only [closestLoops_eq_foldl]
  refine ⟨by rw [h1], h2, fun hties => by rw [h3 hties]⟩

/-- The sloped plane is hit by the scenario ray at `t = 5` in `(0,0,0)`, with its own normal. -/
theorem slopedPlane_hit :
    HitTest_Plane slopedPlane planeRay HitRecord.fresh false =
      (true, ⟨⟨0, 0, 0⟩, ⟨1, 1, 0⟩, 5, true, 0⟩) := by
  norm_num [HitTest_Plane, slopedPlane, planeRay, Ray.mk2, Vector3.Dot, Vector3.sub, Vector3.neg,
    Vector3.add, Vector3.scale, FLT_MAX]

/-- The closest hit of the scenario ray in a scene of two planes is the record of the
    second plane when both are hit at `t = 5`. -/
theorem planeScene_closest (p1 p2 : Plane ℚ) (r1 r2 : HitRecord ℚ)
    (h1 : HitTest_Plane p1 planeRay HitRecord.fresh false = (true, r1))
    (h2 : HitTest_Plane p2 planeRay HitRecord.fresh false = (true, r2))
    (ht1 : r1.cameraToPointDistance = 5) (ht2 : r2.cameraToPointDistance = 5) :
    (Scene.TryGetClosestHit Rat.sqrt AreEqual (planeScene [p1, p2]) planeRay HitRecord.fresh).2
      = r2 := by
  simp only [Scene.TryGetClosestHit, Scene.closestLoops, Scene.closestStep, planeScene, Scene.new,
    h1, h2, ht1, ht2, FLT_MAX, List.foldl_cons, List.foldl_nil, true_and]
  norm_num

/-! ## Lights, materials and the renderer -/

/-- The squared length of a difference does not depend on the order of the two points. -/
theorem SqrMagnitude_sub_comm (a b : Vector3 F) :
    Vector3.SqrMagnitude (Vector3.sub a b) = Vector3.SqrMagnitude (Vector3.sub b a) := by
  simp only [Vector3.SqrMagnitude, Vector3.sub]; ring

/-- The direction computed by `GetDirectionToLight` is the opposite of the renderer's
    `directionToLight`. -/
theorem GetDirectionToLight_eq_neg (sqrtf : F → F) (light : Light F) (hitRecord : HitRecord F) :
    LightUtils.GetDirectionToLight sqrtf light hitRecord.origin =
      Vector3.neg (Renderer.RenderPixel_pointToLight sqrtf hitRecord light).direction := by
  simp only [LightUtils.GetDirectionToLight, Renderer.RenderPixel_pointToLight,
    Vector3.Normalized, Vector3.Magnitude, SqrMagnitude_sub_comm hitRecord.origin light.origin]
  simp only [Vector3.divide, Vector3.sub, Vector3.neg]
  ext <;> simp only [] <;> ring

/-- Solid-colour materials of different colours are different materials. -/
theorem redMaterial_ne_blueMaterial : redMaterial ≠ blueMaterial := by
  intro h
  have h1 := congrArg (fun m : Material ℚ => (m.Shade HitRecord.fresh Vector3.zero Vector3.zero).r) h
  simp [redMaterial, blueMaterial, Material_SolidColor] at h1

/-- The material list after `AddMaterial` and the index it returns. -/
theorem AddMaterial_spec (scene : Scene F) (pMaterial : Material F) :
    (scene.AddMaterial pMaterial).1.m_Materials = scene.m_Materials ++ [pMaterial] ∧
    (scene.AddMaterial pMaterial).2 = scene.m_Materials.length % 256 := by
  constructor
  · rfl
  · simp only [Scene.AddMaterial, toUChar, List.length_append, List.length_singleton]
    have : ((scene.m_Materials.length + 1 : ℕ) : ℤ) - 1 = (scene.m_Materials.length : ℤ) := by
      push_cast; ring
    rw [this]
    omega

/-- Black is neutral for the addition of colours. -/
theorem ColorRGB_add_black (c : ColorRGB F) : ColorRGB.add c ColorRGB.black = c := by
  simp only [ColorRGB.add, ColorRGB.black]
  ext <;> simp

/-- The addition of colours is associative. -/
theorem ColorRGB_add_assoc (a b c : ColorRGB F) :
    ColorRGB.add (ColorRGB.add a b) c = ColorRGB.add a (ColorRGB.add b c) := by
  simp only [ColorRGB.add]
  ext <;> simp only [] <;> ring

/-- In `Combined` mode, with the material of the hit in the material list, the loop over
    the lights adds to `finalColor` the terms of the lights that are not skipped. -/
theorem RenderPixel_lights_combined (sqrtf : F → F) (areEqual : F → F → Bool)
    (renderer : Renderer) (scene : Scene F) (hitRecord : HitRecord F) (rayDirection : Vector3 F)
    (material : Material F)
    (hmode : renderer.m_CurrentLightingMode = LightingMode.Combined)
    (hmat : scene.m_Materials[hitRecord.materialIndex]? = some material) :
    ∀ (lights : List (Light F)) (finalColor : ColorRGB F),
      Renderer.RenderPixel_lights sqrtf areEqual renderer scene hitRecord rayDirection lights
          finalColor =
        some (ColorRGB.add finalColor
          (ColorRGB.sum
            ((lights.filter
                (fun light => !Renderer.skipsLight sqrtf areEqual renderer scene hitRecord light)).map
              (Renderer.combinedTerm sqrtf material hitRecord rayDirection)))) := by
  intro lights
  induction lights with
  | nil =>
    intro finalColor
    simp [Renderer.RenderPixel_lights, ColorRGB.sum, ColorRGB_add_black]
  | cons light rest ih =>
    intro finalColor
    rw [Renderer.RenderPixel_lights]
    simp only []
    by_cases hskip : Renderer.skipsLight sqrtf areEqual renderer scene hitRecord light = true
    · have hskip' : (renderer.m_ShadowsEnabled &&
          scene.DoesHit sqrtf areEqual (Renderer.RenderPixel_pointToLight sqrtf hitRecord light))
            = true := hskip
      rw [if_neg (by rw [hskip']; simp), ih, List.filter_cons_of_neg (by simp [hskip])]
    · have hskip' : (renderer.m_ShadowsEnabled &&
          scene.DoesHit sqrtf areEqual (Renderer.RenderPixel_pointToLight sqrtf hitRecord light))
            = false := by
        simpa [Renderer.skipsLight] using hskip
      rw [if_pos hskip', hmat]
      simp only [hmode]
      rw [ih, List.filter_cons_of_pos (by simp [hskip]), List.map_cons]
      simp only [ColorRGB.sum, List.foldr_cons]
      rw [ColorRGB_add_assoc]
      rfl

/-- The rational square root of a square. -/
theorem Rat_sqrt_sq (q : ℚ) (hq : 0 ≤ q) : Rat.sqrt (q * q) = q := by
  rw [Rat.sqrt_eq, abs_of_nonneg hq]

/-- The camera ray of the one-pixel renderer with `FOV = 3/4`: direction `(0, 3/5, 4/5)`. -/
theorem onePixel_hitRay :
    Renderer.RenderPixel_hitRay Rat.sqrt onePixelRenderer 0 (3 / 4) 1 Matrix.identity
      (⟨0, 0, 0⟩ : Vector3 ℚ) = Ray.mk2 ⟨0, 0, 0⟩ ⟨0, 3 / 5, 4 / 5⟩ := by
  have h : Rat.sqrt (25 / 16) = 5 / 4 := by
    have := Rat_sqrt_sq (5 / 4) (by norm_num)
    rwa [show (5 / 4 : ℚ) * (5 / 4) = 25 / 16 by norm_num] at this
  simp only [Renderer.RenderPixel_hitRay, onePixelRenderer, Renderer.new, toUInt32, Matrix.identity,
    Matrix.GetAxisX, Matrix.GetAxisY, Matrix.GetAxisZ, Vector4.toVector3, Vector3.Normalized,
    Vector3.Magnitude, Vector3.SqrMagnitude, Vector3.add, Vector3.scale, Vector3.divide]
  norm_num [h]

/-- The closest hit of that camera ray in the wall scene is the wall point `(0,3,4)`. -/
theorem wallScene_closest :
    Renderer.closestHitOfPixel Rat.sqrt AreEqual onePixelRenderer wallScene 0 (3 / 4) 1
      Matrix.identity (⟨0, 0, 0⟩ : Vector3 ℚ) = (true, wallHit) := by
  unfold Renderer.closestHitOfPixel
  rw [onePixel_hitRay]
  simp only [Scene.TryGetClosestHit, Scene.closestLoops, Scene.closestStep, wallScene,
    List.foldl_cons, List.foldl_nil, HitTest_Plane, wallPlane, screenPlane, Ray.mk2,
    Vector3.Dot, Vector3.sub, Vector3.neg, Vector3.add, Vector3.scale, FLT_MAX, wallHit]
  norm_num

/-- The shadow ray from the wall point to the near light: along `(0,0,-1)`, up to distance 1. -/
theorem nearLight_pointToLight :
    Renderer.RenderPixel_pointToLight Rat.sqrt wallHit nearLight =
      ⟨⟨0, 3, 4⟩, ⟨0, 0, -1⟩, 1 / 100, 1⟩ := by
  have h : Rat.sqrt 1 = 1 := Rat_sqrt_one
  simp only [Renderer.RenderPixel_pointToLight, wallHit, nearLight, Vector3.Magnitude,
    Vector3.SqrMagnitude, Vector3.sub, Vector3.divide]
  norm_num [h]

/-- The shadow ray from the wall point to the far light: along `(0,0,-1)`, up to distance 5. -/
theorem farLight_pointToLight :
    Renderer.RenderPixel_pointToLight Rat.sqrt wallHit farLight =
      ⟨⟨0, 3, 4⟩, ⟨0, 0, -1⟩, 1 / 100, 5⟩ := by
  have h : Rat.sqrt 25 = 5 := by
    have := Rat_sqrt_sq 5 (by norm_num)
    rwa [show (5 : ℚ) * 5 = 25 by norm_num] at this
  simp only [Renderer.RenderPixel_pointToLight, wallHit, farLight, Vector3.Magnitude,
    Vector3.SqrMagnitude, Vector3.sub, Vector3.divide]
  norm_num [h]

/-- The near light is not skipped at the wall point, the far light is: the screen lies
    between the wall point and the far light. -/
theorem wallScene_skipsLight :
    Renderer.skipsLight Rat.sqrt AreEqual onePixelRenderer wallScene wallHit nearLight = false ∧
    Renderer.skipsLight Rat.sqrt AreEqual onePixelRenderer wallScene wallHit farLight = true := by
  constructor
  · unfold Renderer.skipsLight
    rw [nearLight_pointToLight]
    simp only [Scene.DoesHit, wallScene, List.any_cons, List.any_nil, HitTest_Plane_Shadow,
      HitTest_Plane, wallPlane, screenPlane, Vector3.Dot, Vector3.sub, Vector3.neg,
      onePixelRenderer, Renderer.new]
    norm_num
  · unfold Renderer.skipsLight
    rw [farLight_pointToLight]
    simp only [Scene.DoesHit, wallScene, List.any_cons, List.any_nil, HitTest_Plane_Shadow,
      HitTest_Plane, wallPlane, screenPlane, Vector3.Dot, Vector3.sub, Vector3.neg,
      onePixelRenderer, Renderer.new]
    norm_num

/-- The observed area in terms of the renderer's direction to the light. -/
theorem GetObservedArea_eq_max_dot (sqrtf : F → F) (light : Light F) (hitRecord : HitRecord F) :
    LightUtils.GetObservedArea sqrtf light hitRecord =
      max (Vector3.Dot (Renderer.RenderPixel_pointToLight sqrtf hitRecord light).direction
        hitRecord.normal) 0 := by
  unfold LightUtils.GetObservedArea
  simp only []
  rw [GetDirectionToLight_eq_neg]
  congr 1
  simp only [Vector3.Dot, Vector3.neg]; ring

/-- The term of the near light at the wall point with the red material: `(10, 0, 0)`. -/
theorem nearLight_combinedTerm (rayDirection : Vector3 ℚ) :
    Renderer.combinedTerm Rat.sqrt redMaterial wallHit rayDirection nearLight = ⟨10, 0, 0⟩ := by
  have h : LightUtils.GetObservedArea Rat.sqrt nearLight wallHit = 1 := by
    rw [GetObservedArea_eq_max_dot, nearLight_pointToLight]
    norm_num [wallHit, Vector3.Dot]
  unfold Renderer.combinedTerm
  rw [h]
  norm_num [LightUtils.GetRadiance, nearLight, wallHit, white, redMaterial, Material_SolidColor,
    ColorRGB.mul, ColorRGB.scale, Vector3.SqrMagnitude, Vector3.sub]

/-! ## Triangle-mesh operations -/

/-- With the indices in range, `positions[indices[k]]` exists for each of the first
    `3 * (indices.size() / 3)` values of `k`. -/
theorem positionAt_isSome (mesh : TriangleMesh F) (h : mesh.indicesInRange) (k : Nat)
    (hk : k < 3 * (mesh.indices.length / 3)) : ∃ p, mesh.positionAt k = some p := by
  have hk' : k < mesh.indices.length := by omega
  have hidx : mesh.indices[k]? = some (mesh.indices[k]) := List.getElem?_eq_getElem hk'
  obtain ⟨h0, h1⟩ := h k hk _ hidx
  unfold TriangleMesh.positionAt vectorAt
  rw [hidx]
  simp only [h0, if_true]
  have : (mesh.indices[k]).toNat < mesh.positions.length := by omega
  exact ⟨_, List.getElem?_eq_getElem this⟩

/-- The elements read by iteration `i` of the loops over the triangles exist. -/
theorem iteration_reads (mesh : TriangleMesh F) (h : mesh.inRange) (i : Nat)
    (hi : i < mesh.indices.length / 3) :
    ∃ p1 p2 p3 n, mesh.positionAt (3 * i) = some p1 ∧ mesh.positionAt (3 * i + 1) = some p2 ∧
      mesh.positionAt (3 * i + 2) = some p3 ∧ mesh.normals[i]? = some n := by
  obtain ⟨p1, h1⟩ := positionAt_isSome mesh h.2 (3 * i) (by omega)
  obtain ⟨p2, h2⟩ := positionAt_isSome mesh h.2 (3 * i + 1) (by omega)
  obtain ⟨p3, h3⟩ := positionAt_isSome mesh h.2 (3 * i + 2) (by omega)
  have hn : i < mesh.normals.length := lt_of_lt_of_le hi h.1
  exact ⟨p1, p2, p3, _, h1, h2, h3, List.getElem?_eq_getElem hn⟩

/-- The loop of `CreateTriangles` produces one triangle per iteration. -/
theorem CreateTriangles_loop_length (sqrtf : F → F) (mesh : TriangleMesh F) :
    ∀ (count i : Nat) (triangles : List (Triangle F)),
      TriangleMesh.CreateTriangles_loop sqrtf mesh count i = some triangles →
      triangles.length = count := by
  intro count
  induction count with
  | zero =>
    intro i triangles h
    simp only [TriangleMesh.CreateTriangles_loop, Option.some.injEq] at h
    rw [← h]; rfl
  | succ count ih =>
    intro i triangles h
    rw [TriangleMesh.CreateTriangles_loop] at h
    cases htri : TriangleMesh.CreateTriangles_triangle sqrtf mesh i with
    | none => rw [htri] at h; simp at h
    | some triangle =>
      rw [htri] at h
      cases hrest : TriangleMesh.CreateTriangles_loop sqrtf mesh count (i + 1) with
      | none => rw [hrest] at h; simp at h
      | some rest =>
        rw [hrest] at h
        simp only [Option.some.injEq] at h
        rw [← h, List.length_cons, ih (i + 1) rest hrest]

/-- The loop of `CreateTriangles` completes when every element it reads exists. -/
theorem CreateTriangles_loop_isSome (sqrtf : F → F) (mesh : TriangleMesh F) (h : mesh.inRange) :
    ∀ (count i : Nat), i + count ≤ mesh.indices.length / 3 →
      ∃ triangles, TriangleMesh.CreateTriangles_loop sqrtf mesh count i = some triangles := by
  intro count
  induction count with
  | zero => intro i _; exact ⟨[], rfl⟩
  | succ count ih =>
    intro i hi
    obtain ⟨p1, p2, p3, n, h1, h2, h3, hn⟩ := iteration_reads mesh h i (by omega)
    obtain ⟨rest, hrest⟩ := ih (i + 1) (by omega)
    rw [TriangleMesh.CreateTriangles_loop]
    simp only [TriangleMesh.CreateTriangles_triangle, h1, h2, h3, hn, hrest]
    exact ⟨_, rfl⟩

/-- On a mesh in range `CreateTriangles` returns, changing only the triangle cache, which
    then has `indices.size() / 3` entries. -/
theorem CreateTriangles_spec (sqrtf : F → F) (mesh : TriangleMesh F) (h : mesh.inRange) :
    ∃ triangles : List (Triangle F),
      TriangleMesh.CreateTriangles sqrtf mesh = some { mesh with triangles := triangles } ∧
      triangles.length = mesh.indices.length / 3 := by
  obtain ⟨triangles, hloop⟩ :=
    CreateTriangles_loop_isSome sqrtf mesh h (mesh.indices.length / 3) 0 (by omega)
  refine ⟨triangles, ?_, CreateTriangles_loop_length sqrtf mesh _ _ _ hloop⟩
  unfold TriangleMesh.CreateTriangles
  simp only [hloop]

/-- The loop of `UpdateTransforms` keeps the number of triangles. -/
theorem UpdateTransforms_loop_length (mesh : TriangleMesh F) :
    ∀ (triangles : List (Triangle F)) (i : Nat) (triangles' : List (Triangle F)),
      TriangleMesh.UpdateTransforms_loop mesh i triangles = some triangles' →
      triangles'.length = triangles.length := by
  intro triangles
  induction triangles with
  | nil =>
    intro i triangles' h
    simp only [TriangleMesh.UpdateTransforms_loop, Option.some.injEq] at h
    rw [← h]
  | cons triangle rest ih =>
    intro i triangles' h
    rw [TriangleMesh.UpdateTransforms_loop] at h
    cases htri : TriangleMesh.UpdateTransforms_triangle mesh i triangle with
    | none => rw [htri] at h; simp at h
    | some triangle' =>
      rw [htri] at h
      cases hrest : TriangleMesh.UpdateTransforms_loop mesh (i + 1) rest with
      | none => rw [hrest] at h; simp at h
      | some rest' =>
        rw [hrest] at h
        simp only [Option.some.injEq] at h
        rw [← h, List.length_cons, List.length_cons, ih (i + 1) rest' hrest]

/-- The loop of `UpdateTransforms` completes when every element it reads exists. -/
theorem UpdateTransforms_loop_isSome (mesh : TriangleMesh F) (h : mesh.inRange) :
    ∀ (triangles : List (Triangle F)) (i : Nat), i + triangles.length ≤ mesh.indices.length / 3 →
      ∃ triangles', TriangleMesh.UpdateTransforms_loop mesh i triangles = some triangles' := by
  intro triangles
  induction triangles with
  | nil => intro i _; exact ⟨[], rfl⟩
  | cons triangle rest ih =>
    intro i hi
    rw [List.length_cons] at hi
    obtain ⟨p1, p2, p3, n, h1, h2, h3, hn⟩ := iteration_reads mesh h i (by omega)
    obtain ⟨rest', hrest⟩ := ih (i + 1) (by omega)
    rw [TriangleMesh.UpdateTransforms_loop]
    simp only [TriangleMesh.UpdateTransforms_triangle, h1, h2, h3, hn, hrest]
    exact ⟨_, rfl⟩

/-- What `UpdateTransforms` changes when it returns: the triangle cache keeps its length,
    three positions and one normal per triangle are appended to the two buffers. -/
theorem UpdateTransforms_spec (mesh mesh' : TriangleMesh F)
    (h : TriangleMesh.UpdateTransforms mesh = some mesh') :
    ∃ triangles : List (Triangle F),
      TriangleMesh.UpdateTransforms_loop mesh 0 mesh.triangles = some triangles ∧
      triangles.length = mesh.triangles.length ∧
      mesh' = { mesh with
        triangles := triangles
        transformedPositions := mesh.transformedPositions ++
          triangles.flatMap (fun triangle => [triangle.v0, triangle.v1, triangle.v2])
        transformedNormals := mesh.transformedNormals ++
          triangles.map (fun triangle => triangle.normal) } := by
  unfold TriangleMesh.UpdateTransforms at h
  cases hloop : TriangleMesh.UpdateTransforms_loop mesh 0 mesh.triangles with
  | none => rw [hloop] at h; simp at h
  | some triangles =>
    rw [hloop] at h
    simp only [Option.some.injEq] at h
    exact ⟨triangles, rfl, UpdateTransforms_loop_length mesh _ _ _ hloop, h.symm⟩

/-- The corners of the triangles of a list, three per triangle. -/
theorem length_flatMap_corners (triangles : List (Triangle F)) :
    (triangles.flatMap (fun triangle => [triangle.v0, triangle.v1, triangle.v2])).length =
      3 * triangles.length := by
  induction triangles with
  | nil => rfl
  | cons t rest ih =>
    rw [List.flatMap_cons, List.length_append, ih, List.length_cons]
    simp only [List.length_cons, List.length_nil]
    omega

/-- On a mesh in range whose cache is not longer than `indices.size() / 3`,
    `UpdateTransforms` returns. -/
theorem UpdateTransforms_isSome (mesh : TriangleMesh F) (h : mesh.inRange)
    (hlen : mesh.triangles.length ≤ mesh.indices.length / 3) :
    ∃ mesh', TriangleMesh.UpdateTransforms mesh = some mesh' := by
  obtain ⟨triangles, hloop⟩ := UpdateTransforms_loop_isSome mesh h mesh.triangles 0 (by omega)
  unfold TriangleMesh.UpdateTransforms
  rw [hloop]
  exact ⟨_, rfl⟩

/-- The loop of `CalculateNormals` completes when the indices are in range. -/
theorem CalculateNormals_loop_isSome (mesh : TriangleMesh F) (h : mesh.indicesInRange) :
    ∀ (count i : Nat), i + count ≤ mesh.indices.length / 3 →
      ∃ normals, TriangleMesh.CalculateNormals_loop mesh count i = some normals := by
  intro count
  induction count with
  | zero => intro i _; exact ⟨[], rfl⟩
  | succ count ih =>
    intro i hi
    obtain ⟨p1, h1⟩ := positionAt_isSome mesh h (3 * i) (by omega)
    obtain ⟨p2, h2⟩ := positionAt_isSome mesh h (3 * i + 1) (by omega)
    obtain ⟨p3, h3⟩ := positionAt_isSome mesh h (3 * i + 2) (by omega)
    obtain ⟨rest, hrest⟩ := ih (i + 1) (by omega)
    rw [TriangleMesh.CalculateNormals_loop]
    simp only [h1, h2, h3, hrest]
    exact ⟨_, rfl⟩

/-- On a mesh with indices in range `CalculateNormals` returns and only appends normals. -/
theorem CalculateNormals_spec (mesh : TriangleMesh F) (h : mesh.indicesInRange) :
    ∃ normals : List (Vector3 F),
      TriangleMesh.CalculateNormals mesh = some { mesh with normals := mesh.normals ++ normals } := by
  obtain ⟨normals, hloop⟩ :=
    CalculateNormals_loop_isSome mesh h (mesh.indices.length / 3) 0 (by omega)
  refine ⟨normals, ?_⟩
  unfold TriangleMesh.CalculateNormals
  simp only [hloop]

/-- A constructor body, `CreateTriangles` followed by `UpdateTransforms`, returns a mesh
    whose cache has `indices.size() / 3` entries when every element read is in range. -/
theorem construct_spec (sqrtf : F → F) (mesh : TriangleMesh F) (h : mesh.inRange) :
    ∃ created mesh', TriangleMesh.CreateTriangles sqrtf mesh = some created ∧
      TriangleMesh.UpdateTransforms created = some mesh' ∧ mesh'.cacheInvariant := by
  obtain ⟨triangles, hc, hlen⟩ := CreateTriangles_spec sqrtf mesh h
  have hin : ({ mesh with triangles := triangles } : TriangleMesh F).inRange := h
  obtain ⟨mesh', hu⟩ := UpdateTransforms_isSome _ hin (le_of_eq hlen)
  obtain ⟨triangles', _, hlen', hmesh'⟩ := UpdateTransforms_spec _ _ hu
  refine ⟨_, mesh', hc, hu, ?_⟩
  rw [hmesh']
  show triangles'.length = mesh.indices.length / 3
  rw [hlen']
  exact hlen

/-- The appended mesh reads only elements that exist. -/
theorem appendedMesh_inRange : appendedMesh.inRange := by
  refine ⟨by simp [appendedMesh, TriangleMesh.default], ?_⟩
  intro k hk index hindex
  have hk' : k < 3 := by simpa [appendedMesh, TriangleMesh.default] using hk
  simp only [appendedMesh, TriangleMesh.default] at hindex ⊢
  interval_cases k <;> simp at hindex <;> subst hindex <;> simp

/-- The quad mesh reads only elements that exist. -/
theorem quadMesh_inRange : quadMesh.inRange := by
  refine ⟨by simp [quadMesh, TriangleMesh.default], ?_⟩
  intro k hk index hindex
  have hk' : k < 6 := by simpa [quadMesh, TriangleMesh.default] using hk
  simp only [quadMesh, TriangleMesh.default] at hindex ⊢
  interval_cases k <;> simp at hindex <;> subst hindex <;> simp

/-- The default-constructed mesh reads nothing. -/
theorem default_inRange : (TriangleMesh.default : TriangleMesh F).inRange := by
  refine ⟨by simp [TriangleMesh.default], ?_⟩
  intro k hk
  simp [TriangleMesh.default] at hk

/-- Two calls of `UpdateTransforms` in a row: each appends three positions and one normal per
    triangle to the buffers. -/
theorem UpdateTransforms_twice (mesh : TriangleMesh F) (h : mesh.inRange)
    (hlen : mesh.triangles.length ≤ mesh.indices.length / 3) :
    ∃ once twice, TriangleMesh.UpdateTransforms mesh = some once ∧
      TriangleMesh.UpdateTransforms once = some twice ∧
      once.triangles.length = mesh.triangles.length ∧
      twice.triangles.length = mesh.triangles.length ∧
      once.transformedPositions.length =
        mesh.transformedPositions.length + 3 * mesh.triangles.length ∧
      twice.transformedPositions.length =
        mesh.transformedPositions.length + 3 * mesh.triangles.length +
          3 * mesh.triangles.length ∧
      once.transformedNormals.length = mesh.transformedNormals.length + mesh.triangles.length ∧
      twice.transformedNormals.length =
        mesh.transformedNormals.length + mesh.triangles.length + mesh.triangles.length := by
  obtain ⟨once, h1⟩ := UpdateTransforms_isSome mesh h hlen
  obtain ⟨t1, _, hl1, hm1⟩ := UpdateTransforms_spec _ _ h1
  have hin1 : once.inRange := by rw [hm1]; exact h
  have hlen1 : once.triangles.length ≤ once.indices.length / 3 := by
    rw [hm1]; show t1.length ≤ mesh.indices.length / 3; rw [hl1]; exact hlen
  obtain ⟨twice, h2⟩ := UpdateTransforms_isSome once hin1 hlen1
  obtain ⟨t2, _, hl2, hm2⟩ := UpdateTransforms_spec _ _ h2
  have ho : once.triangles.length = mesh.triangles.length := by rw [hm1]; exact hl1
  have hop : once.transformedPositions.length =
      mesh.transformedPositions.length + 3 * mesh.triangles.length := by
    rw [hm1]
    show (mesh.transformedPositions ++ _).length = _
    rw [List.length_append, length_flatMap_corners, hl1]
  have hon : once.transformedNormals.length =
      mesh.transformedNormals.length + mesh.triangles.length := by
    rw [hm1]
    show (mesh.transformedNormals ++ _).length = _
    rw [List.length_append, List.length_map, hl1]
  refine ⟨once, twice, h1, h2, ho, ?_, hop, ?_, hon, ?_⟩
  · rw [hm2]; show t2.length = _; rw [hl2, ho]
  · rw [hm2]
    show (once.transformedPositions ++ _).length = _
    rw [List.length_append, length_flatMap_corners, hl2, hop, ho]
  · rw [hm2]
    show (once.transformedNormals ++ _).length = _
    rw [List.length_append, List.length_map, hl2, hon, ho]

/-- Under `CreateScale((1,1,1))`, `CreateRotationY(0)` and `CreateTranslation((0,0,0))`, with
    `sinf 0 = 0` and `cosf 0 = 1`, a position is left where it is. -/
theorem transformPosition_identity (sinf cosf : F → F) (TO_RADIANS : F) (mesh : TriangleMesh F)
    (hsin : sinf 0 = 0) (hcos : cosf 0 = 1) (p : Vector3 F) :
    (TriangleMesh.Translate
      (TriangleMesh.RotateY sinf cosf TO_RADIANS (TriangleMesh.Scale mesh ⟨1, 1, 1⟩) 0)
      ⟨0, 0, 0⟩).transformPosition p = p := by
  simp only [TriangleMesh.transformPosition, TriangleMesh.Translate, TriangleMesh.RotateY,
    TriangleMesh.Scale, Matrix.CreateTranslation, Matrix.CreateRotationY, Matrix.CreateScale,
    Matrix.CreateScale3, Matrix.ofAxes, Vector4.ofVector3, Matrix.mulVector3, Vector3.UnitX,
    Vector3.UnitY, Vector3.UnitZ, zero_mul, hsin, hcos]
  ext <;> simp

/-- With transforms that leave every position where it is, the triangles written by the loop
    of `UpdateTransforms` have the corners `positions[indices[k]]`, in the order of `k`. -/
theorem UpdateTransforms_loop_corners (mesh : TriangleMesh F)
    (hid : ∀ p, mesh.transformPosition p = p) :
    ∀ (triangles : List (Triangle F)) (i : Nat) (triangles' : List (Triangle F)),
      TriangleMesh.UpdateTransforms_loop mesh i triangles = some triangles' →
      (triangles'.flatMap (fun triangle => [triangle.v0, triangle.v1, triangle.v2])).map some =
        (List.range' (3 * i) (3 * triangles.length)).map mesh.positionAt := by
  intro triangles
  induction triangles with
  | nil =>
    intro i triangles' h
    simp only [TriangleMesh.UpdateTransforms_loop, Option.some.injEq] at h
    rw [← h]; rfl
  | cons triangle rest ih =>
    intro i triangles' h
    rw [TriangleMesh.UpdateTransforms_loop] at h
    cases htri : TriangleMesh.UpdateTransforms_triangle mesh i triangle with
    | none => rw [htri] at h; simp at h
    | some triangle' =>
      rw [htri] at h
      cases hrest : TriangleMesh.UpdateTransforms_loop mesh (i + 1) rest with
      | none => rw [hrest] at h; simp at h
      | some rest' =>
        rw [hrest] at h
        simp only [Option.some.injEq] at h
        have ih' := ih (i + 1) rest' hrest
        unfold TriangleMesh.UpdateTransforms_triangle at htri
        cases h1 : mesh.positionAt (3 * i) with
        | none => rw [h1] at htri; simp at htri
        | some p1 =>
          cases h2 : mesh.positionAt (3 * i + 1) with
          | none => rw [h1, h2] at htri; simp at htri
          | some p2 =>
            cases h3 : mesh.positionAt (3 * i + 2) with
            | none => rw [h1, h2, h3] at htri; simp at htri
            | some p3 =>
              cases hn : mesh.normals[i]? with
              | none => rw [h1, h2, h3, hn] at htri; simp at htri
              | some n =>
                rw [h1, h2, h3, hn] at htri
                simp only [Option.some.injEq, hid] at htri
                rw [← h, ← htri, List.flatMap_cons, List.map_append, ih', List.length_cons]
                have e : 3 * (rest.length + 1) = 3 * rest.length + 1 + 1 + 1 := by ring
                rw [e, List.range'_succ, List.range'_succ, List.range'_succ]
                simp only [List.map_cons, List.map_nil, h1, h2, h3, List.cons_append,
                  List.nil_append]
                rfl

/-- For indices `0, 1, 2, ...` the expression `positions[indices[k]]` is `positions[k]`. -/
theorem positionAt_sequential (mesh : TriangleMesh F)
    (hseq : mesh.indices = (List.range mesh.positions.length).map Int.ofNat) (k : Nat)
    (hk : k < mesh.positions.length) : mesh.positionAt k = mesh.positions[k]? := by
  unfold TriangleMesh.positionAt vectorAt
  rw [hseq, List.getElem?_map, List.getElem?_range hk]
  simp

/-- The round trip under the identity transform. -/
theorem identityRoundTrip_spec (sqrtf sinf cosf : F → F) (TO_RADIANS : F) (mesh : TriangleMesh F)
    (hsin : sinf 0 = 0) (hcos : cosf 0 = 1) (hrange : mesh.inRange)
    (hempty : mesh.transformedPositions = []) :
    ∃ mesh', mesh.identityRoundTrip sqrtf sinf cosf TO_RADIANS = some mesh' ∧
      mesh'.positions = mesh.positions ∧
      mesh'.transformedPositions.map some =
        (List.range (3 * (mesh.indices.length / 3))).map mesh.positionAt := by
  obtain ⟨triangles, hc, hlen⟩ := CreateTriangles_spec sqrtf mesh hrange
  have hin : (TriangleMesh.Translate (TriangleMesh.RotateY sinf cosf TO_RADIANS
      (TriangleMesh.Scale ({ mesh with triangles := triangles } : TriangleMesh F) ⟨1, 1, 1⟩) 0)
      ⟨0, 0, 0⟩).inRange := hrange
  obtain ⟨mesh', hu⟩ := UpdateTransforms_isSome _ hin (le_of_eq hlen)
  obtain ⟨triangles', hloop, _, hmesh'⟩ := UpdateTransforms_spec _ _ hu
  have hcorners := UpdateTransforms_loop_corners _
    (transformPosition_identity sinf cosf TO_RADIANS _ hsin hcos) _ 0 _ hloop
  refine ⟨mesh', ?_, ?_, ?_⟩
  · unfold TriangleMesh.identityRoundTrip
    simp only [hc]
    exact hu
  · rw [hmesh']; rfl
  · rw [hmesh']
    show (mesh.transformedPositions ++ _).map some = _
    rw [hempty, List.nil_append, hcorners, List.range_eq_range']
    show (List.range' (3 * 0) (3 * triangles.length)).map mesh.positionAt = _
    rw [hlen]

/-- The positions of a list, looked up in order. -/
theorem map_getElem_range {α : Type} (l : List α) :
    (List.range l.length).map (fun k => l[k]?) = l.map some := by
  apply List.ext_getElem?
  intro n
  by_cases hn : n < l.length
  · rw [List.getElem?_map, List.getElem?_range hn, List.getElem?_map,
      List.getElem?_eq_getElem hn]
    simp [List.getElem?_eq_getElem hn]
  · have hn' : l.length ≤ n := not_lt.mp hn
    rw [List.getElem?_eq_none (by simpa using hn'), List.getElem?_eq_none (by simpa using hn')]

/-! ## Reflectance terms and the direction to a light -/

/-- The Schlick-GGX term is 0 under its guard and the quotient by `schlickGGXDivisor`
    otherwise. -/
theorem GeometryFunction_SchlickGGX_eq (n v : Vector3 F) (roughness : F) :
    BRDF.GeometryFunction_SchlickGGX n v roughness =
      if Vector3.Dot n v = 0 then 0
      else Vector3.Dot n v / schlickGGXDivisor n v roughness := rfl

/-- For a positive `dot(n,v)` and a roughness in `[0,1]` the Schlick-GGX divisor is positive. -/
theorem schlickGGXDivisor_pos (n v : Vector3 F) (roughness : F)
    (hd : 0 < Vector3.Dot n v) (h0 : 0 ≤ roughness) (h1 : roughness ≤ 1) :
    0 < schlickGGXDivisor n v roughness := by
  unfold schlickGGXDivisor
  rcases eq_or_lt_of_le h0 with h | h
  · rw [← h]; simpa using hd
  · have : 0 ≤ Vector3.Dot n v * (1 - roughness) :=
      mul_nonneg (le_of_lt hd) (sub_nonneg.mpr h1)
    linarith

/-- In exact arithmetic the GGX distribution is `roughness^4` divided by `ggxDivisor`. -/
theorem NormalDistribution_GGX_eq (PI : F) (n h : Vector3 F) (roughness : F) :
    BRDF.NormalDistribution_GGX id PI n h roughness =
      roughness ^ 4 / ggxDivisor PI n h roughness := by
  simp only [BRDF.NormalDistribution_GGX, ggxDivisor, id]
  congr 1 <;> ring

/-- For a roughness in `(0,1]` and `|dot(n,h)| <= 1` the inner term of the GGX divisor is at
    least `roughness^4`. -/
theorem ggx_inner_ge (n h : Vector3 F) (roughness : F)
    (h0 : 0 < roughness) (h1 : roughness ≤ 1) (hd : |Vector3.Dot n h| ≤ 1) :
    roughness ^ 4 ≤ Vector3.Dot n h ^ 2 * (roughness ^ 4 - 1) + 1 := by
  have hd2 : Vector3.Dot n h ^ 2 ≤ 1 := by
    have := abs_le.mp hd
    nlinarith [this.1, this.2]
  have ha : roughness ^ 4 ≤ 1 := pow_le_one₀ (le_of_lt h0) h1
  nlinarith [sq_nonneg (Vector3.Dot n h)]

/-- The direction computed by `GetDirectionToLight` is the opposite of the unit vector from
    the target towards the light. -/
theorem GetDirectionToLight_eq_neg_towards (sqrtf : F → F) (light : Light F) (target : Vector3 F) :
    LightUtils.GetDirectionToLight sqrtf light target =
      Vector3.neg (directionTowardsLight sqrtf light target) := by
  simp only [LightUtils.GetDirectionToLight, directionTowardsLight,
    Vector3.Normalized, Vector3.Magnitude, SqrMagnitude_sub_comm target light.origin]
  simp only [Vector3.divide, Vector3.sub, Vector3.neg]
  ext <;> simp only [] <;> ring

/-! ## The sphere seen from inside, and its normal -/

/-- An `int` in the range of `uint32_t` is converted to itself. -/
theorem toUInt32_of_range (i : Int) (h0 : 0 ≤ i) (h1 : i < 4294967296) :
    toUInt32 i = i.toNat := by
  unfold toUInt32
  rw [Int.emod_eq_of_lt h0 h1]

/-- With the material of the hit in the material list, the loop over the lights reads no
    material outside the list. -/
theorem RenderPixel_lights_isSome (sqrtf : F → F) (areEqual : F → F → Bool)
    (renderer : Renderer) (scene : Scene F) (hitRecord : HitRecord F) (rayDirection : Vector3 F)
    (material : Material F)
    (hmat : scene.m_Materials[hitRecord.materialIndex]? = some material) :
    ∀ (lights : List (Light F)) (finalColor : ColorRGB F),
      (Renderer.RenderPixel_lights sqrtf areEqual renderer scene hitRecord rayDirection lights
          finalColor).isSome = true := by
  intro lights
  induction lights with
  | nil =>
    intro finalColor
    simp [Renderer.RenderPixel_lights]
  | cons light rest ih =>
    intro finalColor
    rw [Renderer.RenderPixel_lights]
    simp only [hmat]
    split_ifs
    · exact ih _
    · exact ih _

/-- The element written by `RenderPixel`, when it writes one, is `px + py * m_Width` in
    `uint32_t` arithmetic. -/
theorem RenderPixel_slot (sqrtf : F → F) (areEqual : F → F → Bool) (renderer : Renderer)
    (scene : Scene F) (pixelIndex : Nat) (FOV aspectRatio : F) (cameraToWorld : Matrix F)
    (cameraOrigin : Vector3 F) (slot : Nat)
    (h : (Renderer.RenderPixel sqrtf areEqual renderer scene pixelIndex FOV aspectRatio
      cameraToWorld cameraOrigin).map Prod.fst = some slot) :
    slot = (pixelIndex % toUInt32 renderer.m_Width +
      pixelIndex / toUInt32 renderer.m_Width * toUInt32 renderer.m_Width) % 4294967296 := by
  unfold Renderer.RenderPixel at h
  split_ifs at h with hw
  · simp at h
  · simp only [] at h
    split at h
    · simp at h
    · simp only [Option.map_some', Option.some.injEq] at h
      exact h.symm

/-- With a non-zero width and the material of the closest hit in the material list,
    `RenderPixel` writes an element. -/
theorem RenderPixel_isSome (sqrtf : F → F) (areEqual : F → F → Bool) (renderer : Renderer)
    (scene : Scene F) (pixelIndex : Nat) (FOV aspectRatio : F) (cameraToWorld : Matrix F)
    (cameraOrigin : Vector3 F)
    (hwidth : toUInt32 renderer.m_Width ≠ 0)
    (hmat : (Renderer.closestHitOfPixel sqrtf areEqual renderer scene pixelIndex FOV aspectRatio
        cameraToWorld cameraOrigin).1 = true →
      ∃ material : Material F,
        scene.m_Materials[(Renderer.closestHitOfPixel sqrtf areEqual renderer scene pixelIndex FOV
          aspectRatio cameraToWorld cameraOrigin).2.materialIndex]? = some material) :
    (Renderer.RenderPixel sqrtf areEqual renderer scene pixelIndex FOV aspectRatio
      cameraToWorld cameraOrigin).isSome = true := by
  unfold Renderer.closestHitOfPixel at hmat
  unfold Renderer.RenderPixel
  rw [if_neg hwidth]
  simp only []
  split_ifs with hhit
  · obtain ⟨material, hm⟩ := hmat hhit
    have hs := RenderPixel_lights_isSome sqrtf areEqual renderer scene _
      (Renderer.RenderPixel_hitRay sqrtf renderer pixelIndex FOV aspectRatio cameraToWorld
        cameraOrigin).direction material hm scene.m_Lights ColorRGB.black
    obtain ⟨color, hc⟩ := Option.isSome_iff_exists.mp hs
    rw [hc]
    rfl
  · rfl

/-! ## Matrix products and the camera -/

/-- The operator `*=` stores the entries that the operator `*` returns. -/
theorem mulAssign_eq_mul (a m : Matrix F) : Matrix.mulAssign a m = Matrix.mul a m := rfl

/-- The method `CalculateCameraToWorld` leaves the stored transform equal to the one of the
    current pose. -/
theorem CalculateCameraToWorld_current (sinf cosf : F → F) (TO_RADIANS : F) (camera : Camera F) :
    (Camera.CalculateCameraToWorld sinf cosf TO_RADIANS camera).transformCurrent sinf cosf
      TO_RADIANS := rfl

/-- The method `CalculateCameraToWorld` changes nothing but the stored transform. -/
theorem CalculateCameraToWorld_pose (sinf cosf : F → F) (TO_RADIANS : F) (camera : Camera F) :
    (Camera.CalculateCameraToWorld sinf cosf TO_RADIANS camera).m_Origin = camera.m_Origin ∧
    (Camera.CalculateCameraToWorld sinf cosf TO_RADIANS camera).m_TotalPitch =
      camera.m_TotalPitch ∧
    (Camera.CalculateCameraToWorld sinf cosf TO_RADIANS camera).m_TotalYaw = camera.m_TotalYaw :=
  ⟨rfl, rfl, rfl⟩

/-- Both constructors leave the stored transform current. -/
theorem Camera_new_current (sinf cosf : F → F) (TO_RADIANS : F) (origin : Vector3 F)
    (fovAngle : F) :
    (Camera.new sinf cosf TO_RADIANS).transformCurrent sinf cosf TO_RADIANS ∧
    (Camera.new2 sinf cosf TO_RADIANS origin fovAngle).transformCurrent sinf cosf TO_RADIANS :=
  ⟨rfl, rfl⟩

/-- Every `Update` leaves the stored transform current, whatever the controls. -/
theorem Camera_Update_current (sqrtf sinf cosf : F → F) (TO_RADIANS : F) (camera : Camera F)
    (controls : CameraControls F) :
    (Camera.Update sqrtf sinf cosf TO_RADIANS camera controls).transformCurrent sinf cosf
      TO_RADIANS := rfl

/-- The last row of a rotation built by `CreateRotation` is `(0,0,0,1)`. -/
theorem CreateRotation3_data3 (sinf cosf : F → F) (TO_RADIANS : F) (pitch yaw roll : F) :
    (Matrix.CreateRotation3 sinf cosf TO_RADIANS pitch yaw roll).data3 = ⟨0, 0, 0, 1⟩ := by
  simp [Matrix.CreateRotation3, Matrix.CreateRotation, Matrix.mul, Matrix.mulRow,
    Matrix.Transpose, Vector4.Dot, Matrix.CreateRotationX, Matrix.CreateRotationY,
    Matrix.CreateRotationZ, Matrix.ofAxes, Vector4.ofVector3, Vector3.UnitX, Vector3.UnitY,
    Vector3.UnitZ]

/-- The translation of `CreateRotation(pitch, yaw, 0) * CreateTranslation(origin)` is
    `origin`. -/
theorem transformCurrent_translation (sinf cosf : F → F) (TO_RADIANS : F) (camera : Camera F)
    (h : camera.transformCurrent sinf cosf TO_RADIANS) :
    camera.GetCameraToWorld.GetTranslation = camera.GetOrigin := by
  unfold Camera.transformCurrent at h
  rw [h]
  simp only [Matrix.GetTranslation, Matrix.mul, CreateRotation3_data3]
  simp [Matrix.mulRow, Matrix.Transpose, Vector4.Dot, Matrix.CreateTranslation, Matrix.ofAxes,
    Vector4.ofVector3, Vector4.toVector3, Vector3.UnitX, Vector3.UnitY, Vector3.UnitZ]

/-- The stored transform of a camera built by `Camera()`, with the stand-ins for sine and
    cosine: the identity. -/
theorem Camera_new_transform :
    (Camera.new sinApprox cosApprox toRadiansApprox).GetCameraToWorld = Matrix.identity := by
  simp [Camera.new, Camera.CalculateCameraToWorld, Camera.members, Camera.GetCameraToWorld,
    Matrix.mulAssign, Matrix.CreateRotation3, Matrix.CreateRotation, Matrix.mul, Matrix.mulRow,
    Matrix.Transpose, Vector4.Dot, Matrix.CreateRotationX, Matrix.CreateRotationY,
    Matrix.CreateRotationZ, Matrix.CreateTranslation, Matrix.ofAxes, Vector4.ofVector3,
    Vector3.UnitX, Vector3.UnitY, Vector3.UnitZ, Vector3.zero, Matrix.identity, sinApprox,
    cosApprox]

/-! ## Ranges of the geometry terms, and the return value of the mesh test -/

/-- The full mesh test returns the `didHit` flag of the record it leaves. -/
theorem HitTest_TriangleMesh_returns_didHit (areEqual : F → F → Bool) (mesh : TriangleMesh F)
    (ray : Ray F) (hitRecord : HitRecord F) :
    (HitTest_TriangleMesh areEqual mesh ray hitRecord false).1 =
      (HitTest_TriangleMesh areEqual mesh ray hitRecord false).2.didHit := by
  unfold HitTest_TriangleMesh
  rcases HitTest_TriangleMesh_loop_full areEqual ray mesh.triangles FLT_MAX hitRecord with
    ⟨h2, h1, _⟩ | ⟨tri, _, hhit, h2, h1, _, _⟩
  · rw [h1, h2]
  · rw [h1, h2, HitTest_Triangle_snd areEqual tri ray HitRecord.fresh hhit]

/-- When no triangle is hit the full mesh test returns the record it was given, and that
    record's `didHit` flag. -/
theorem HitTest_TriangleMesh_no_hit (areEqual : F → F → Bool) (mesh : TriangleMesh F)
    (ray : Ray F) (hitRecord : HitRecord F) (hnone : ¬ someTriangleHit areEqual mesh ray) :
    HitTest_TriangleMesh areEqual mesh ray hitRecord false = (hitRecord.didHit, hitRecord) := by
  unfold HitTest_TriangleMesh
  rcases HitTest_TriangleMesh_loop_full areEqual ray mesh.triangles FLT_MAX hitRecord with
    ⟨h2, h1, _⟩ | ⟨tri, hmem, hhit, _, _, _, _⟩
  · exact Prod.ext h1 h2
  · exact absurd ⟨tri, hmem, hhit⟩ hnone

/-- The full mesh test on a record whose `didHit` is `false`: `true` only if some triangle is
    hit, and, for a ray with `max <= FLT_MAX`, whenever some triangle is hit. -/
theorem HitTest_TriangleMesh_clean (areEqual : F → F → Bool) (mesh : TriangleMesh F)
    (ray : Ray F) (hitRecord : HitRecord F) (hclean : hitRecord.didHit = false) :
    ((HitTest_TriangleMesh areEqual mesh ray hitRecord false).1 = true →
      someTriangleHit areEqual mesh ray) ∧
    (ray.max ≤ FLT_MAX → someTriangleHit areEqual mesh ray →
      (HitTest_TriangleMesh areEqual mesh ray hitRecord false).1 = true) := by
  unfold HitTest_TriangleMesh
  rcases HitTest_TriangleMesh_loop_full areEqual ray mesh.triangles FLT_MAX hitRecord with
    ⟨_, h1, hmin⟩ | ⟨tri, hmem, hhit, _, h1, _, _⟩
  · refine ⟨fun h => ?_, fun hmax hsome => ?_⟩
    · rw [h1, hclean] at h
      exact absurd h (by simp)
    · obtain ⟨tri, hmem, hhit⟩ := hsome
      have hge := hmin tri hmem hhit
      have hlt := HitTest_Triangle_lt_max areEqual tri ray _ _ hhit
      exact absurd (lt_of_lt_of_le hlt hmax) (not_lt.mpr hge)
  · exact ⟨fun _ => ⟨tri, hmem, hhit⟩, fun _ _ => h1⟩

/-- The full mesh test on a record whose `didHit` is already `true` returns `true`. -/
theorem HitTest_TriangleMesh_stale (areEqual : F → F → Bool) (mesh : TriangleMesh F)
    (ray : Ray F) (hitRecord : HitRecord F) (hstale : hitRecord.didHit = true) :
    (HitTest_TriangleMesh areEqual mesh ray hitRecord false).1 = true := by
  unfold HitTest_TriangleMesh
  rcases HitTest_TriangleMesh_loop_full areEqual ray mesh.triangles FLT_MAX hitRecord with
    ⟨_, h1, _⟩ | ⟨_, _, _, _, h1, _, _⟩
  · rw [h1, hstale]
  · exact h1

/-! ## Elements read by the mesh constructors -/

/-- An element `positions[indices[k]]` that exists: `k` lies in `indices` and the index lies
    in `positions`. -/
theorem positionAt_some (mesh : TriangleMesh F) (k : Nat) (p : Vector3 F)
    (h : mesh.positionAt k = some p) :
    ∃ index : Int, mesh.indices[k]? = some index ∧ 0 ≤ index ∧
      index < (mesh.positions.length : Int) := by
  unfold TriangleMesh.positionAt at h
  cases hidx : mesh.indices[k]? with
  | none => rw [hidx] at h; simp at h
  | some index =>
    rw [hidx] at h
    simp only [vectorAt] at h
    split_ifs at h with h0
    have hlt : index.toNat < mesh.positions.length := by
      by_contra hcon
      rw [List.getElem?_eq_none (not_lt.mp hcon)] at h
      simp at h
    exact ⟨index, rfl, h0, by omega⟩

/-- When iteration `i` of `CreateTriangles` reads only elements that exist, its three
    indices are in range and `normals[i]` exists. -/
theorem CreateTriangles_triangle_some (sqrtf : F → F) (mesh : TriangleMesh F) (i : Nat)
    (triangle : Triangle F) (h : TriangleMesh.CreateTriangles_triangle sqrtf mesh i = some triangle) :
    (∀ k : Nat, 3 * i ≤ k → k < 3 * i + 3 →
      ∃ index : Int, mesh.indices[k]? = some index ∧ 0 ≤ index ∧
        index < (mesh.positions.length : Int)) ∧
    i < mesh.normals.length := by
  unfold TriangleMesh.CreateTriangles_triangle at h
  cases h0 : mesh.positionAt (3 * i) with
  | none => rw [h0] at h; simp at h
  | some p0 =>
    cases h1 : mesh.positionAt (3 * i + 1) with
    | none => rw [h0, h1] at h; simp at h
    | some p1 =>
      cases h2 : mesh.positionAt (3 * i + 2) with
      | none => rw [h0, h1, h2] at h; simp at h
      | some p2 =>
        cases hn : mesh.normals[i]? with
        | none => rw [h0, h1, h2, hn] at h; simp at h
        | some normal =>
          refine ⟨fun k hk0 hk1 => ?_, ?_⟩
          · have hk : k = 3 * i ∨ k = 3 * i + 1 ∨ k = 3 * i + 2 := by omega
            rcases hk with rfl | rfl | rfl
            · exact positionAt_some mesh _ p0 h0
            · exact positionAt_some mesh _ p1 h1
            · exact positionAt_some mesh _ p2 h2
          · by_contra hcon
            rw [List.getElem?_eq_none (not_lt.mp hcon)] at hn
            simp at hn

/-- When the loop of `CreateTriangles` completes, each of its iterations read only elements
    that exist. -/
theorem CreateTriangles_loop_some (sqrtf : F → F) (mesh : TriangleMesh F) :
    ∀ (count i : Nat) (triangles : List (Triangle F)),
      TriangleMesh.CreateTriangles_loop sqrtf mesh count i = some triangles →
      ∀ j : Nat, i ≤ j → j < i + count →
        ∃ triangle, TriangleMesh.CreateTriangles_triangle sqrtf mesh j = some triangle := by
  intro count
  induction count with
  | zero => intro i _ _ j h1 h2; omega
  | succ count ih =>
    intro i triangles h j h1 h2
    rw [TriangleMesh.CreateTriangles_loop] at h
    cases htri : TriangleMesh.CreateTriangles_triangle sqrtf mesh i with
    | none => rw [htri] at h; simp at h
    | some triangle =>
      rw [htri] at h
      cases hrest : TriangleMesh.CreateTriangles_loop sqrtf mesh count (i + 1) with
      | none => rw [hrest] at h; simp at h
      | some rest =>
        rcases Nat.eq_or_lt_of_le h1 with rfl | hlt
        · exact ⟨triangle, htri⟩
        · exact ih (i + 1) rest hrest j hlt (by omega)

/-- The method `CreateTriangles` reads only elements that exist exactly on the meshes in
    range. -/
theorem CreateTriangles_isSome_iff (sqrtf : F → F) (mesh : TriangleMesh F) :
    (TriangleMesh.CreateTriangles sqrtf mesh).isSome = true ↔ mesh.inRange := by
  constructor
  · intro h
    unfold TriangleMesh.CreateTriangles at h
    cases hloop : TriangleMesh.CreateTriangles_loop sqrtf mesh (mesh.indices.length / 3) 0 with
    | none => simp [hloop] at h
    | some triangles =>
      have hall := CreateTriangles_loop_some sqrtf mesh _ _ _ hloop
      refine ⟨?_, ?_⟩
      · rcases Nat.eq_zero_or_pos (mesh.indices.length / 3) with h0 | hpos
        · rw [h0]; exact Nat.zero_le _
        · obtain ⟨triangle, htri⟩ := hall (mesh.indices.length / 3 - 1) (Nat.zero_le _) (by omega)
          have := (CreateTriangles_triangle_some sqrtf mesh _ triangle htri).2
          omega
      · intro k hk index hidx
        obtain ⟨triangle, htri⟩ := hall (k / 3) (Nat.zero_le _) (by omega)
        obtain ⟨index', hidx', h0, h1⟩ :=
          (CreateTriangles_triangle_some sqrtf mesh _ triangle htri).1 k (by omega) (by omega)
        rw [hidx] at hidx'
        cases hidx'
        exact ⟨h0, h1⟩
  · intro h
    obtain ⟨triangles, hc, _⟩ := CreateTriangles_spec sqrtf mesh h
    rw [hc]; rfl

/-- A constructor body, `CreateTriangles` followed by `UpdateTransforms`, reads only
    elements that exist exactly on the meshes in range. -/
theorem construct_isSome_iff (sqrtf : F → F) (mesh : TriangleMesh F) :
    (match TriangleMesh.CreateTriangles sqrtf mesh with
      | none => none
      | some created => TriangleMesh.UpdateTransforms created).isSome = true ↔ mesh.inRange := by
  constructor
  · intro h
    apply (CreateTriangles_isSome_iff sqrtf mesh).mp
    cases hc : TriangleMesh.CreateTriangles sqrtf mesh with
    | none => rw [hc] at h; simp at h
    | some created => rfl
  · intro h
    obtain ⟨created, mesh', hc, hu, _⟩ := construct_spec sqrtf mesh h
    rw [hc]
    simp only [hu]
    rfl

/-! ## Lights that differ in their direction -/

/-- The shadow ray of `RenderPixel` is the same for two lights that agree in every member
    other than `direction`. -/
theorem RenderPixel_pointToLight_congr (sqrtf : F → F) (hitRecord : HitRecord F)
    (light light' : Light F) (h : light.sameButDirection light') :
    Renderer.RenderPixel_pointToLight sqrtf hitRecord light =
      Renderer.RenderPixel_pointToLight sqrtf hitRecord light' := by
  simp only [Renderer.RenderPixel_pointToLight, h.1]

/-- The three functions of `LightUtils` return the same for two lights that agree in every
    member other than `direction`. -/
theorem LightUtils_congr (sqrtf : F → F) (light light' : Light F)
    (h : light.sameButDirection light') (target : Vector3 F) (hitRecord : HitRecord F) :
    LightUtils.GetDirectionToLight sqrtf light target =
      LightUtils.GetDirectionToLight sqrtf light' target ∧
    LightUtils.GetObservedArea sqrtf light hitRecord =
      LightUtils.GetObservedArea sqrtf light' hitRecord ∧
    LightUtils.GetRadiance light target = LightUtils.GetRadiance light' target := by
  obtain ⟨ho, hc, hi, ht⟩ := h
  refine ⟨?_, ?_, ?_⟩
  · simp only [LightUtils.GetDirectionToLight, ho]
  · simp only [LightUtils.GetObservedArea, LightUtils.GetDirectionToLight, ho]
  · simp only [LightUtils.GetRadiance, ho, hc, hi, ht]

/-- The loop of `RenderPixel` over the lights returns the same colour for two scenes with
    the same shadow test and materials and for two lists of lights that pairwise agree in
    every member other than `direction`. -/
theorem RenderPixel_lights_congr (sqrtf : F → F) (areEqual : F → F → Bool) (renderer : Renderer)
    (scene scene' : Scene F) (hitRecord : HitRecord F) (rayDirection : Vector3 F)
    (hshadow : ∀ ray : Ray F, scene.DoesHit sqrtf areEqual ray = scene'.DoesHit sqrtf areEqual ray)
    (hmat : scene.m_Materials = scene'.m_Materials)
    (lights lights' : List (Light F)) (h : List.Forall₂ Light.sameButDirection lights lights') :
    ∀ finalColor : ColorRGB F,
      Renderer.RenderPixel_lights sqrtf areEqual renderer scene hitRecord rayDirection lights
          finalColor =
        Renderer.RenderPixel_lights sqrtf areEqual renderer scene' hitRecord rayDirection lights'
          finalColor := by
  induction h with
  | nil => intro finalColor; simp [Renderer.RenderPixel_lights]
  | @cons light light' rest rest' hl _ ih =>
    intro finalColor
    have hp := RenderPixel_pointToLight_congr sqrtf hitRecord light light' hl
    have hu := LightUtils_congr sqrtf light light' hl hitRecord.origin hitRecord
    rw [Renderer.RenderPixel_lights, Renderer.RenderPixel_lights]
    simp only [hp, hu.2.1, hu.2.2, hshadow, hmat, ih]

/-- The colour and the element written by `RenderPixel` are the same for two scenes that
    differ only in the `direction` members of their lights. -/
theorem RenderPixel_congr (sqrtf : F → F) (areEqual : F → F → Bool) (renderer : Renderer)
    (scene scene' : Scene F) (h : scene.sameButLightDirections scene') (pixelIndex : Nat)
    (FOV aspectRatio : F) (cameraToWorld : Matrix F) (cameraOrigin : Vector3 F) :
    Renderer.RenderPixel sqrtf areEqual renderer scene pixelIndex FOV aspectRatio cameraToWorld
        cameraOrigin =
      Renderer.RenderPixel sqrtf areEqual renderer scene' pixelIndex FOV aspectRatio cameraToWorld
        cameraOrigin := by
  obtain ⟨spheres, planes, meshes, lights, materials⟩ := scene
  obtain ⟨spheres', planes', meshes', lights', materials'⟩ := scene'
  obtain ⟨hs, hp, hm, hmat, hl⟩ := h
  simp only [] at hs hp hm hmat hl
  subst hs hp hm hmat
  have hclosest : ∀ (ray : Ray F) (record : HitRecord F),
      Scene.TryGetClosestHit sqrtf areEqual ⟨spheres, planes, meshes, lights, materials⟩ ray record =
        Scene.TryGetClosestHit sqrtf areEqual ⟨spheres, planes, meshes, lights', materials⟩ ray
          record := fun _ _ => rfl
  have hlights := RenderPixel_lights_congr sqrtf areEqual renderer
    (⟨spheres, planes, meshes, lights, materials⟩ : Scene F)
    ⟨spheres, planes, meshes, lights', materials⟩
  unfold Renderer.RenderPixel
  simp only [hclosest]
  rw [hlights _ _ (fun _ => rfl) rfl lights lights' hl]

/-- The light made by `AddDirectionalLight`: its origin is `(0,0,0)`. -/
theorem AddDirectionalLight_spec (scene : Scene F) (direction : Vector3 F) (intensity : F)
    (color : ColorRGB F) :
    (scene.AddDirectionalLight direction intensity color).2 =
      ⟨Vector3.zero, direction, color, intensity, LightType.Directional⟩ ∧
    (scene.AddDirectionalLight direction intensity color).1.m_Lights =
      scene.m_Lights ++ [(scene.AddDirectionalLight direction intensity color).2] :=
  ⟨rfl, rfl⟩

/-! ## The tie rule of the closest-hit query -/

/-- The fold of `closestStep` never goes below a distance that bounds the starting distance
    and the distances of all successful results from below. -/
theorem closestStep_foldl_ge (results : List (Bool × HitRecord F)) (state : F × HitRecord F)
    (c : F) (hstate : c ≤ state.1)
    (hall : ∀ r ∈ results, r.1 = true → c ≤ r.2.cameraToPointDistance) :
    c ≤ (results.foldl Scene.closestStep state).1 := by
  obtain ⟨_, _, hprov⟩ := closestStep_foldl results state
  rcases hprov with ⟨heq, _⟩ | ⟨r, hmem, hhit, heq⟩
  · rw [heq]; exact hstate
  · rw [heq]; exact hall r hmem hhit

/-- The tie rule of `closestStep`: the fold ends with the last of the nearest successful
    results, that is, with a successful result that no earlier one beats and that every later
    successful one is strictly farther than. -/
theorem closestStep_foldl_last_nearest (before after : List (Bool × HitRecord F))
    (r : Bool × HitRecord F) (state : F × HitRecord F)
    (hhit : r.1 = true) (hstate : r.2.cameraToPointDistance ≤ state.1)
    (hbefore : ∀ x ∈ before, x.1 = true → r.2.cameraToPointDistance ≤ x.2.cameraToPointDistance)
    (hafter : ∀ x ∈ after, x.1 = true → r.2.cameraToPointDistance < x.2.cameraToPointDistance) :
    (before ++ r :: after).foldl Scene.closestStep state = (r.2.cameraToPointDistance, r.2) := by
  rw [List.foldl_append, List.foldl_cons]
  have hge := closestStep_foldl_ge before state r.2.cameraToPointDistance hstate hbefore
  have hstep : Scene.closestStep (before.foldl Scene.closestStep state) r =
      (r.2.cameraToPointDistance, r.2) := by
    unfold Scene.closestStep
    rw [if_pos ⟨hhit, hge⟩]
  rw [hstep]
  obtain ⟨hle, _, hprov⟩ := closestStep_foldl after (r.2.cameraToPointDistance, r.2)
  rcases hprov with ⟨heq, _⟩ | ⟨x, hmem, hx, heq⟩
  · exact heq
  · exfalso
    rw [heq] at hle
    exact absurd (hafter x hmem hx) (not_lt.mpr hle)

/-- The tie rule of `TryGetClosestHit`: the output record is that of the last primitive in
    iteration order among those hit at the smallest distance. -/
theorem TryGetClosestHit_last_nearest (sqrtf : F → F) (areEqual : F → F → Bool)
    (scene : Scene F) (ray : Ray F) (closestHit : HitRecord F)
    (before after : List (Bool × HitRecord F)) (r : Bool × HitRecord F)
    (hsplit : Scene.fullHitTests sqrtf areEqual scene ray = before ++ r :: after)
    (hhit : r.1 = true) (hmax : r.2.cameraToPointDistance ≤ FLT_MAX)
    (hbefore : ∀ x ∈ before, x.1 = true → r.2.cameraToPointDistance ≤ x.2.cameraToPointDistance)
    (hafter : ∀ x ∈ after, x.1 = true → r.2.cameraToPointDistance < x.2.cameraToPointDistance) :
    (Scene.TryGetClosestHit sqrtf areEqual scene ray closestHit).2 = r.2 ∧
    (r.2.cameraToPointDistance < FLT_MAX →
      (Scene.TryGetClosestHit sqrtf areEqual scene ray closestHit).1 = true) := by
  unfold Scene.TryGetClosestHit
  simp only [closestLoops_eq_foldl, hsplit]
  rw [closestStep_foldl_last_nearest before after r (FLT_MAX, closestHit) hhit hmax hbefore hafter]
  refine ⟨rfl, fun hlt => ?_⟩
  simp only [decide_eq_true_eq]
  exact ne_of_lt hlt

/-! ## Rounding in the GGX distribution -/

/-- The function divides the computed `roughnessPow4` by the computed divisor. -/
theorem NormalDistribution_GGX_computed (fl : F → F) (PI : F) (n h : Vector3 F) (roughness : F) :
    BRDF.NormalDistribution_GGX fl PI n h roughness =
      fl (ggxRoughnessPow4 fl roughness / ggxComputedDivisor fl PI n h roughness) := rfl

/-- A monotone rounding that leaves 0 and 1 as they are keeps a value of `[0,1]` in `[0,1]`. -/
theorem RoundsToFloat_unit (fl : F → F) (hfl : RoundsToFloat fl) (x : F) (h0 : 0 ≤ x) (h1 : x ≤ 1) :
    0 ≤ fl x ∧ fl x ≤ 1 :=
  ⟨by have := hfl.mono 0 x h0; rwa [hfl.exact_zero] at this,
    by have := hfl.mono x 1 h1; rwa [hfl.exact_one] at this⟩

/-- The computed `roughnessPow4` of a roughness in `[0,1]` lies in `[0,1]`. -/
theorem ggxRoughnessPow4_unit (fl : F → F) (hfl : RoundsToFloat fl) (roughness : F)
    (h0 : 0 ≤ roughness) (h1 : roughness ≤ 1) :
    0 ≤ ggxRoughnessPow4 fl roughness ∧ ggxRoughnessPow4 fl roughness ≤ 1 := by
  have h2 := RoundsToFloat_unit fl hfl (roughness * roughness) (mul_nonneg h0 h0)
    (mul_le_one₀ h1 h0 h1)
  have h3 := RoundsToFloat_unit fl hfl (fl (roughness * roughness) * roughness)
    (mul_nonneg h2.1 h0) (mul_le_one₀ h2.2 h0 h1)
  exact RoundsToFloat_unit fl hfl _ (mul_nonneg h3.1 h0) (mul_le_one₀ h3.2 h0 h1)

/-- The rounded `roughnessPow4 - 1` lies in `[-1,0]`, the rounded square of a dot product of
    absolute value at most 1 in `[0,1]`, and the computed `denominator` in `[0,1]`. -/
theorem ggxDenominator_unit (fl : F → F) (hfl : RoundsToFloat fl) (n h : Vector3 F)
    (roughness : F) (h0 : 0 ≤ roughness) (h1 : roughness ≤ 1) (hd : |Vector3.Dot n h| ≤ 1) :
    (-1 ≤ fl (ggxRoughnessPow4 fl roughness - 1) ∧ fl (ggxRoughnessPow4 fl roughness - 1) ≤ 0) ∧
    (0 ≤ fl (Vector3.Dot n h * Vector3.Dot n h) ∧ fl (Vector3.Dot n h * Vector3.Dot n h) ≤ 1) ∧
    (0 ≤ ggxDenominator fl n h roughness ∧ ggxDenominator fl n h roughness ≤ 1) := by
  have ha := ggxRoughnessPow4_unit fl hfl roughness h0 h1
  have hm : -1 ≤ fl (ggxRoughnessPow4 fl roughness - 1) ∧
      fl (ggxRoughnessPow4 fl roughness - 1) ≤ 0 := by
    constructor
    · have := hfl.mono (-1) (ggxRoughnessPow4 fl roughness - 1) (by linarith [ha.1])
      rwa [hfl.exact_neg_one] at this
    · have := hfl.mono (ggxRoughnessPow4 fl roughness - 1) 0 (by linarith [ha.2])
      rwa [hfl.exact_zero] at this
  have hdd : Vector3.Dot n h * Vector3.Dot n h ≤ 1 := by
    have := abs_le.mp hd
    nlinarith [this.1, this.2]
  have hsq := RoundsToFloat_unit fl hfl (Vector3.Dot n h * Vector3.Dot n h)
    (mul_self_nonneg _) hdd
  have hp : -1 ≤ fl (fl (Vector3.Dot n h * Vector3.Dot n h) *
      fl (ggxRoughnessPow4 fl roughness - 1)) ∧
      fl (fl (Vector3.Dot n h * Vector3.Dot n h) * fl (ggxRoughnessPow4 fl roughness - 1)) ≤ 0 := by
    constructor
    · have := hfl.mono (-1) (fl (Vector3.Dot n h * Vector3.Dot n h) *
        fl (ggxRoughnessPow4 fl roughness - 1)) (by nlinarith [hsq.1, hsq.2, hm.1, hm.2])
      rwa [hfl.exact_neg_one] at this
    · have := hfl.mono (fl (Vector3.Dot n h * Vector3.Dot n h) *
        fl (ggxRoughnessPow4 fl roughness - 1)) 0 (mul_nonpos_of_nonneg_of_nonpos hsq.1 hm.2)
      rwa [hfl.exact_zero] at this
  refine ⟨hm, hsq, ?_⟩
  unfold ggxDenominator
  exact RoundsToFloat_unit fl hfl _ (by linarith [hp.1]) (by linarith [hp.2])

/-- When the rounded `roughnessPow4 - 1` is not `-1` (it is at least the `float` next to
    `-1`) or the rounded square of the dot product is not 1 (it is at most the `float` next
    to 1), the computed `denominator` is at least `2^-24` and the computed divisor at least
    `2^-48`. -/
theorem ggxComputedDivisor_pos (fl : F → F) (hfl : RoundsToFloat fl) (PI : F) (n h : Vector3 F)
    (roughness : F) (hpi : 1 ≤ PI) (h0 : 0 ≤ roughness) (h1 : roughness ≤ 1)
    (hd : |Vector3.Dot n h| ≤ 1)
    (hcase : -(1 - 1 / 16777216) ≤ fl (ggxRoughnessPow4 fl roughness - 1) ∨
      fl (Vector3.Dot n h * Vector3.Dot n h) ≤ 1 - 1 / 16777216) :
    1 / 16777216 ≤ ggxDenominator fl n h roughness ∧
    1 / 281474976710656 ≤ ggxComputedDivisor fl PI n h roughness := by
  obtain ⟨hm, hsq, hden⟩ := ggxDenominator_unit fl hfl n h roughness h0 h1 hd
  have hprod : -(1 - 1 / 16777216) ≤ fl (Vector3.Dot n h * Vector3.Dot n h) *
      fl (ggxRoughnessPow4 fl roughness - 1) := by
    rcases hcase with hc | hc
    · nlinarith [hsq.1, hsq.2, hm.1, hm.2]
    · nlinarith [hsq.1, hsq.2, hm.1, hm.2]
  have hp := hfl.mono _ _ hprod
  rw [hfl.exact_next_to_neg_one] at hp
  have hD : 1 / 16777216 ≤ ggxDenominator fl n h roughness := by
    unfold ggxDenominator
    have := hfl.mono (1 / 16777216) (fl (fl (Vector3.Dot n h * Vector3.Dot n h) *
      fl (ggxRoughnessPow4 fl roughness - 1)) + 1) (by linarith)
    rwa [hfl.exact_ulp] at this
  have hDD : 1 / 281474976710656 ≤
      fl (ggxDenominator fl n h roughness * ggxDenominator fl n h roughness) := by
    have := hfl.mono (1 / 281474976710656)
      (ggxDenominator fl n h roughness * ggxDenominator fl n h roughness)
      (by nlinarith [hD, hden.1])
    rwa [hfl.exact_ulp_sq] at this
  refine ⟨hD, ?_⟩
  unfold ggxComputedDivisor
  have := hfl.mono (1 / 281474976710656)
    (PI * fl (ggxDenominator fl n h roughness * ggxDenominator fl n h roughness))
    (by nlinarith [hDD, hpi])
  rwa [hfl.exact_ulp_sq] at this

/-- When the rounded `roughnessPow4 - 1` is `-1` and the rounded square of the dot product
    is 1, the computed `denominator` and the computed divisor are 0. -/
theorem ggxComputedDivisor_zero (fl : F → F) (hfl : RoundsToFloat fl) (PI : F) (n h : Vector3 F)
    (roughness : F) (hm : fl (ggxRoughnessPow4 fl roughness - 1) = -1)
    (hsq : fl (Vector3.Dot n h * Vector3.Dot n h) = 1) :
    ggxDenominator fl n h roughness = 0 ∧ ggxComputedDivisor fl PI n h roughness = 0 := by
  have hD : ggxDenominator fl n h roughness = 0 := by
    unfold ggxDenominator
    rw [hm, hsq, one_mul, hfl.exact_neg_one, neg_add_cancel, hfl.exact_zero]
  refine ⟨hD, ?_⟩
  unfold ggxComputedDivisor
  rw [hD, mul_zero, hfl.exact_zero, mul_zero, hfl.exact_zero]

/-- Exact arithmetic is a rounding in the sense of `RoundsToFloat`. -/
theorem RoundsToFloat_id : RoundsToFloat (id : F → F) :=
  ⟨fun _ _ h => h, rfl, rfl, rfl, rfl, rfl, rfl⟩

/-- Rounding to the nearest integer does not go below an integer that the argument is not
    below. -/
theorem roundHalfEven_ge (t : ℚ) (k : ℤ) (h : (k : ℚ) ≤ t) : k ≤ roundHalfEven t := by
  have hk : k ≤ ⌊t⌋ := Int.le_floor.mpr h
  unfold roundHalfEven
  split_ifs <;> omega

/-- Rounding to the nearest integer does not go above an integer that the argument is not
    above. -/
theorem roundHalfEven_le (t : ℚ) (k : ℤ) (h : t ≤ (k : ℚ)) : roundHalfEven t ≤ k := by
  rcases eq_or_lt_of_le h with heq | hlt
  · have hf : ⌊t⌋ = k := by rw [heq]; exact Int.floor_intCast k
    unfold roundHalfEven
    have h0 : t - (⌊t⌋ : ℚ) < 1 / 2 := by rw [hf, heq]; norm_num
    rw [if_pos h0, hf]
  · have hk : ⌊t⌋ < k := Int.floor_lt.mpr hlt
    unfold roundHalfEven
    split_ifs <;> omega

/-- Rounding to the nearest integer leaves an integer as it is. -/
theorem roundHalfEven_intCast (k : ℤ) : roundHalfEven (k : ℚ) = k :=
  le_antisymm (roundHalfEven_le _ k (le_refl _)) (roundHalfEven_ge _ k (le_refl _))

/-- Rounding to the nearest integer is monotone. -/
theorem roundHalfEven_mono (t t' : ℚ) (h : t ≤ t') : roundHalfEven t ≤ roundHalfEven t' := by
  have hfl : ⌊t⌋ ≤ ⌊t'⌋ := Int.floor_mono h
  rcases eq_or_lt_of_le hfl with heq | hlt
  · unfold roundHalfEven
    rw [← heq]
    have hfrac : t - (⌊t⌋ : ℚ) ≤ t' - (⌊t⌋ : ℚ) := by linarith
    split_ifs <;> first | omega | (exfalso; linarith)
  · have h1 : roundHalfEven t ≤ ⌊t⌋ + 1 := by
      unfold roundHalfEven
      split_ifs <;> omega
    have h2 : ⌊t'⌋ ≤ roundHalfEven t' := roundHalfEven_ge t' _ (Int.floor_le t')
    omega

/-- Rounding to the nearest integer, ties to even, commutes with negation. -/
theorem roundHalfEven_neg (t : ℚ) : roundHalfEven (-t) = - roundHalfEven t := by
  by_cases hint : (⌊t⌋ : ℚ) = t
  · rw [← hint, ← Int.cast_neg, roundHalfEven_intCast, roundHalfEven_intCast]
  · have hlt : (⌊t⌋ : ℚ) < t := lt_of_le_of_ne (Int.floor_le t) hint
    have hlt' : t < (⌊t⌋ : ℚ) + 1 := Int.lt_floor_add_one t
    have hneg : ⌊-t⌋ = -⌊t⌋ - 1 := by
      rw [Int.floor_eq_iff]
      push_cast
      constructor <;> linarith
    unfold roundHalfEven
    rw [hneg]
    push_cast
    split_ifs <;> first | omega | (exfalso; linarith)

/-- The quantum `2^(e - 23)` of a binade is positive. -/
theorem binary32_quantum_pos (e : ℤ) : (0 : ℚ) < 2 ^ (e - 23) := zpow_pos (by norm_num) _

/-- Sign and absolute value do not matter for the exponent of the binade. -/
theorem binary32Exponent_neg (x : ℚ) : binary32Exponent (-x) = binary32Exponent x := by
  unfold binary32Exponent
  rw [abs_neg]

/-- Rounding to binary32 commutes with negation. -/
theorem roundBinary32_neg (x : ℚ) : roundBinary32 (-x) = - roundBinary32 x := by
  unfold roundBinary32
  rw [binary32Exponent_neg, neg_div, roundHalfEven_neg]
  push_cast
  ring

/-- Rounding to binary32 keeps a non-negative number non-negative. -/
theorem roundBinary32_nonneg (x : ℚ) (h : 0 ≤ x) : 0 ≤ roundBinary32 x := by
  unfold roundBinary32
  have hq := binary32_quantum_pos (binary32Exponent x)
  have : (0 : ℤ) ≤ roundHalfEven (x / 2 ^ (binary32Exponent x - 23)) :=
    roundHalfEven_ge _ 0 (by simpa using div_nonneg h (le_of_lt hq))
  exact mul_nonneg (by exact_mod_cast this) (le_of_lt hq)

/-- The exponent of the binade is monotone in a positive number. -/
theorem binary32Exponent_mono (x y : ℚ) (hx : 0 < x) (h : x ≤ y) :
    binary32Exponent x ≤ binary32Exponent y := by
  unfold binary32Exponent
  rw [abs_of_pos hx, abs_of_pos (lt_of_lt_of_le hx h)]
  exact max_le_max (Int.log_mono_right hx h) (le_refl _)

/-- A positive number lies below the upper end `2^(e + 1)` of its binade, and so does its
    rounding. -/
theorem roundBinary32_le_binade (x : ℚ) (hx : 0 < x) :
    roundBinary32 x ≤ 2 ^ (binary32Exponent x + 1) := by
  have hq := binary32_quantum_pos (binary32Exponent x)
  have hlt : x < 2 ^ (binary32Exponent x + 1) := by
    have h1 : x < ((2 : ℕ) : ℚ) ^ (Int.log 2 x + 1) := Int.lt_zpow_succ_log_self (by norm_num) x
    have h2 : ((2 : ℕ) : ℚ) ^ (Int.log 2 x + 1) ≤ 2 ^ (binary32Exponent x + 1) := by
      rw [Nat.cast_ofNat]
      apply zpow_le_zpow_right₀ (by norm_num)
      unfold binary32Exponent
      rw [abs_of_pos hx]
      exact add_le_add_right (le_max_left _ _) 1
    exact lt_of_lt_of_le h1 h2
  have hsplit : (2 : ℚ) ^ (binary32Exponent x + 1) =
      ((16777216 : ℤ) : ℚ) * 2 ^ (binary32Exponent x - 23) := by
    have : binary32Exponent x + 1 = 24 + (binary32Exponent x - 23) := by ring
    rw [this, zpow_add₀ (by norm_num)]
    norm_num
  unfold roundBinary32
  rw [hsplit]
  apply mul_le_mul_of_nonneg_right _ (le_of_lt hq)
  have : roundHalfEven (x / 2 ^ (binary32Exponent x - 23)) ≤ 16777216 := by
    apply roundHalfEven_le
    rw [div_le_iff₀ hq, ← hsplit]
    exact le_of_lt hlt
  exact_mod_cast this

/-- The rounding of a positive number whose binade lies above the subnormal range is not
    below the lower end `2^e` of the binade. -/
theorem roundBinary32_ge_binade (x : ℚ) (hx : 0 < x) (he : -126 < binary32Exponent x) :
    2 ^ binary32Exponent x ≤ roundBinary32 x := by
  have hq := binary32_quantum_pos (binary32Exponent x)
  have hlog : binary32Exponent x = Int.log 2 x := by
    unfold binary32Exponent at he ⊢
    rw [abs_of_pos hx] at he ⊢
    omega
  have hle : (2 : ℚ) ^ binary32Exponent x ≤ x := by
    rw [hlog]
    have := Int.zpow_log_le_self (b := 2) (r := x) (by norm_num) hx
    rwa [Nat.cast_ofNat] at this
  have hsplit : (2 : ℚ) ^ binary32Exponent x =
      ((8388608 : ℤ) : ℚ) * 2 ^ (binary32Exponent x - 23) := by
    have : binary32Exponent x = 23 + (binary32Exponent x - 23) := by ring
    nth_rewrite 1 [this]
    rw [zpow_add₀ (by norm_num)]
    norm_num
  unfold roundBinary32
  rw [hsplit]
  apply mul_le_mul_of_nonneg_right _ (le_of_lt hq)
  have : (8388608 : ℤ) ≤ roundHalfEven (x / 2 ^ (binary32Exponent x - 23)) := by
    apply roundHalfEven_ge
    rw [le_div_iff₀ hq, ← hsplit]
    exact hle
  exact_mod_cast this

/-- Rounding to binary32 is monotone on the positive numbers. -/
theorem roundBinary32_mono_pos (x y : ℚ) (hx : 0 < x) (h : x ≤ y) :
    roundBinary32 x ≤ roundBinary32 y := by
  have hy : 0 < y := lt_of_lt_of_le hx h
  rcases eq_or_lt_of_le (binary32Exponent_mono x y hx h) with heq | hlt
  · unfold roundBinary32
    rw [← heq]
    have hq := binary32_quantum_pos (binary32Exponent x)
    apply mul_le_mul_of_nonneg_right _ (le_of_lt hq)
    have := roundHalfEven_mono (x / 2 ^ (binary32Exponent x - 23))
      (y / 2 ^ (binary32Exponent x - 23)) (div_le_div_of_nonneg_right h (le_of_lt hq))
    exact_mod_cast this
  · have hxe : -126 ≤ binary32Exponent x := le_max_right _ _
    have h1 := roundBinary32_le_binade x hx
    have h2 := roundBinary32_ge_binade y hy (by omega)
    have h3 : (2 : ℚ) ^ (binary32Exponent x + 1) ≤ 2 ^ binary32Exponent y :=
      zpow_le_zpow_right₀ (by norm_num) (by omega)
    linarith

/-- Rounding to binary32 is monotone. -/
theorem roundBinary32_mono (x y : ℚ) (h : x ≤ y) : roundBinary32 x ≤ roundBinary32 y := by
  rcases lt_trichotomy 0 x with hx | hx | hx
  · exact roundBinary32_mono_pos x y hx h
  · rw [← hx] at h ⊢
    have h0 : roundBinary32 0 ≤ 0 := by
      have := roundBinary32_nonneg 0 (le_refl _)
      have hn := roundBinary32_neg 0
      rw [neg_zero] at hn
      linarith
    exact le_trans h0 (roundBinary32_nonneg y h)
  · rcases le_or_lt 0 y with hy | hy
    · have hn := roundBinary32_nonneg (-x) (by linarith)
      rw [roundBinary32_neg] at hn
      exact le_trans (by linarith) (roundBinary32_nonneg y hy)
    · have := roundBinary32_mono_pos (-y) (-x) (by linarith) (by linarith)
      rw [roundBinary32_neg, roundBinary32_neg] at this
      linarith

/-- Rounding to binary32 leaves an integer multiple of the quantum of its binade as it is:
    a number `k * 2^(e - 23)` with `2^e <= |x| < 2^(e + 1)` and `e >= -126`. -/
theorem roundBinary32_exact (x : ℚ) (e k : ℤ) (he : -126 ≤ e)
    (h1 : (2 : ℚ) ^ e ≤ |x|) (h2 : |x| < 2 ^ (e + 1)) (hk : x = (k : ℚ) * 2 ^ (e - 23)) :
    roundBinary32 x = x := by
  have hpos : 0 < |x| := lt_of_lt_of_le (zpow_pos (by norm_num) e) h1
  have hlog : Int.log 2 |x| = e := by
    apply le_antisymm
    · have := (Int.lt_zpow_iff_log_lt (b := 2) (by norm_num) hpos).mp
        (by rw [Nat.cast_ofNat]; exact h2)
      omega
    · exact (Int.zpow_le_iff_le_log (b := 2) (by norm_num) hpos).mp
        (by rw [Nat.cast_ofNat]; exact h1)
  have hexp : binary32Exponent x = e := by
    unfold binary32Exponent
    rw [hlog]
    exact max_eq_left he
  have hq := binary32_quantum_pos e
  unfold roundBinary32
  rw [hexp]
  nth_rewrite 1 [hk]
  rw [mul_div_assoc, div_self (ne_of_gt hq), mul_one, roundHalfEven_intCast, ← hk]

/-- Rounding to binary32 is a rounding in the sense of `RoundsToFloat`. -/
theorem RoundsToFloat_roundBinary32 : RoundsToFloat roundBinary32 := by
  refine ⟨roundBinary32_mono, ?_, ?_, ?_, ?_, ?_, ?_⟩
  · have := roundBinary32_nonneg 0 (le_refl _)
    have hn := roundBinary32_neg 0
    rw [neg_zero] at hn
    linarith
  · exact roundBinary32_exact 1 0 8388608 (by norm_num) (by norm_num) (by norm_num)
      (by norm_num [zpow_neg])
  · exact roundBinary32_exact (-1) 0 (-8388608) (by norm_num) (by norm_num) (by norm_num)
      (by norm_num [zpow_neg])
  · exact roundBinary32_exact (-(1 - 1 / 16777216)) (-1) (-16777215) (by norm_num)
      (by norm_num [abs_of_pos, zpow_neg]) (by norm_num [abs_of_pos]) (by norm_num [zpow_neg])
  · exact roundBinary32_exact (1 / 16777216) (-24) 8388608 (by norm_num)
      (by norm_num [abs_of_pos, zpow_neg]) (by norm_num [abs_of_pos, zpow_neg])
      (by norm_num [zpow_neg])
  · exact roundBinary32_exact (1 / 281474976710656) (-48) 8388608 (by norm_num)
      (by norm_num [abs_of_pos, zpow_neg]) (by norm_num [abs_of_pos, zpow_neg])
      (by norm_num [zpow_neg])

/-- Rounding to the nearest integer of a number less than a half above an integer. -/
theorem roundHalfEven_of_lt_half (t : ℚ) (k : ℤ) (h1 : (k : ℚ) ≤ t) (h2 : t - k < 1 / 2) :
    roundHalfEven t = k := by
  have hf : ⌊t⌋ = k := by
    rw [Int.floor_eq_iff]
    constructor <;> linarith
  unfold roundHalfEven
  rw [hf, if_pos h2]

/-- Rounding to binary32 of a number of the binade of exponent `e`. -/
theorem roundBinary32_eval (x : ℚ) (e k : ℤ) (he : -126 ≤ e)
    (h1 : (2 : ℚ) ^ e ≤ |x|) (h2 : |x| < 2 ^ (e + 1))
    (hk : roundHalfEven (x / 2 ^ (e - 23)) = k) :
    roundBinary32 x = (k : ℚ) * 2 ^ (e - 23) := by
  have hpos : 0 < |x| := lt_of_lt_of_le (zpow_pos (by norm_num) e) h1
  have hlog : Int.log 2 |x| = e := by
    apply le_antisymm
    · have := (Int.lt_zpow_iff_log_lt (b := 2) (by norm_num) hpos).mp
        (by rw [Nat.cast_ofNat]; exact h2)
      omega
    · exact (Int.zpow_le_iff_le_log (b := 2) (by norm_num) hpos).mp
        (by rw [Nat.cast_ofNat]; exact h1)
  have hexp : binary32Exponent x = e := by
    unfold binary32Exponent
    rw [hlog]
    exact max_eq_left he
  unfold roundBinary32
  rw [hexp, hk]

/-- In binary32 the `roughnessPow4` of the roughness `1/128` is `2^-28`, computed without
    rounding error. -/
theorem ggxRoughnessPow4_small :
    ggxRoughnessPow4 roundBinary32 (1 / 128) = 1 / 268435456 := by
  have h1 : roundBinary32 (1 / 16384) = 1 / 16384 :=
    roundBinary32_exact _ (-14) 8388608 (by norm_num) (by norm_num [abs_of_pos, zpow_neg])
      (by norm_num [abs_of_pos, zpow_neg]) (by norm_num [zpow_neg])
  have h2 : roundBinary32 (1 / 2097152) = 1 / 2097152 :=
    roundBinary32_exact _ (-21) 8388608 (by norm_num) (by norm_num [abs_of_pos, zpow_neg])
      (by norm_num [abs_of_pos, zpow_neg]) (by norm_num [zpow_neg])
  have h3 : roundBinary32 (1 / 268435456) = 1 / 268435456 :=
    roundBinary32_exact _ (-28) 8388608 (by norm_num) (by norm_num [abs_of_pos, zpow_neg])
      (by norm_num [abs_of_pos, zpow_neg]) (by norm_num [zpow_neg])
  unfold ggxRoughnessPow4
  rw [show (1 / 128 : ℚ) * (1 / 128) = 1 / 16384 by norm_num, h1,
    show (1 / 16384 : ℚ) * (1 / 128) = 1 / 2097152 by norm_num, h2,
    show (1 / 2097152 : ℚ) * (1 / 128) = 1 / 268435456 by norm_num, h3]

/-- In binary32 `2^-28 - 1` rounds to `-1`. -/
theorem roundBinary32_small_sub_one : roundBinary32 (1 / 268435456 - 1) = -1 := by
  have h := roundBinary32_eval (1 / 268435456 - 1) (-1) (-16777216) (by norm_num)
    (by norm_num [abs_of_neg, zpow_neg]) (by norm_num [abs_of_neg])
    (roundHalfEven_of_lt_half _ _ (by norm_num [zpow_neg]) (by norm_num [zpow_neg]))
  rw [h]
  norm_num [zpow_neg]

/-- In binary32 the `roughnessPow4` of the roughness `1/2` is `1/16`. -/
theorem ggxRoughnessPow4_half : ggxRoughnessPow4 roundBinary32 (1 / 2) = 1 / 16 := by
  have h1 : roundBinary32 (1 / 4) = 1 / 4 :=
    roundBinary32_exact _ (-2) 8388608 (by norm_num) (by norm_num [abs_of_pos, zpow_neg])
      (by norm_num [abs_of_pos, zpow_neg]) (by norm_num [zpow_neg])
  have h2 : roundBinary32 (1 / 8) = 1 / 8 :=
    roundBinary32_exact _ (-3) 8388608 (by norm_num) (by norm_num [abs_of_pos, zpow_neg])
      (by norm_num [abs_of_pos, zpow_neg]) (by norm_num [zpow_neg])
  have h3 : roundBinary32 (1 / 16) = 1 / 16 :=
    roundBinary32_exact _ (-4) 8388608 (by norm_num) (by norm_num [abs_of_pos, zpow_neg])
      (by norm_num [abs_of_pos, zpow_neg]) (by norm_num [zpow_neg])
  unfold ggxRoughnessPow4
  rw [show (1 / 2 : ℚ) * (1 / 2) = 1 / 4 by norm_num, h1,
    show (1 / 4 : ℚ) * (1 / 2) = 1 / 8 by norm_num, h2,
    show (1 / 8 : ℚ) * (1 / 2) = 1 / 16 by norm_num, h3]

/-! ## Properties of the specification -/

/-- C1: for every scene and every ray with `ray.max <= FLT_MAX`, `Scene::TryGetClosestHit`
    returns `true` iff some sphere, plane or triangle mesh of the scene passes its full hit
    test (on a fresh record) for the ray; when it returns `true` the output record is the
    record produced by one of the primitives that were hit and its distance is at most the
    distance of every primitive that was hit; when it returns `false` the output record is
    the record passed in. -/
theorem C1_TryGetClosestHit_closest (sqrtf : F → F) (areEqual : F → F → Bool) (scene : Scene F)
    (ray : Ray F) (closestHit : HitRecord F) (hmax : ray.max ≤ FLT_MAX) :
    ((Scene.TryGetClosestHit sqrtf areEqual scene ray closestHit).1 = true ↔
      ∃ r ∈ Scene.fullHitTests sqrtf areEqual scene ray, r.1 = true) ∧
    ((Scene.TryGetClosestHit sqrtf areEqual scene ray closestHit).1 = true →
      ∃ r ∈ Scene.fullHitTests sqrtf areEqual scene ray, r.1 = true ∧
        (Scene.TryGetClosestHit sqrtf areEqual scene ray closestHit).2 = r.2 ∧
        ∀ r' ∈ Scene.fullHitTests sqrtf areEqual scene ray, r'.1 = true →
          (Scene.TryGetClosestHit sqrtf areEqual scene ray closestHit).2.cameraToPointDistance ≤
            r'.2.cameraToPointDistance) ∧
    ((Scene.TryGetClosestHit sqrtf areEqual scene ray closestHit).1 = false →
      (Scene.TryGetClosestHit sqrtf areEqual scene ray closestHit).2 = closestHit) :=
  TryGetClosestHit_spec sqrtf areEqual scene ray closestHit hmax

/-- C1 at the demo scene and the scenario ray (default `max = FLT_MAX`). -/
theorem C1_TryGetClosestHit_closest_witness :
    sphereRay.max ≤ FLT_MAX ∧
    (((Scene.TryGetClosestHit Rat.sqrt AreEqual demoScene sphereRay HitRecord.fresh).1 = true ↔
      ∃ r ∈ Scene.fullHitTests Rat.sqrt AreEqual demoScene sphereRay, r.1 = true) ∧
    ((Scene.TryGetClosestHit Rat.sqrt AreEqual demoScene sphereRay HitRecord.fresh).1 = true →
      ∃ r ∈ Scene.fullHitTests Rat.sqrt AreEqual demoScene sphereRay, r.1 = true ∧
        (Scene.TryGetClosestHit Rat.sqrt AreEqual demoScene sphereRay HitRecord.fresh).2 = r.2 ∧
        ∀ r' ∈ Scene.fullHitTests Rat.sqrt AreEqual demoScene sphereRay, r'.1 = true →
          (Scene.TryGetClosestHit Rat.sqrt AreEqual demoScene sphereRay
              HitRecord.fresh).2.cameraToPointDistance ≤ r'.2.cameraToPointDistance) ∧
    ((Scene.TryGetClosestHit Rat.sqrt AreEqual demoScene sphereRay HitRecord.fresh).1 = false →
      (Scene.TryGetClosestHit Rat.sqrt AreEqual demoScene sphereRay HitRecord.fresh).2 =
        HitRecord.fresh)) :=
  ⟨le_refl _,
    C1_TryGetClosestHit_closest Rat.sqrt AreEqual demoScene sphereRay HitRecord.fresh (le_refl _)⟩

/-- C2: for every scene and every ray with `ray.max <= FLT_MAX`, the any-hit query
    `Scene::DoesHit` returns the same boolean as the closest-hit query
    `Scene::TryGetClosestHit` (whatever record the latter is given, a fresh one included). -/
theorem C2_DoesHit_agrees_with_TryGetClosestHit (sqrtf : F → F) (areEqual : F → F → Bool)
    (scene : Scene F) (ray : Ray F) (closestHit : HitRecord F) (hmax : ray.max ≤ FLT_MAX) :
    Scene.DoesHit sqrtf areEqual scene ray =
      (Scene.TryGetClosestHit sqrtf areEqual scene ray closestHit).1 := by
  rw [Bool.eq_iff_iff, DoesHit_iff sqrtf areEqual scene ray hmax,
    (TryGetClosestHit_spec sqrtf areEqual scene ray closestHit hmax).1]

/-- C2 at the demo scene and the scenario ray, with a fresh record. -/
theorem C2_DoesHit_agrees_with_TryGetClosestHit_witness :
    sphereRay.max ≤ FLT_MAX ∧
    Scene.DoesHit Rat.sqrt AreEqual demoScene sphereRay =
      (Scene.TryGetClosestHit Rat.sqrt AreEqual demoScene sphereRay HitRecord.fresh).1 :=
  ⟨le_refl _,
    C2_DoesHit_agrees_with_TryGetClosestHit Rat.sqrt AreEqual demoScene sphereRay HitRecord.fresh
      (le_refl _)⟩

/-- C4 fails as stated: the scenario ray is tangent to the unit sphere centred at `(0,1,0)`
    (`p = 5 >= 0`, `q = 1 = r^2`, `t = 5 - sqrt 0 = 5` inside the ray bounds), the radius is
    positive and the direction has unit length, yet `HitTest_Sphere` returns `false`. -/
theorem C4_counterexample :
    0 < tangentSphere.GetRadius ∧
    Vector3.Dot sphereRay.direction sphereRay.direction = 1 ∧
    (0 ≤ sphereProjection tangentSphere sphereRay ∧
      spherePerpDistSq tangentSphere sphereRay ≤ tangentSphere.GetRadius * tangentSphere.GetRadius ∧
      sphereRay.min < sphereNearDistance Rat.sqrt tangentSphere sphereRay ∧
      sphereNearDistance Rat.sqrt tangentSphere sphereRay < sphereRay.max) ∧
    (HitTest_Sphere Rat.sqrt tangentSphere sphereRay HitRecord.fresh false).1 = false := by
  have hq : spherePerpDistSq tangentSphere sphereRay = 1 := by
    norm_num [tangentSphere, sphereRay, Ray.mk2, spherePerpDistSq, sphereProjection, Ray.pointAt,
      Sphere.GetCenter, Vector3.SqrMagnitude, Vector3.sub, Vector3.add, Vector3.scale, Vector3.Dot]
  have hr : tangentSphere.GetRadius = 1 := rfl
  have hp : sphereProjection tangentSphere sphereRay = 5 := by
    norm_num [tangentSphere, sphereRay, Ray.mk2, sphereProjection, Sphere.GetCenter,
      Vector3.sub, Vector3.Dot]
  have ht : sphereNearDistance Rat.sqrt tangentSphere sphereRay = 5 := by
    unfold sphereNearDistance
    rw [hq, hr, hp]
    norm_num [Rat_sqrt_zero]
  refine ⟨by rw [hr]; norm_num, by norm_num [sphereRay, Ray.mk2, Vector3.Dot], ⟨?_, ?_, ?_, ?_⟩, ?_⟩
  · rw [hp]; norm_num
  · rw [hq, hr]; norm_num
  · rw [ht]; norm_num [sphereRay, Ray.mk2]
  · rw [ht]; norm_num [sphereRay, Ray.mk2, FLT_MAX]
  · rw [Bool.eq_false_iff, Ne, HitTest_Sphere_fst, hq, hr]
    norm_num

/-- C4 (amended): `HitTest_Sphere` returns `true` exactly when the projection
    `p = dot(center - ray.origin, ray.direction)` is not negative, the squared distance `q`
    from the centre to the point `ray.origin + p*ray.direction` is strictly below `r^2`, and
    `t = p - sqrt(r^2 - q)` satisfies `ray.min < t < ray.max`. -/
theorem C4_HitTest_Sphere_iff (sqrtf : F → F) (sphere : Sphere F) (ray : Ray F)
    (hitRecord : HitRecord F) (ignoreHitRecord : Bool) :
    (HitTest_Sphere sqrtf sphere ray hitRecord ignoreHitRecord).1 = true ↔
      (0 ≤ sphereProjection sphere ray ∧
        spherePerpDistSq sphere ray < sphere.GetRadius * sphere.GetRadius ∧
        ray.min < sphereNearDistance sqrtf sphere ray ∧
        sphereNearDistance sqrtf sphere ray < ray.max) :=
  HitTest_Sphere_fst sqrtf sphere ray hitRecord ignoreHitRecord

/-- C5 fails as stated: at the scenario plane and ray the test reports a hit at `t = 5`,
    while the formula with the numerator taken from the ray origin towards the plane origin
    gives `-5`. -/
theorem C5_counterexample :
    (HitTest_Plane groundPlane planeRay HitRecord.fresh false).1 = true ∧
    (HitTest_Plane groundPlane planeRay HitRecord.fresh false).2.cameraToPointDistance = 5 ∧
    planeDistance_spec groundPlane.origin groundPlane.normal planeRay = -5 := by
  rw [groundPlane_hit]
  refine ⟨rfl, rfl, ?_⟩
  norm_num [planeDistance_spec, groundPlane, planeRay, Ray.mk2, Vector3.Dot, Vector3.sub,
    Vector3.neg]

/-- C5 (amended): whenever `HitTest_Plane` reports a hit, the recorded distance equals
    `dot(ray.origin - plane.origin, plane.normal) / dot(ray.direction, -plane.normal)`: the
    numerator is taken from the plane origin towards the ray origin. -/
theorem C5_HitTest_Plane_distance (plane : Plane F) (ray : Ray F) (hitRecord : HitRecord F)
    (hhit : (HitTest_Plane plane ray hitRecord false).1 = true) :
    (HitTest_Plane plane ray hitRecord false).2.cameraToPointDistance =
      Vector3.Dot (Vector3.sub ray.origin plane.origin) plane.normal /
        Vector3.Dot ray.direction (Vector3.neg plane.normal) := by
  rw [HitTest_Plane_snd plane ray hitRecord hhit]
  rfl

/-- C5 (amended) at the scenario plane and ray: `t = 5`. -/
theorem C5_HitTest_Plane_distance_witness :
    (HitTest_Plane groundPlane planeRay HitRecord.fresh false).1 = true ∧
    (5 : ℚ) = Vector3.Dot (Vector3.sub planeRay.origin groundPlane.origin) groundPlane.normal /
        Vector3.Dot planeRay.direction (Vector3.neg groundPlane.normal) := by
  have h := C5_HitTest_Plane_distance groundPlane planeRay HitRecord.fresh
    (by rw [groundPlane_hit])
  rw [groundPlane_hit] at h
  exact ⟨by rw [groundPlane_hit], h⟩

/-- C7: `HitTest_Plane` returns `false` whenever `dot(ray.direction, -plane.normal) <= 0`, in
    particular for every ray parallel to the plane (`dot(ray.direction, plane.normal) = 0`);
    and whenever the full test returns `true` the recorded normal is `plane.normal` and the
    recorded material index is `plane.materialIndex`. -/
theorem C7_HitTest_Plane_parallel_and_normal (plane : Plane F) (ray : Ray F)
    (hitRecord : HitRecord F) (ignoreHitRecord : Bool) :
    (Vector3.Dot ray.direction (Vector3.neg plane.normal) ≤ 0 →
      (HitTest_Plane plane ray hitRecord ignoreHitRecord).1 = false) ∧
    (Vector3.Dot ray.direction plane.normal = 0 →
      (HitTest_Plane plane ray hitRecord ignoreHitRecord).1 = false) ∧
    ((HitTest_Plane plane ray hitRecord false).1 = true →
      (HitTest_Plane plane ray hitRecord false).2.normal = plane.normal ∧
      (HitTest_Plane plane ray hitRecord false).2.materialIndex = plane.materialIndex) := by
  have hneg := Dot_neg ray.direction plane.normal
  refine ⟨?_, ?_, ?_⟩
  · intro hle
    rw [Bool.eq_false_iff, Ne, HitTest_Plane_fst]
    exact fun h => absurd h.1 (not_lt.mpr hle)
  · intro hzero
    rw [Bool.eq_false_iff, Ne, HitTest_Plane_fst, hneg, hzero]
    exact fun h => absurd h.1 (by simp)
  · intro hhit
    rw [HitTest_Plane_snd plane ray hitRecord hhit]
    exact ⟨rfl, rfl⟩

/-- C7 at the scenario plane: the ray along `(1,0,0)` is parallel to it and misses; the
    scenario ray hits and records the plane's normal and material index. -/
theorem C7_HitTest_Plane_parallel_and_normal_witness :
    (Vector3.Dot parallelRay.direction groundPlane.normal = 0 ∧
      (HitTest_Plane groundPlane parallelRay HitRecord.fresh false).1 = false) ∧
    ((HitTest_Plane groundPlane planeRay HitRecord.fresh false).1 = true ∧
      (HitTest_Plane groundPlane planeRay HitRecord.fresh false).2.normal = groundPlane.normal ∧
      (HitTest_Plane groundPlane planeRay HitRecord.fresh false).2.materialIndex =
        groundPlane.materialIndex) := by
  have hpar : Vector3.Dot parallelRay.direction groundPlane.normal = 0 := by
    norm_num [parallelRay, groundPlane, Ray.mk2, Vector3.Dot]
  have hhit : (HitTest_Plane groundPlane planeRay HitRecord.fresh false).1 = true := by
    rw [groundPlane_hit]
  exact ⟨⟨hpar,
      (C7_HitTest_Plane_parallel_and_normal groundPlane parallelRay HitRecord.fresh false).2.1 hpar⟩,
    hhit,
    (C7_HitTest_Plane_parallel_and_normal groundPlane planeRay HitRecord.fresh false).2.2 hhit⟩

/-- C8: for every triangle and every ray with `dot(ray.direction, triangle.normal) > 0`, the
    triangle test returns `false` under `BackFaceCulling` (whatever the `AreEqual` helper does);
    under `NoCulling`, for the otherwise identical triangle and the exact comparison
    `AreEqual`, the same ray returns `true` whenever its plane-intersection distance lies
    strictly inside `(ray.min, ray.max)` and the intersection point passes the three edge
    tests; under `FrontFaceCulling` the test returns `false` for every ray with
    `dot(ray.direction, triangle.normal) < 0`. -/
theorem C8_HitTest_Triangle_culling (areEqual : F → F → Bool) (triangle : Triangle F) (ray : Ray F)
    (hitRecord : HitRecord F) (ignoreHitRecord : Bool) :
    (triangle.cullMode = TriangleCullMode.BackFaceCulling →
      0 < Vector3.Dot ray.direction triangle.normal →
      (HitTest_Triangle areEqual triangle ray hitRecord ignoreHitRecord).1 = false) ∧
    (0 < Vector3.Dot ray.direction triangle.normal →
      ray.min < trianglePlaneDistance triangle ray →
      trianglePlaneDistance triangle ray < ray.max →
      passesEdgeTests triangle (ray.pointAt (trianglePlaneDistance triangle ray)) →
      (HitTest_Triangle AreEqual { triangle with cullMode := TriangleCullMode.NoCulling } ray
        hitRecord ignoreHitRecord).1 = true) ∧
    (triangle.cullMode = TriangleCullMode.FrontFaceCulling →
      Vector3.Dot ray.direction triangle.normal < 0 →
      (HitTest_Triangle areEqual triangle ray hitRecord ignoreHitRecord).1 = false) := by
  refine ⟨?_, ?_, ?_⟩
  · intro hcull hdot
    rw [Bool.eq_false_iff, Ne, HitTest_Triangle_fst]
    exact fun h => h.2.1 ⟨hcull, hdot⟩
  · intro hdot hmin hmax hedges
    rw [HitTest_Triangle_fst]
    refine ⟨?_, ?_, ?_, hmin, hmax, hedges⟩
    · simpa [AreEqual] using ne_of_gt hdot
    · rintro ⟨h, _⟩; exact TriangleCullMode.noConfusion h
    · rintro ⟨h, _⟩; exact TriangleCullMode.noConfusion h
  · intro hcull hdot
    rw [Bool.eq_false_iff, Ne, HitTest_Triangle_fst]
    exact fun h => h.2.2.1 ⟨hcull, hdot⟩

/-- C8 at the flat triangle: the back ray through the interior point `(1/4, 1/4, 0)` misses
    under `BackFaceCulling` and hits under `NoCulling`; the front ray misses under
    `FrontFaceCulling`. -/
theorem C8_HitTest_Triangle_culling_witness :
    (0 < Vector3.Dot (backRay (1 / 4) (1 / 4)).direction
        (flatTriangle TriangleCullMode.BackFaceCulling).normal ∧
      (HitTest_Triangle AreEqual (flatTriangle TriangleCullMode.BackFaceCulling)
        (backRay (1 / 4) (1 / 4)) HitRecord.fresh false).1 = false ∧
      (HitTest_Triangle AreEqual (flatTriangle TriangleCullMode.NoCulling)
        (backRay (1 / 4) (1 / 4)) HitRecord.fresh false).1 = true) ∧
    (Vector3.Dot (frontRay (1 / 4) (1 / 4)).direction
        (flatTriangle TriangleCullMode.FrontFaceCulling).normal < 0 ∧
      (HitTest_Triangle AreEqual (flatTriangle TriangleCullMode.FrontFaceCulling)
        (frontRay (1 / 4) (1 / 4)) HitRecord.fresh false).1 = false) := by
  have hback : 0 < Vector3.Dot (backRay (1 / 4) (1 / 4)).direction
      (flatTriangle TriangleCullMode.BackFaceCulling).normal := by
    rw [flatTriangle_backRay_dot]; norm_num
  have hfront : Vector3.Dot (frontRay (1 / 4) (1 / 4)).direction
      (flatTriangle TriangleCullMode.FrontFaceCulling).normal < 0 := by
    rw [flatTriangle_frontRay_dot]; norm_num
  refine ⟨⟨hback, ?_, ?_⟩, hfront, ?_⟩
  · exact (C8_HitTest_Triangle_culling AreEqual (flatTriangle TriangleCullMode.BackFaceCulling)
      (backRay (1 / 4) (1 / 4)) HitRecord.fresh false).1 rfl hback
  · exact (C8_HitTest_Triangle_culling AreEqual (flatTriangle TriangleCullMode.BackFaceCulling)
      (backRay (1 / 4) (1 / 4)) HitRecord.fresh false).2.1 hback
      (by rw [flatTriangle_backRay_distance]; norm_num [backRay, Ray.mk2])
      (by rw [flatTriangle_backRay_distance]; norm_num [backRay, Ray.mk2, FLT_MAX])
      (by
        rw [flatTriangle_backRay_point]
        simp only [passesEdgeTests, IsPointInTriangleEdge_iff]
        norm_num [flatTriangle, Vector3.Dot, Vector3.Cross, Vector3.sub])
  · exact (C8_HitTest_Triangle_culling AreEqual (flatTriangle TriangleCullMode.FrontFaceCulling)
      (frontRay (1 / 4) (1 / 4)) HitRecord.fresh false).2.2 rfl hfront

/-- C10 fails as stated: for a ray whose `max` lies above `FLT_MAX`, a triangle hit at
    distance `FLT_MAX` passes `HitTest_Triangle`, yet the full mesh test on a fresh record
    returns `false`, because the distance is not below the initial `nearestTriangle`. -/
theorem C10_counterexample :
    ¬ ((HitTest_TriangleMesh AreEqual (meshOf [farTriangle]) unboundedRay HitRecord.fresh false).1
        = true ↔
      ∃ tri ∈ (meshOf [farTriangle]).triangles,
        (HitTest_Triangle AreEqual tri unboundedRay HitRecord.fresh false).1 = true) := by
  intro h
  have hmiss := farMesh_miss
  rw [h.mpr ⟨farTriangle, by simp [meshOf], farTriangle_hit⟩] at hmiss
  exact Bool.noConfusion hmiss

/-- C10 (amended): for every triangle mesh and every ray with `ray.max <= FLT_MAX`, the full
    `HitTest_TriangleMesh` called with a fresh record returns `true` iff at least one triangle
    of `mesh.triangles` passes `HitTest_Triangle` for the ray, and then the output record is
    the record of a member triangle that was hit, with distance at most the distance of every
    member triangle that was hit. -/
theorem C10_HitTest_TriangleMesh_minimum (areEqual : F → F → Bool) (mesh : TriangleMesh F)
    (ray : Ray F) (hmax : ray.max ≤ FLT_MAX) :
    ((HitTest_TriangleMesh areEqual mesh ray HitRecord.fresh false).1 = true ↔
      ∃ tri ∈ mesh.triangles, (HitTest_Triangle areEqual tri ray HitRecord.fresh false).1 = true) ∧
    ((HitTest_TriangleMesh areEqual mesh ray HitRecord.fresh false).1 = true →
      ∃ tri ∈ mesh.triangles, (HitTest_Triangle areEqual tri ray HitRecord.fresh false).1 = true ∧
        (HitTest_TriangleMesh areEqual mesh ray HitRecord.fresh false).2 =
          (HitTest_Triangle areEqual tri ray HitRecord.fresh false).2 ∧
        ∀ tri' ∈ mesh.triangles,
          (HitTest_Triangle areEqual tri' ray HitRecord.fresh false).1 = true →
          (HitTest_TriangleMesh areEqual mesh ray HitRecord.fresh false).2.cameraToPointDistance ≤
            (HitTest_Triangle areEqual tri' ray HitRecord.fresh false).2.cameraToPointDistance) :=
  HitTest_TriangleMesh_full areEqual mesh ray hmax

/-- C10 (amended) at a one-triangle mesh and a ray with the default `max = FLT_MAX`. -/
theorem C10_HitTest_TriangleMesh_minimum_witness :
    (backRay (1 / 4) (1 / 4)).max ≤ FLT_MAX ∧
    (HitTest_TriangleMesh AreEqual (meshOf [flatTriangle TriangleCullMode.NoCulling])
        (backRay (1 / 4) (1 / 4)) HitRecord.fresh false).1 = true :=
  ⟨le_refl _,
    (C10_HitTest_TriangleMesh_minimum AreEqual (meshOf [flatTriangle TriangleCullMode.NoCulling])
      (backRay (1 / 4) (1 / 4)) (le_refl _)).1.mpr
      ⟨flatTriangle TriangleCullMode.NoCulling, by simp [meshOf], by
        rw [HitTest_Triangle_fst]
        simp [flatTriangle, backRay, Ray.mk2, AreEqual, passesEdgeTests, IsPointInTriangleEdge,
          trianglePlaneDistance, Ray.pointAt, Vector3.Dot, Vector3.Cross, Vector3.sub,
          Vector3.add, Vector3.scale, FLT_MAX]
        norm_num⟩⟩

/-- C11 fails as stated: for the ray whose `max` lies above `FLT_MAX`, the shadow overload
    of the mesh test returns `true` on the mesh of the far triangle (hit at `t = FLT_MAX`),
    while the full test on a fresh record returns `false`. -/
theorem C11_counterexample :
    HitTest_TriangleMesh_Shadow AreEqual (meshOf [farTriangle]) unboundedRay = true ∧
    (HitTest_TriangleMesh AreEqual (meshOf [farTriangle]) unboundedRay HitRecord.fresh false).1
      = false :=
  ⟨(HitTest_TriangleMesh_Shadow_iff AreEqual (meshOf [farTriangle]) unboundedRay).mpr
      ⟨farTriangle, by simp [meshOf], farTriangle_hit⟩,
    farMesh_miss⟩

/-- C11 (amended): for sphere, plane and triangle and every ray, the boolean-only shadow
    overload returns the same boolean as the full hit test called on a fresh record; for the
    triangle mesh the same holds for every ray with `ray.max <= FLT_MAX`, so for these rays
    the early return on the first qualifying triangle does not change the answer. -/
theorem C11_shadow_overloads_agree (sqrtf : F → F) (areEqual : F → F → Bool) (sphere : Sphere F)
    (plane : Plane F) (triangle : Triangle F) (mesh : TriangleMesh F) (ray : Ray F) :
    HitTest_Sphere_Shadow sqrtf sphere ray =
      (HitTest_Sphere sqrtf sphere ray HitRecord.fresh false).1 ∧
    HitTest_Plane_Shadow plane ray = (HitTest_Plane plane ray HitRecord.fresh false).1 ∧
    HitTest_Triangle_Shadow areEqual triangle ray =
      (HitTest_Triangle areEqual triangle ray HitRecord.fresh false).1 ∧
    (ray.max ≤ FLT_MAX →
      HitTest_TriangleMesh_Shadow areEqual mesh ray =
        (HitTest_TriangleMesh areEqual mesh ray HitRecord.fresh false).1) := by
  refine ⟨HitTest_Sphere_Shadow_eq sqrtf sphere ray _, HitTest_Plane_Shadow_eq plane ray _,
    HitTest_Triangle_fst_indep areEqual triangle ray _ _ true false, ?_⟩
  intro hmax
  rw [Bool.eq_iff_iff, HitTest_TriangleMesh_Shadow_iff,
    (HitTest_TriangleMesh_full areEqual mesh ray hmax).1]

/-- C11 (amended) at the scenario sphere and plane, the flat triangle and its mesh, and a
    ray with the default `max = FLT_MAX`. -/
theorem C11_shadow_overloads_agree_witness :
    (backRay (1 / 4) (1 / 4)).max ≤ FLT_MAX ∧
    HitTest_TriangleMesh_Shadow AreEqual (meshOf [flatTriangle TriangleCullMode.NoCulling])
        (backRay (1 / 4) (1 / 4)) =
      (HitTest_TriangleMesh AreEqual (meshOf [flatTriangle TriangleCullMode.NoCulling])
        (backRay (1 / 4) (1 / 4)) HitRecord.fresh false).1 :=
  ⟨le_refl _,
    (C11_shadow_overloads_agree Rat.sqrt AreEqual unitSphere groundPlane
      (flatTriangle TriangleCullMode.NoCulling) (meshOf [flatTriangle TriangleCullMode.NoCulling])
      (backRay (1 / 4) (1 / 4))).2.2.2 (le_refl _)⟩

/-- C12 fails as stated: the scenario ray meets the scenario plane and the sloped plane in
    the same point at `t = 5`; with the planes in one order the output normal is `(1,1,0)`,
    in the other order `(0,1,0)`. -/
theorem C12_counterexample :
    (planeScene [groundPlane, slopedPlane]).m_SphereGeometries.Perm
      (planeScene [slopedPlane, groundPlane]).m_SphereGeometries ∧
    (planeScene [groundPlane, slopedPlane]).m_PlaneGeometries.Perm
      (planeScene [slopedPlane, groundPlane]).m_PlaneGeometries ∧
    (planeScene [groundPlane, slopedPlane]).m_TriangleMeshGeometries.Perm
      (planeScene [slopedPlane, groundPlane]).m_TriangleMeshGeometries ∧
    (Scene.TryGetClosestHit Rat.sqrt AreEqual (planeScene [groundPlane, slopedPlane]) planeRay
      HitRecord.fresh).2.normal = ⟨1, 1, 0⟩ ∧
    (Scene.TryGetClosestHit Rat.sqrt AreEqual (planeScene [slopedPlane, groundPlane]) planeRay
      HitRecord.fresh).2.normal = ⟨0, 1, 0⟩ := by
  refine ⟨List.Perm.refl _, List.Perm.swap _ _ _, List.Perm.refl _, ?_, ?_⟩
  · rw [planeScene_closest groundPlane slopedPlane _ _ groundPlane_hit slopedPlane_hit rfl rfl]
  · rw [planeScene_closest slopedPlane groundPlane _ _ slopedPlane_hit groundPlane_hit rfl rfl]

/-- C12 (amended): for every ray and every two scenes whose sphere lists, plane lists and
    mesh lists are permutations of each other, `Scene::TryGetClosestHit` returns the same
    boolean and an output record with the same distance `t`; the whole output record (point,
    normal, material index) is the same as well when any two primitives of the scene that are
    hit at the same distance produce the same record. On a tie the primitive later in
    iteration order is kept: the output record is that of the last primitive, in the order
    spheres, planes, meshes, among those hit at the smallest distance (a hit that no earlier
    hit beats and that every later hit is strictly farther than, at a distance of at most
    `FLT_MAX`). -/
theorem C12_TryGetClosestHit_permutation (sqrtf : F → F) (areEqual : F → F → Bool)
    (scene scene' : Scene F) (ray : Ray F) (closestHit : HitRecord F)
    (hs : scene.m_SphereGeometries.Perm scene'.m_SphereGeometries)
    (hp : scene.m_PlaneGeometries.Perm scene'.m_PlaneGeometries)
    (hm : scene.m_TriangleMeshGeometries.Perm scene'.m_TriangleMeshGeometries) :
    (Scene.TryGetClosestHit sqrtf areEqual scene ray closestHit).1 =
      (Scene.TryGetClosestHit sqrtf areEqual scene' ray closestHit).1 ∧
    (Scene.TryGetClosestHit sqrtf areEqual scene ray closestHit).2.cameraToPointDistance =
      (Scene.TryGetClosestHit sqrtf areEqual scene' ray closestHit).2.cameraToPointDistance ∧
    ((∀ r ∈ Scene.fullHitTests sqrtf areEqual scene ray,
        ∀ r' ∈ Scene.fullHitTests sqrtf areEqual scene ray, r.1 = true → r'.1 = true →
        r.2.cameraToPointDistance = r'.2.cameraToPointDistance → r.2 = r'.2) →
      (Scene.TryGetClosestHit sqrtf areEqual scene ray closestHit).2 =
        (Scene.TryGetClosestHit sqrtf areEqual scene' ray closestHit).2) ∧
    (∀ (before after : List (Bool × HitRecord F)) (r : Bool × HitRecord F),
      Scene.fullHitTests sqrtf areEqual scene ray = before ++ r :: after →
      r.1 = true → r.2.cameraToPointDistance ≤ FLT_MAX →
      (∀ x ∈ before, x.1 = true → r.2.cameraToPointDistance ≤ x.2.cameraToPointDistance) →
      (∀ x ∈ after, x.1 = true → r.2.cameraToPointDistance < x.2.cameraToPointDistance) →
      (Scene.TryGetClosestHit sqrtf areEqual scene ray closestHit).2 = r.2) :=
  ⟨(TryGetClosestHit_perm sqrtf areEqual scene scene' ray closestHit hs hp hm).1,
    (TryGetClosestHit_perm sqrtf areEqual scene scene' ray closestHit hs hp hm).2.1,
    (TryGetClosestHit_perm sqrtf areEqual scene scene' ray closestHit hs hp hm).2.2,
    fun before after r hsplit hhit hmax hbefore hafter =>
      (TryGetClosestHit_last_nearest sqrtf areEqual scene ray closestHit before after r hsplit
        hhit hmax hbefore hafter).1⟩

/-- C12 (amended) at the two orders of the scenario plane and the sloped plane, both hit at
    `t = 5`: the same boolean and the same distance, and in the order scenario plane, sloped
    plane the record kept is that of the sloped plane, the later of the two. -/
theorem C12_TryGetClosestHit_permutation_witness :
    (planeScene [groundPlane, slopedPlane]).m_PlaneGeometries.Perm
      (planeScene [slopedPlane, groundPlane]).m_PlaneGeometries ∧
    (Scene.TryGetClosestHit Rat.sqrt AreEqual (planeScene [groundPlane, slopedPlane]) planeRay
        HitRecord.fresh).1 =
      (Scene.TryGetClosestHit Rat.sqrt AreEqual (planeScene [slopedPlane, groundPlane]) planeRay
        HitRecord.fresh).1 ∧
    (Scene.TryGetClosestHit Rat.sqrt AreEqual (planeScene [groundPlane, slopedPlane]) planeRay
        HitRecord.fresh).2.cameraToPointDistance =
      (Scene.TryGetClosestHit Rat.sqrt AreEqual (planeScene [slopedPlane, groundPlane]) planeRay
        HitRecord.fresh).2.cameraToPointDistance ∧
    Scene.fullHitTests Rat.sqrt AreEqual (planeScene [groundPlane, slopedPlane]) planeRay =
      [(true, ⟨⟨0, 0, 0⟩, ⟨0, 1, 0⟩, 5, true, 0⟩)] ++
        (true, ⟨⟨0, 0, 0⟩, ⟨1, 1, 0⟩, 5, true, 0⟩) :: [] ∧
    (Scene.TryGetClosestHit Rat.sqrt AreEqual (planeScene [groundPlane, slopedPlane]) planeRay
        HitRecord.fresh).2 = ⟨⟨0, 0, 0⟩, ⟨1, 1, 0⟩, 5, true, 0⟩ := by
  have hsplit : Scene.fullHitTests Rat.sqrt AreEqual (planeScene [groundPlane, slopedPlane])
      planeRay =
      [(true, ⟨⟨0, 0, 0⟩, ⟨0, 1, 0⟩, 5, true, 0⟩)] ++
        (true, ⟨⟨0, 0, 0⟩, ⟨1, 1, 0⟩, 5, true, 0⟩) :: [] := by
    simp [Scene.fullHitTests, planeScene, Scene.new, groundPlane_hit, slopedPlane_hit]
  have h := C12_TryGetClosestHit_permutation Rat.sqrt AreEqual
    (planeScene [groundPlane, slopedPlane]) (planeScene [slopedPlane, groundPlane]) planeRay
    HitRecord.fresh (List.Perm.refl _) (List.Perm.swap _ _ _) (List.Perm.refl _)
  refine ⟨List.Perm.swap _ _ _, h.1, h.2.1, hsplit, ?_⟩
  refine h.2.2.2 _ _ _ hsplit rfl ?_ ?_ ?_
  · norm_num [FLT_MAX]
  · intro x hx _
    simp only [List.mem_singleton] at hx
    rw [hx]
  · intro x hx
    simp at hx

/-- C13: in `Combined` lighting mode (with `m_Width` not zero), when the camera ray of the
    pixel has a closest hit whose material index lies in the material list, `RenderPixel`
    returns, as the colour before clamping, the sum over exactly the lights that are not
    skipped of `radiance(light, hitPoint) * Shade(hit, directionToLight, -rayDirection) *
    observedArea(light, hit)`; a light is skipped iff shadows are enabled and `Scene::DoesHit`
    is true for the shadow ray from the hit point towards the light with `min = 0.01` and
    `max` the distance to the light; with no closest hit the colour is `(0,0,0)`. -/
theorem C13_RenderPixel_combined (sqrtf : F → F) (areEqual : F → F → Bool) (renderer : Renderer)
    (scene : Scene F) (pixelIndex : Nat) (FOV aspectRatio : F) (cameraToWorld : Matrix F)
    (cameraOrigin : Vector3 F)
    (hwidth : toUInt32 renderer.m_Width ≠ 0)
    (hmode : renderer.m_CurrentLightingMode = LightingMode.Combined) :
    ((Renderer.closestHitOfPixel sqrtf areEqual renderer scene pixelIndex FOV aspectRatio
        cameraToWorld cameraOrigin).1 = true →
      ∀ material : Material F,
        scene.m_Materials[(Renderer.closestHitOfPixel sqrtf areEqual renderer scene pixelIndex FOV
          aspectRatio cameraToWorld cameraOrigin).2.materialIndex]? = some material →
        (Renderer.RenderPixel sqrtf areEqual renderer scene pixelIndex FOV aspectRatio
            cameraToWorld cameraOrigin).map Prod.snd =
          some (ColorRGB.sum
            ((scene.m_Lights.filter
                (fun light => !Renderer.skipsLight sqrtf areEqual renderer scene
                  (Renderer.closestHitOfPixel sqrtf areEqual renderer scene pixelIndex FOV
                    aspectRatio cameraToWorld cameraOrigin).2 light)).map
              (Renderer.combinedTerm sqrtf material
                (Renderer.closestHitOfPixel sqrtf areEqual renderer scene pixelIndex FOV
                  aspectRatio cameraToWorld cameraOrigin).2
                (Renderer.RenderPixel_hitRay sqrtf renderer pixelIndex FOV aspectRatio
                  cameraToWorld cameraOrigin).direction)))) ∧
    ((Renderer.closestHitOfPixel sqrtf areEqual renderer scene pixelIndex FOV aspectRatio
        cameraToWorld cameraOrigin).1 = false →
      (Renderer.RenderPixel sqrtf areEqual renderer scene pixelIndex FOV aspectRatio
          cameraToWorld cameraOrigin).map Prod.snd = some ColorRGB.black) ∧
    (∀ (hitRecord : HitRecord F) (light : Light F),
      Renderer.skipsLight sqrtf areEqual renderer scene hitRecord light = true ↔
        (renderer.m_ShadowsEnabled = true ∧
          scene.DoesHit sqrtf areEqual
            ⟨hitRecord.origin,
              Vector3.divide (Vector3.sub light.origin hitRecord.origin)
                (Vector3.Magnitude sqrtf (Vector3.sub light.origin hitRecord.origin)),
              1 / 100,
              Vector3.Magnitude sqrtf (Vector3.sub light.origin hitRecord.origin)⟩ = true)) := by
  refine ⟨?_, ?_, ?_⟩
  · intro hhit material hmat
    unfold Renderer.closestHitOfPixel at hhit hmat ⊢
    unfold Renderer.RenderPixel
    rw [if_neg hwidth]
    simp only [hhit, if_true]
    rw [RenderPixel_lights_combined sqrtf areEqual renderer scene _ _ material hmode hmat]
    simp only [Option.map_some', ColorRGB.add, ColorRGB.black, zero_add]
  · intro hmiss
    unfold Renderer.closestHitOfPixel at hmiss
    unfold Renderer.RenderPixel
    rw [if_neg hwidth]
    simp [hmiss]
  · intro hitRecord light
    simp [Renderer.skipsLight, Renderer.RenderPixel_pointToLight]

/-- C13 at the wall scene, one-pixel renderer (`Combined`, shadows enabled): the camera ray
    hits the wall at `(0,3,4)`; the far light is occluded by the screen and skipped, the near
    light contributes `(10,0,0)`, and that is the colour before clamping. -/
theorem C13_RenderPixel_combined_witness :
    toUInt32 onePixelRenderer.m_Width ≠ 0 ∧
    onePixelRenderer.m_CurrentLightingMode = LightingMode.Combined ∧
    Renderer.closestHitOfPixel Rat.sqrt AreEqual onePixelRenderer wallScene 0 (3 / 4) 1
      Matrix.identity (⟨0, 0, 0⟩ : Vector3 ℚ) = (true, wallHit) ∧
    Renderer.skipsLight Rat.sqrt AreEqual onePixelRenderer wallScene wallHit farLight = true ∧
    (Renderer.RenderPixel Rat.sqrt AreEqual onePixelRenderer wallScene 0 (3 / 4) 1
      Matrix.identity (⟨0, 0, 0⟩ : Vector3 ℚ)).map Prod.snd = some ⟨10, 0, 0⟩ := by
  have hwidth : toUInt32 onePixelRenderer.m_Width ≠ 0 := by
    simp [onePixelRenderer, Renderer.new, toUInt32]
  have h := (C13_RenderPixel_combined Rat.sqrt AreEqual onePixelRenderer wallScene 0 (3 / 4) 1
    Matrix.identity (⟨0, 0, 0⟩ : Vector3 ℚ) hwidth rfl).1
  rw [wallScene_closest] at h
  have h' := h rfl redMaterial rfl
  refine ⟨hwidth, rfl, wallScene_closest, wallScene_skipsLight.2, ?_⟩
  have hf : wallScene.m_Lights.filter
      (fun light => !Renderer.skipsLight Rat.sqrt AreEqual onePixelRenderer wallScene wallHit light)
      = [nearLight] := by
    show List.filter _ [nearLight, farLight] = _
    simp [List.filter_cons, wallScene_skipsLight.1, wallScene_skipsLight.2]
  simp only [] at h'
  rw [h', hf]
  simp only [List.map_cons, List.map_nil, ColorRGB.sum, List.foldr_cons, List.foldr_nil,
    nearLight_combinedTerm]
  norm_num [ColorRGB.add, ColorRGB.black]

/-- C14: for every light and target point, `LightUtils::GetRadiance` of a `Directional` light
    is `color * intensity`, whatever the target; of a `Point` light it is
    `color * (intensity / d^2)` with `d^2` the squared distance from the light to the target.
    Positivity of `d^2` is not needed for the equation. -/
theorem C14_GetRadiance (light : Light F) (target : Vector3 F) :
    (light.type = LightType.Directional →
      LightUtils.GetRadiance light target = ColorRGB.scale light.color light.intensity) ∧
    (light.type = LightType.Point →
      LightUtils.GetRadiance light target =
        ColorRGB.scale light.color
          (light.intensity / Vector3.SqrMagnitude (Vector3.sub light.origin target))) := by
  constructor
  · intro h
    unfold LightUtils.GetRadiance
    rw [h]
  · intro h
    unfold LightUtils.GetRadiance
    rw [h]

/-- C14 at the scenario: intensity 10, white; the directional light gives `(10,10,10)` at any
    point, the point light at distance 2 gives `(5/2, 5/2, 5/2)`. -/
theorem C14_GetRadiance_witness :
    (∀ target : Vector3 ℚ, LightUtils.GetRadiance sunLight target = ⟨10, 10, 10⟩) ∧
    Vector3.SqrMagnitude (Vector3.sub lampLight.origin (⟨0, 0, 0⟩ : Vector3 ℚ)) = 2 * 2 ∧
    LightUtils.GetRadiance lampLight ⟨0, 0, 0⟩ = ⟨5 / 2, 5 / 2, 5 / 2⟩ := by
  refine ⟨fun target => ?_, ?_, ?_⟩
  · rw [(C14_GetRadiance sunLight target).1 rfl]
    norm_num [sunLight, white, ColorRGB.scale]
  · norm_num [lampLight, Vector3.SqrMagnitude, Vector3.sub]
  · rw [(C14_GetRadiance lampLight ⟨0, 0, 0⟩).2 rfl]
    norm_num [lampLight, white, ColorRGB.scale, Vector3.SqrMagnitude, Vector3.sub]

/-- C15 fails as stated: for a point light straight above a hit point on a surface facing
    up, the renderer's direction-to-light is `(0,1,0)` and `max(-dot(lightDir, normal), 0)`
    is 0, while `GetObservedArea` returns 1. -/
theorem C15_counterexample :
    (Renderer.RenderPixel_pointToLight Rat.sqrt floorHit overheadLight).direction = ⟨0, 1, 0⟩ ∧
    max (- Vector3.Dot (Renderer.RenderPixel_pointToLight Rat.sqrt floorHit overheadLight).direction
      floorHit.normal) 0 = 0 ∧
    LightUtils.GetObservedArea Rat.sqrt overheadLight floorHit = 1 := by
  have hm : Rat.sqrt (Vector3.SqrMagnitude (Vector3.sub overheadLight.origin floorHit.origin)) = 1 := by
    have : Vector3.SqrMagnitude (Vector3.sub overheadLight.origin floorHit.origin) = 1 := by
      norm_num [overheadLight, floorHit, Vector3.SqrMagnitude, Vector3.sub]
    rw [this]; rfl
  have hd : (Renderer.RenderPixel_pointToLight Rat.sqrt floorHit overheadLight).direction =
      ⟨0, 1, 0⟩ := by
    simp only [Renderer.RenderPixel_pointToLight, Vector3.Magnitude, hm]
    norm_num [overheadLight, floorHit, Vector3.divide, Vector3.sub]
  refine ⟨hd, ?_, ?_⟩
  · rw [hd]; norm_num [floorHit, Vector3.Dot]
  · unfold LightUtils.GetObservedArea
    simp only []
    rw [GetDirectionToLight_eq_neg, hd]
    norm_num [floorHit, Vector3.Dot, Vector3.neg]

/-- C15 (amended): for every light and hit record, the observed-area term is
    `max(dot(lightDir, normal), 0)` with `lightDir` the renderer's direction-to-light (from
    the hit point towards the light); equivalently it is `max(-dot(d, normal), 0)` with
    `d = GetDirectionToLight(light, hit.origin)`, which points from the light towards the
    hit point. -/
theorem C15_GetObservedArea (sqrtf : F → F) (light : Light F) (hitRecord : HitRecord F) :
    LightUtils.GetObservedArea sqrtf light hitRecord =
      max (Vector3.Dot (Renderer.RenderPixel_pointToLight sqrtf hitRecord light).direction
        hitRecord.normal) 0 ∧
    LightUtils.GetObservedArea sqrtf light hitRecord =
      max (- Vector3.Dot (LightUtils.GetDirectionToLight sqrtf light hitRecord.origin)
        hitRecord.normal) 0 ∧
    LightUtils.GetDirectionToLight sqrtf light hitRecord.origin =
      Vector3.neg (Renderer.RenderPixel_pointToLight sqrtf hitRecord light).direction := by
  refine ⟨?_, rfl, GetDirectionToLight_eq_neg sqrtf light hitRecord⟩
  unfold LightUtils.GetObservedArea
  simp only []
  rw [GetDirectionToLight_eq_neg]
  congr 1
  simp only [Vector3.Dot, Vector3.neg]; ring

/-- C16: `CycleLightingMode` maps `ObservedArea` to `Radiance`, `Radiance` to `BRDF`, `BRDF`
    to `Combined` and `Combined` to `ObservedArea` and changes nothing else; four calls
    restore the renderer, one, two or three calls do not; `ToggleShadows` negates the
    shadows flag and changes nothing else, so two calls restore the renderer. -/
theorem C16_lighting_mode_cycle (renderer : Renderer) (shadows : Bool) (width height : Int) :
    Renderer.CycleLightingMode ⟨LightingMode.ObservedArea, shadows, width, height⟩ =
      ⟨LightingMode.Radiance, shadows, width, height⟩ ∧
    Renderer.CycleLightingMode ⟨LightingMode.Radiance, shadows, width, height⟩ =
      ⟨LightingMode.BRDF, shadows, width, height⟩ ∧
    Renderer.CycleLightingMode ⟨LightingMode.BRDF, shadows, width, height⟩ =
      ⟨LightingMode.Combined, shadows, width, height⟩ ∧
    Renderer.CycleLightingMode ⟨LightingMode.Combined, shadows, width, height⟩ =
      ⟨LightingMode.ObservedArea, shadows, width, height⟩ ∧
    renderer.CycleLightingMode.CycleLightingMode.CycleLightingMode.CycleLightingMode = renderer ∧
    renderer.CycleLightingMode ≠ renderer ∧
    renderer.CycleLightingMode.CycleLightingMode ≠ renderer ∧
    renderer.CycleLightingMode.CycleLightingMode.CycleLightingMode ≠ renderer ∧
    renderer.CycleLightingMode.m_ShadowsEnabled = renderer.m_ShadowsEnabled ∧
    renderer.ToggleShadows.m_ShadowsEnabled = (!renderer.m_ShadowsEnabled) ∧
    renderer.ToggleShadows.ToggleShadows = renderer ∧
    renderer.ToggleShadows.m_CurrentLightingMode = renderer.m_CurrentLightingMode := by
  obtain ⟨mode, s, w, h⟩ := renderer
  refine ⟨rfl, rfl, rfl, rfl, ?_, ?_, ?_, ?_, ?_, rfl, ?_, rfl⟩
  · cases mode <;> rfl
  · cases mode <;> simp [Renderer.CycleLightingMode]
  · cases mode <;> simp [Renderer.CycleLightingMode]
  · cases mode <;> simp [Renderer.CycleLightingMode]
  · cases mode <;> rfl
  · simp [Renderer.ToggleShadows]

/-- C17 fails as stated: `AppendTriangle` on a default-constructed mesh, with either value of
    `ignoreTransformUpdate`, returns a mesh with three indices and an empty triangle cache,
    so `triangles.size() = 0` while `indices.size() / 3 = 1`. -/
theorem C17_counterexample :
    (TriangleMesh.default : TriangleMesh ℚ).cacheInvariant ∧
    TriangleMesh.AppendTriangle (TriangleMesh.default : TriangleMesh ℚ)
      (flatTriangle TriangleCullMode.NoCulling) true = some appendedMesh ∧
    TriangleMesh.AppendTriangle (TriangleMesh.default : TriangleMesh ℚ)
      (flatTriangle TriangleCullMode.NoCulling) false = some appendedMesh ∧
    appendedMesh.triangles.length = 0 ∧ appendedMesh.indices.length / 3 = 1 ∧
    ¬ appendedMesh.cacheInvariant := by
  refine ⟨rfl, ?_, ?_, rfl, rfl, ?_⟩
  · simp [TriangleMesh.AppendTriangle, TriangleMesh.default, appendedMesh, flatTriangle]
  · simp [TriangleMesh.AppendTriangle, TriangleMesh.UpdateTransforms,
      TriangleMesh.UpdateTransforms_loop, TriangleMesh.default, appendedMesh, flatTriangle]
  · unfold TriangleMesh.cacheInvariant
    simp [appendedMesh, TriangleMesh.default]

/-- C17 (amended): the triangle cache has `indices.size() / 3` entries after default
    construction, after `CreateTriangles` and after both other constructors (whenever the
    elements they read are in range); the equality is preserved by `Translate`, `RotateY`,
    `Scale`, `CalculateNormals` and `UpdateTransforms`. `AppendTriangle` with
    `ignoreTransformUpdate = true` adds three indices and leaves the cache as it is, so the
    equality holds again only after the next `CreateTriangles`. -/
theorem C17_cacheInvariant (sqrtf sinf cosf : F → F) (TO_RADIANS : F) (mesh : TriangleMesh F)
    (triangle : Triangle F) (v : Vector3 F) (yaw : F) (_positions _normals : List (Vector3 F))
    (_indices : List Int) (_cullMode : TriangleCullMode) :
    (TriangleMesh.default : TriangleMesh F).cacheInvariant ∧
    (mesh.inRange →
      ∃ mesh', TriangleMesh.CreateTriangles sqrtf mesh = some mesh' ∧ mesh'.cacheInvariant) ∧
    (({ (TriangleMesh.default : TriangleMesh F) with
          positions := _positions, indices := _indices, cullMode := _cullMode }).inRange →
      ∃ mesh', TriangleMesh.new3 sqrtf _positions _indices _cullMode = some mesh' ∧
        mesh'.cacheInvariant) ∧
    (({ (TriangleMesh.default : TriangleMesh F) with
          positions := _positions, indices := _indices, normals := _normals,
          cullMode := _cullMode }).inRange →
      ∃ mesh', TriangleMesh.new4 sqrtf _positions _indices _normals _cullMode = some mesh' ∧
        mesh'.cacheInvariant) ∧
    (mesh.cacheInvariant →
      (mesh.Translate v).cacheInvariant ∧
      (TriangleMesh.RotateY sinf cosf TO_RADIANS mesh yaw).cacheInvariant ∧
      (mesh.Scale v).cacheInvariant) ∧
    (mesh.cacheInvariant → mesh.indicesInRange →
      ∃ mesh', TriangleMesh.CalculateNormals mesh = some mesh' ∧ mesh'.cacheInvariant) ∧
    (mesh.cacheInvariant → mesh.inRange →
      ∃ mesh', TriangleMesh.UpdateTransforms mesh = some mesh' ∧ mesh'.cacheInvariant) ∧
    (∃ mesh', TriangleMesh.AppendTriangle mesh triangle true = some mesh' ∧
      mesh'.triangles = mesh.triangles ∧ mesh'.indices.length = mesh.indices.length + 3) := by
  refine ⟨by simp [TriangleMesh.cacheInvariant, TriangleMesh.default], ?_, ?_, ?_, ?_, ?_, ?_, ?_⟩
  · intro h
    obtain ⟨triangles, hc, hlen⟩ := CreateTriangles_spec sqrtf mesh h
    exact ⟨_, hc, hlen⟩
  · intro h
    obtain ⟨created, mesh', hc, hu, hinv⟩ := construct_spec sqrtf _ h
    refine ⟨mesh', ?_, hinv⟩
    unfold TriangleMesh.new3
    simp only [hc, hu]
  · intro h
    obtain ⟨created, mesh', hc, hu, hinv⟩ := construct_spec sqrtf _ h
    refine ⟨mesh', ?_, hinv⟩
    unfold TriangleMesh.new4
    simp only [hc, hu]
  · intro h
    exact ⟨h, h, h⟩
  · intro hinv h
    obtain ⟨normals, hc⟩ := CalculateNormals_spec mesh h
    exact ⟨_, hc, hinv⟩
  · intro hinv h
    obtain ⟨mesh', hu⟩ := UpdateTransforms_isSome mesh h (le_of_eq hinv)
    obtain ⟨triangles', _, hlen', hmesh'⟩ := UpdateTransforms_spec _ _ hu
    refine ⟨mesh', hu, ?_⟩
    rw [hmesh']
    show triangles'.length = mesh.indices.length / 3
    rw [hlen']
    exact hinv
  · refine ⟨_, rfl, rfl, ?_⟩
    simp

/-- C17 (amended) at the appended mesh, where `CreateTriangles` establishes the equality,
    and at the default-constructed mesh, where the other operations preserve it. -/
theorem C17_cacheInvariant_witness :
    appendedMesh.inRange ∧
    (∃ mesh', TriangleMesh.CreateTriangles Rat.sqrt appendedMesh = some mesh' ∧
      mesh'.cacheInvariant) ∧
    (TriangleMesh.default : TriangleMesh ℚ).cacheInvariant ∧
    (TriangleMesh.default : TriangleMesh ℚ).inRange ∧
    ((TriangleMesh.default : TriangleMesh ℚ).Translate ⟨1, 2, 3⟩).cacheInvariant ∧
    (∃ mesh', TriangleMesh.UpdateTransforms (TriangleMesh.default : TriangleMesh ℚ) = some mesh' ∧
      mesh'.cacheInvariant) := by
  have h := C17_cacheInvariant Rat.sqrt sinApprox cosApprox toRadiansApprox appendedMesh
    (flatTriangle TriangleCullMode.NoCulling) ⟨1, 2, 3⟩ 0 [] [] [] TriangleCullMode.NoCulling
  have h' := C17_cacheInvariant Rat.sqrt sinApprox cosApprox toRadiansApprox
    (TriangleMesh.default : TriangleMesh ℚ)
    (flatTriangle TriangleCullMode.NoCulling) ⟨1, 2, 3⟩ 0 [] [] [] TriangleCullMode.NoCulling
  exact ⟨appendedMesh_inRange, h.2.1 appendedMesh_inRange, h'.1, default_inRange,
    (h'.2.2.2.2.1 h'.1).1, h'.2.2.2.2.2.2.1 h'.1 default_inRange⟩

/-- C18, the code at the failing input: on the one-triangle mesh built by `AppendTriangle`
    and `CreateTriangles`, the first `UpdateTransforms` leaves 3 transformed positions and 1
    transformed normal, the second call leaves 6 and 2, for a cache of 1 triangle. -/
theorem C18_UpdateTransforms_appends :
    ∃ created once twice : TriangleMesh ℚ,
      TriangleMesh.CreateTriangles Rat.sqrt appendedMesh = some created ∧
      TriangleMesh.UpdateTransforms created = some once ∧
      TriangleMesh.UpdateTransforms once = some twice ∧
      twice.triangles.length = 1 ∧
      once.transformedPositions.length = 3 ∧ once.transformedNormals.length = 1 ∧
      twice.transformedPositions.length = 6 ∧ twice.transformedNormals.length = 2 := by
  obtain ⟨triangles, hc, hlen⟩ := CreateTriangles_spec Rat.sqrt appendedMesh appendedMesh_inRange
  have hlen1 : triangles.length = 1 := by
    rw [hlen]; simp [appendedMesh, TriangleMesh.default]
  obtain ⟨once, twice, h1, h2, _, ht, hop, htp, hon, htn⟩ :=
    UpdateTransforms_twice ({ appendedMesh with triangles := triangles } : TriangleMesh ℚ)
      appendedMesh_inRange (le_of_eq hlen)
  have hp0 : ({ appendedMesh with triangles := triangles } : TriangleMesh ℚ).transformedPositions.length
      = 0 := by simp [appendedMesh, TriangleMesh.default]
  have hn0 : ({ appendedMesh with triangles := triangles } : TriangleMesh ℚ).transformedNormals.length
      = 0 := by simp [appendedMesh, TriangleMesh.default]
  have ht0 : ({ appendedMesh with triangles := triangles } : TriangleMesh ℚ).triangles.length = 1 :=
    hlen1
  rw [hp0, ht0] at hop htp
  rw [hn0, ht0] at hon htn
  rw [ht0] at ht
  exact ⟨_, once, twice, hc, h1, h2, ht, hop, hon, htp, htn⟩

/-- C19 fails as stated: for the quad mesh, whose two triangles share two of the four
    positions, the round trip under the identity transform returns a mesh with 6 transformed
    positions and 4 positions, so the two lists differ. -/
theorem C19_counterexample :
    ∃ mesh', quadMesh.identityRoundTrip Rat.sqrt sinApprox cosApprox toRadiansApprox = some mesh' ∧
      mesh'.transformedPositions.length = 6 ∧ mesh'.positions.length = 4 ∧
      mesh'.transformedPositions ≠ mesh'.positions := by
  obtain ⟨mesh', hrt, hpos, htp⟩ := identityRoundTrip_spec Rat.sqrt sinApprox cosApprox
    toRadiansApprox quadMesh (by norm_num [sinApprox]) (by norm_num [cosApprox]) quadMesh_inRange
    rfl
  have h6 : mesh'.transformedPositions.length = 6 := by
    have := congrArg List.length htp
    rw [List.length_map, List.length_map, List.length_range] at this
    rw [this]
    simp [quadMesh, TriangleMesh.default]
  have h4 : mesh'.positions.length = 4 := by
    rw [hpos]; simp [quadMesh, TriangleMesh.default]
  refine ⟨mesh', hrt, h6, h4, ?_⟩
  intro heq
  rw [heq, h4] at h6
  exact absurd h6 (by norm_num)

/-- C19 (amended): for every mesh on which `CreateTriangles` reads only existing elements and
    whose buffer of transformed positions is empty, after `CreateTriangles`,
    `Scale((1,1,1))`, `RotateY(0)`, `Translate((0,0,0))` and one `UpdateTransforms` (with
    `sinf 0 = 0`, `cosf 0 = 1`) `transformedPositions` is the list of the
    `positions[indices[k]]` for `k = 0, ..., 3 * (indices.size() / 3) - 1`; it equals
    `positions` when `indices` is `0, 1, ..., positions.size() - 1` and `positions.size()` is
    a multiple of 3, as for a mesh filled by `AppendTriangle`. -/
theorem C19_identity_round_trip (sqrtf sinf cosf : F → F) (TO_RADIANS : F) (mesh : TriangleMesh F)
    (hsin : sinf 0 = 0) (hcos : cosf 0 = 1) (hrange : mesh.inRange)
    (hempty : mesh.transformedPositions = []) :
    ∃ mesh', mesh.identityRoundTrip sqrtf sinf cosf TO_RADIANS = some mesh' ∧
      mesh'.positions = mesh.positions ∧
      mesh'.transformedPositions.map some =
        (List.range (3 * (mesh.indices.length / 3))).map mesh.positionAt ∧
      (mesh.indices = (List.range mesh.positions.length).map Int.ofNat →
        3 ∣ mesh.positions.length → mesh'.transformedPositions = mesh'.positions) := by
  obtain ⟨mesh', hrt, hpos, htp⟩ :=
    identityRoundTrip_spec sqrtf sinf cosf TO_RADIANS mesh hsin hcos hrange hempty
  refine ⟨mesh', hrt, hpos, htp, ?_⟩
  intro hseq hdiv
  have hlen : mesh.indices.length = mesh.positions.length := by
    rw [hseq, List.length_map, List.length_range]
  have h3 : 3 * (mesh.indices.length / 3) = mesh.positions.length := by
    rw [hlen]; exact Nat.mul_div_cancel' hdiv
  rw [h3] at htp
  have hmap : (List.range mesh.positions.length).map mesh.positionAt =
      (List.range mesh.positions.length).map (fun k => mesh.positions[k]?) := by
    apply List.map_congr_left
    intro k hk
    exact positionAt_sequential mesh hseq k (List.mem_range.mp hk)
  rw [hmap, map_getElem_range] at htp
  rw [hpos]
  exact List.map_injective_iff.mpr (Option.some_injective _) htp

/-- C19 (amended) at the mesh filled by `AppendTriangle`: the round trip returns a mesh whose
    transformed positions are its positions. -/
theorem C19_identity_round_trip_witness :
    sinApprox 0 = 0 ∧ cosApprox 0 = 1 ∧ appendedMesh.inRange ∧
    appendedMesh.transformedPositions = [] ∧
    ∃ mesh', appendedMesh.identityRoundTrip Rat.sqrt sinApprox cosApprox toRadiansApprox
        = some mesh' ∧
      mesh'.transformedPositions = mesh'.positions ∧
      mesh'.positions = [⟨0, 0, 0⟩, ⟨1, 0, 0⟩, ⟨0, 1, 0⟩] := by
  have hsin : sinApprox 0 = 0 := by norm_num [sinApprox]
  have hcos : cosApprox 0 = 1 := by norm_num [cosApprox]
  obtain ⟨mesh', hrt, hpos, _, heq⟩ := C19_identity_round_trip Rat.sqrt sinApprox cosApprox
    toRadiansApprox appendedMesh hsin hcos appendedMesh_inRange rfl
  refine ⟨hsin, hcos, appendedMesh_inRange, rfl, mesh', hrt, heq ?_ ?_, ?_⟩
  · simp [appendedMesh, TriangleMesh.default, List.range, List.range.loop]
  · simp [appendedMesh, TriangleMesh.default]
  · rw [hpos]; rfl

/-- C20 fails as stated: in a scene that already holds 256 materials, `AddMaterial` of a blue
    material returns the index 0, and entry 0 of the material list is still the default red
    material, not the material just added. -/
theorem C20_counterexample :
    (crowdedScene.AddMaterial blueMaterial).2 = 0 ∧
    (crowdedScene.AddMaterial blueMaterial).1.m_Materials[
      (crowdedScene.AddMaterial blueMaterial).2]? = some redMaterial ∧
    redMaterial ≠ blueMaterial := by
  have h := AddMaterial_spec crowdedScene blueMaterial
  have hlen : crowdedScene.m_Materials.length = 256 := List.length_replicate 256 redMaterial
  have h2 : (crowdedScene.AddMaterial blueMaterial).2 = 0 := by rw [h.2, hlen]
  refine ⟨h2, ?_, redMaterial_ne_blueMaterial⟩
  rw [h2, h.1, List.getElem?_append_left (by rw [hlen]; norm_num)]
  exact List.getElem?_replicate_of_lt (by norm_num)

/-- C20 (amended): for every scene state with fewer than 256 materials and every material `m`,
    `Scene::AddMaterial(m)` appends `m` at the end of the material list and changes no other
    member, leaves every existing entry unchanged, and returns the index `i` of the new last
    entry, so that `materials[i]` is `m`; after the constructor entry 0 is the default
    solid-colour material. -/
theorem C20_AddMaterial_appends (scene : Scene F) (pMaterial : Material F)
    (hlen : scene.m_Materials.length < 256) :
    (scene.AddMaterial pMaterial).1 =
      { scene with m_Materials := scene.m_Materials ++ [pMaterial] } ∧
    (∀ i : Nat, i < scene.m_Materials.length →
      (scene.AddMaterial pMaterial).1.m_Materials[i]? = scene.m_Materials[i]?) ∧
    (scene.AddMaterial pMaterial).2 = scene.m_Materials.length ∧
    (scene.AddMaterial pMaterial).1.m_Materials[(scene.AddMaterial pMaterial).2]? =
      some pMaterial ∧
    (Scene.new : Scene F).m_Materials[0]? = some (Material_SolidColor ⟨1, 0, 0⟩) := by
  have h := AddMaterial_spec scene pMaterial
  have h2 : (scene.AddMaterial pMaterial).2 = scene.m_Materials.length := by
    rw [h.2]; exact Nat.mod_eq_of_lt hlen
  refine ⟨rfl, ?_, h2, ?_, rfl⟩
  · intro i hi
    rw [h.1, List.getElem?_append_left hi]
  · rw [h2, h.1]
    simp

/-- C20 (amended) at a freshly constructed scene: the blue material gets index 1 and the
    default red material stays at index 0. -/
theorem C20_AddMaterial_appends_witness :
    (Scene.new : Scene ℚ).m_Materials.length < 256 ∧
    ((Scene.new : Scene ℚ).AddMaterial blueMaterial).2 = 1 ∧
    ((Scene.new : Scene ℚ).AddMaterial blueMaterial).1.m_Materials[1]? = some blueMaterial ∧
    ((Scene.new : Scene ℚ).AddMaterial blueMaterial).1.m_Materials[0]? = some redMaterial := by
  have hlen : (Scene.new : Scene ℚ).m_Materials.length < 256 := by simp [Scene.new]
  have h := C20_AddMaterial_appends (Scene.new : Scene ℚ) blueMaterial hlen
  refine ⟨hlen, h.2.2.1, ?_, ?_⟩
  · have h4 := h.2.2.2.1
    rw [h.2.2.1] at h4
    exact h4
  · rw [h.2.1 0 (by simp [Scene.new])]
    rfl

/-- C21 fails as stated: the camera of the demo scenes is default-constructed and then given
    the origin `(0,3,-9)` by `SetOrigin`; `GetOrigin` is `(0,3,-9)`, while the stored
    transform is still the identity computed by the constructor, with translation
    `(0,0,0)`, and is not `CreateRotation(pitch, yaw, 0) * CreateTranslation(origin)`. -/
theorem C21_counterexample :
    sceneCamera.GetOrigin = ⟨0, 3, -9⟩ ∧
    sceneCamera.GetCameraToWorld = Matrix.identity ∧
    sceneCamera.GetCameraToWorld.GetTranslation = ⟨0, 0, 0⟩ ∧
    sceneCamera.GetCameraToWorld.GetTranslation ≠ sceneCamera.GetOrigin ∧
    ¬ sceneCamera.transformCurrent sinApprox cosApprox toRadiansApprox := by
  have hid : sceneCamera.GetCameraToWorld = Matrix.identity := Camera_new_transform
  have hne : sceneCamera.GetCameraToWorld.GetTranslation ≠ sceneCamera.GetOrigin := by
    rw [hid]
    intro ht
    have := congrArg Vector3.y ht
    norm_num [Matrix.GetTranslation, Matrix.identity, Vector4.toVector3, sceneCamera,
      Camera.GetOrigin, Camera.SetOrigin, Camera.SetFOVAngle] at this
  refine ⟨rfl, hid, by rw [hid]; rfl, hne, fun h => ?_⟩
  exact hne (transformCurrent_translation sinApprox cosApprox toRadiansApprox sceneCamera h)

/-- C21 (amended): after construction by either constructor and after every `Update`,
    whatever the controls and the camera it starts from (in particular one whose origin was
    just changed by `SetOrigin`), the stored transform returned by `GetCameraToWorld` equals
    `CreateRotation(pitch, yaw, 0) * CreateTranslation(origin)` for the current values, and
    `GetCameraToWorld().GetTranslation() = GetOrigin()`. -/
theorem C21_transform_current (sqrtf sinf cosf : F → F) (TO_RADIANS : F) (origin : Vector3 F)
    (fovAngle : F) (camera : Camera F) (controls : CameraControls F) :
    ((Camera.new sinf cosf TO_RADIANS).transformCurrent sinf cosf TO_RADIANS ∧
      (Camera.new sinf cosf TO_RADIANS).GetCameraToWorld.GetTranslation =
        (Camera.new sinf cosf TO_RADIANS).GetOrigin) ∧
    ((Camera.new2 sinf cosf TO_RADIANS origin fovAngle).transformCurrent sinf cosf TO_RADIANS ∧
      (Camera.new2 sinf cosf TO_RADIANS origin fovAngle).GetOrigin = origin ∧
      (Camera.new2 sinf cosf TO_RADIANS origin fovAngle).GetCameraToWorld.GetTranslation =
        origin) ∧
    ((Camera.Update sqrtf sinf cosf TO_RADIANS camera controls).transformCurrent sinf cosf
        TO_RADIANS ∧
      (Camera.Update sqrtf sinf cosf TO_RADIANS camera controls).GetCameraToWorld.GetTranslation =
        (Camera.Update sqrtf sinf cosf TO_RADIANS camera controls).GetOrigin) ∧
    ((Camera.Update sqrtf sinf cosf TO_RADIANS (camera.SetOrigin origin) controls).transformCurrent
        sinf cosf TO_RADIANS ∧
      (Camera.Update sqrtf sinf cosf TO_RADIANS (camera.SetOrigin origin)
          controls).GetCameraToWorld.GetTranslation =
        (Camera.Update sqrtf sinf cosf TO_RADIANS (camera.SetOrigin origin) controls).GetOrigin) := by
  have hnew := Camera_new_current sinf cosf TO_RADIANS origin fovAngle
  have hupd := Camera_Update_current sqrtf sinf cosf TO_RADIANS camera controls
  have hset := Camera_Update_current sqrtf sinf cosf TO_RADIANS (camera.SetOrigin origin) controls
  exact ⟨⟨hnew.1, transformCurrent_translation sinf cosf TO_RADIANS _ hnew.1⟩,
    ⟨hnew.2, rfl, transformCurrent_translation sinf cosf TO_RADIANS _ hnew.2⟩,
    ⟨hupd, transformCurrent_translation sinf cosf TO_RADIANS _ hupd⟩,
    ⟨hset, transformCurrent_translation sinf cosf TO_RADIANS _ hset⟩⟩

/-- C21 at the camera of the demo scenes: one `Update` with idle controls after the
    `SetOrigin` leaves the origin at `(0,3,-9)` and the stored translation equal to it, and
    the constructor with that origin gives the same translation. -/
theorem C21_transform_current_witness :
    (Camera.Update Rat.sqrt sinApprox cosApprox toRadiansApprox sceneCamera
      idleControls).GetOrigin = ⟨0, 3, -9⟩ ∧
    (Camera.Update Rat.sqrt sinApprox cosApprox toRadiansApprox sceneCamera
      idleControls).GetCameraToWorld.GetTranslation = ⟨0, 3, -9⟩ ∧
    (Camera.new2 sinApprox cosApprox toRadiansApprox ⟨0, 3, -9⟩ 45).GetCameraToWorld.GetTranslation
      = ⟨0, 3, -9⟩ := by
  have hupd : (Camera.Update Rat.sqrt sinApprox cosApprox toRadiansApprox sceneCamera
      idleControls).GetOrigin = ⟨0, 3, -9⟩ := by
    simp [Camera.Update, Camera.Update_move, Camera.Update_mouse, Camera.Update_keys,
      idleControls, Vector3.notEqual, Vector3.zero, Camera.CalculateCameraToWorld,
      Camera.GetOrigin, sceneCamera, Camera.SetOrigin, Camera.SetFOVAngle]
  have h := C21_transform_current Rat.sqrt sinApprox cosApprox toRadiansApprox ⟨0, 3, -9⟩ 45
    sceneCamera idleControls
  exact ⟨hupd, h.2.2.1.2.trans hupd, h.2.1.2.2⟩

/-- C22 fails as stated: for `n = (0,0,1)`, `v = (0,0,-1)` and roughness `1/2` the guard
    does not fire (`dot(n,v) = -1`), and the divisor `dot(n,v)*(1 - roughness) + roughness`
    is zero. -/
theorem C22_counterexample :
    Vector3.Dot upNormal downView = -1 ∧
    Vector3.Dot upNormal downView ≠ 0 ∧
    schlickGGXDivisor upNormal downView (1 / 2) = 0 ∧
    BRDF.GeometryFunction_SchlickGGX upNormal downView (1 / 2) =
      Vector3.Dot upNormal downView / 0 := by
  have hd : Vector3.Dot upNormal downView = -1 := by
    norm_num [upNormal, downView, Vector3.Dot]
  have hz : schlickGGXDivisor upNormal downView (1 / 2) = 0 := by
    rw [schlickGGXDivisor, hd]; norm_num
  refine ⟨hd, by rw [hd]; norm_num, hz, ?_⟩
  rw [GeometryFunction_SchlickGGX_eq, hz, if_neg (by rw [hd]; norm_num)]

/-- C22 (amended): for all `n`, `v` and roughness, `GeometryFunction_SchlickGGX` returns 0
    when `dot(n,v) = 0` and otherwise `dot(n,v) / (dot(n,v)*(1 - roughness) + roughness)`;
    for `dot(n,v) >= 0` and `0 <= roughness <= 1` the divisor is zero only when
    `dot(n,v) = 0`, so on that range the guard excludes a division by zero, and the divisor
    is positive whenever the division is carried out. -/
theorem C22_GeometryFunction_SchlickGGX (n v : Vector3 F) (roughness : F) :
    (Vector3.Dot n v = 0 → BRDF.GeometryFunction_SchlickGGX n v roughness = 0) ∧
    (Vector3.Dot n v ≠ 0 →
      BRDF.GeometryFunction_SchlickGGX n v roughness =
        Vector3.Dot n v / (Vector3.Dot n v * (1 - roughness) + roughness)) ∧
    (0 ≤ Vector3.Dot n v → 0 ≤ roughness → roughness ≤ 1 →
      (Vector3.Dot n v * (1 - roughness) + roughness = 0 → Vector3.Dot n v = 0) ∧
      (Vector3.Dot n v ≠ 0 → 0 < Vector3.Dot n v * (1 - roughness) + roughness)) := by
  refine ⟨fun h => ?_, fun h => ?_, fun hd h0 h1 => ?_⟩
  · rw [GeometryFunction_SchlickGGX_eq, if_pos h]
  · rw [GeometryFunction_SchlickGGX_eq, if_neg h]; rfl
  · have hpos : Vector3.Dot n v ≠ 0 → 0 < Vector3.Dot n v * (1 - roughness) + roughness :=
      fun hne => schlickGGXDivisor_pos n v roughness (lt_of_le_of_ne hd (Ne.symm hne)) h0 h1
    refine ⟨fun hz => ?_, hpos⟩
    by_contra hne
    exact absurd hz (ne_of_gt (hpos hne))

/-- C22 at `n = v = (0,0,1)`, roughness `1/2`: the dot product is 1, the divisor is 1 and
    the term is 1. -/
theorem C22_GeometryFunction_SchlickGGX_witness :
    Vector3.Dot upNormal upNormal ≠ 0 ∧
    (0 : ℚ) < Vector3.Dot upNormal upNormal * (1 - 1 / 2) + 1 / 2 ∧
    BRDF.GeometryFunction_SchlickGGX upNormal upNormal (1 / 2) = 1 := by
  have hd : Vector3.Dot upNormal upNormal = 1 := by norm_num [upNormal, Vector3.Dot]
  have hne : Vector3.Dot upNormal upNormal ≠ 0 := by rw [hd]; norm_num
  have h := C22_GeometryFunction_SchlickGGX upNormal upNormal (1 / 2)
  refine ⟨hne, (h.2.2 (by rw [hd]; norm_num) (by norm_num) (by norm_num)).2 hne, ?_⟩
  rw [h.2.1 hne, hd]; norm_num

/-- C23: for all `h`, `v` and `f0` (with `pow` returning the fifth power of
    `1 - dot(v,h)`), the three channels of `FresnelFunction_Schlick` all equal
    `f0.r + (1 - f0.r) * (1 - dot(v,h))^5`; the result does not depend on `f0.g` or `f0.b`;
    it is `f0.r` in every channel when `dot(v,h) = 1` and 1 in every channel when
    `dot(v,h) = 0`. -/
theorem C23_FresnelFunction_Schlick (powf : F → F → F) (h v : Vector3 F) (f0 : ColorRGB F)
    (hpow : powf (1 - Vector3.Dot v h) 5 = (1 - Vector3.Dot v h) ^ 5) :
    BRDF.FresnelFunction_Schlick powf h v f0 =
      ⟨f0.r + (1 - f0.r) * (1 - Vector3.Dot v h) ^ 5,
        f0.r + (1 - f0.r) * (1 - Vector3.Dot v h) ^ 5,
        f0.r + (1 - f0.r) * (1 - Vector3.Dot v h) ^ 5⟩ ∧
    (∀ g b : F, BRDF.FresnelFunction_Schlick powf h v ⟨f0.r, g, b⟩ =
      BRDF.FresnelFunction_Schlick powf h v f0) ∧
    (Vector3.Dot v h = 1 → BRDF.FresnelFunction_Schlick powf h v f0 = ⟨f0.r, f0.r, f0.r⟩) ∧
    (Vector3.Dot v h = 0 → BRDF.FresnelFunction_Schlick powf h v f0 = ⟨1, 1, 1⟩) := by
  have hval : BRDF.FresnelFunction_Schlick powf h v f0 =
      ⟨f0.r + (1 - f0.r) * (1 - Vector3.Dot v h) ^ 5,
        f0.r + (1 - f0.r) * (1 - Vector3.Dot v h) ^ 5,
        f0.r + (1 - f0.r) * (1 - Vector3.Dot v h) ^ 5⟩ := by
    simp only [BRDF.FresnelFunction_Schlick, hpow]
  refine ⟨hval, fun g b => rfl, fun h1 => ?_, fun h0 => ?_⟩
  · rw [hval, h1]; ext <;> simp
  · rw [hval, h0]; ext <;> simp

/-- C23 at `h = (0,0,1)`, `v = (0,0,1/2)`, `f0 = (1/2, 1/4, 1/8)`: `dot(v,h) = 1/2` and
    every channel is `1/2 + 1/2 * (1/2)^5 = 33/64`. -/
theorem C23_FresnelFunction_Schlick_witness :
    powApprox (1 - Vector3.Dot (⟨0, 0, 1 / 2⟩ : Vector3 ℚ) upNormal) 5 =
      (1 - Vector3.Dot (⟨0, 0, 1 / 2⟩ : Vector3 ℚ) upNormal) ^ 5 ∧
    BRDF.FresnelFunction_Schlick powApprox upNormal ⟨0, 0, 1 / 2⟩ ⟨1 / 2, 1 / 4, 1 / 8⟩ =
      ⟨33 / 64, 33 / 64, 33 / 64⟩ := by
  have hpow : powApprox (1 - Vector3.Dot (⟨0, 0, 1 / 2⟩ : Vector3 ℚ) upNormal) 5 =
      (1 - Vector3.Dot (⟨0, 0, 1 / 2⟩ : Vector3 ℚ) upNormal) ^ 5 := by
    simp [powApprox]
  refine ⟨hpow, ?_⟩
  rw [(C23_FresnelFunction_Schlick powApprox upNormal ⟨0, 0, 1 / 2⟩ ⟨1 / 2, 1 / 4, 1 / 8⟩ hpow).1]
  norm_num [upNormal, Vector3.Dot]

/-- C24: for all `n`, `v`, `l` and roughness, `GeometryFunction_Smith` is
    `GeometryFunction_SchlickGGX(n, v, k) * GeometryFunction_SchlickGGX(n, l, k)` with
    `k = (roughness^2 + 1)^2 / 8`, and exchanging `v` and `l` does not change it. -/
theorem C24_GeometryFunction_Smith (n v l : Vector3 F) (roughness : F) :
    BRDF.GeometryFunction_Smith n v l roughness =
      BRDF.GeometryFunction_SchlickGGX n v (smithK roughness) *
        BRDF.GeometryFunction_SchlickGGX n l (smithK roughness) ∧
    smithK roughness = (roughness ^ 2 + 1) ^ 2 / 8 ∧
    BRDF.GeometryFunction_Smith n v l roughness = BRDF.GeometryFunction_Smith n l v roughness := by
  have hk : (roughness * roughness + 1) * (roughness * roughness + 1) / 8 = smithK roughness := by
    unfold smithK; ring
  refine ⟨?_, rfl, ?_⟩
  · simp only [BRDF.GeometryFunction_Smith, hk]
  · simp only [BRDF.GeometryFunction_Smith]; exact mul_comm _ _

/-- C25 fails as stated: in binary32, for `n = h = (0,0,1)` (so `dot(n,h) = 1`) and the
    roughness `1/128`, inside `0 < roughness <= 1`, `roughnessPow4` is `2^-28`,
    `roughnessPow4 - 1.0f` rounds to `-1`, `denominator` is `1 * (-1) + 1 = 0` and the divisor
    `PI * (denominator * denominator)` is 0: the function divides `2^-28` by zero. -/
theorem C25_counterexample :
    (0 : ℚ) < 1 / 128 ∧ (1 / 128 : ℚ) ≤ 1 ∧ |Vector3.Dot upNormal upNormal| ≤ 1 ∧
    ggxRoughnessPow4 roundBinary32 (1 / 128) = 1 / 268435456 ∧
    roundBinary32 (ggxRoughnessPow4 roundBinary32 (1 / 128) - 1) = -1 ∧
    ggxDenominator roundBinary32 upNormal upNormal (1 / 128) = 0 ∧
    ggxComputedDivisor roundBinary32 piFloat upNormal upNormal (1 / 128) = 0 ∧
    BRDF.NormalDistribution_GGX roundBinary32 piFloat upNormal upNormal (1 / 128) =
      roundBinary32 (1 / 268435456 / 0) := by
  have hd : Vector3.Dot upNormal upNormal = 1 := by norm_num [upNormal, Vector3.Dot]
  have hm : roundBinary32 (ggxRoughnessPow4 roundBinary32 (1 / 128) - 1) = -1 := by
    rw [ggxRoughnessPow4_small, roundBinary32_small_sub_one]
  have hsq : roundBinary32 (Vector3.Dot upNormal upNormal * Vector3.Dot upNormal upNormal) = 1 := by
    rw [hd, one_mul, RoundsToFloat_roundBinary32.exact_one]
  have hz := ggxComputedDivisor_zero roundBinary32 RoundsToFloat_roundBinary32 piFloat upNormal
    upNormal (1 / 128) hm hsq
  refine ⟨by norm_num, by norm_num, by rw [hd]; norm_num, ggxRoughnessPow4_small, hm, hz.1,
    hz.2, ?_⟩
  rw [NormalDistribution_GGX_computed, hz.2, ggxRoughnessPow4_small]

/-- C25 (amended): `NormalDistribution_GGX` evaluates `a / (pi * (dot(n,h)^2 * (a - 1) + 1)^2)`
    with `a = roughness^4`, every `float` operation rounding its result. In exact arithmetic
    the value is that expression and, for `pi > 0`, `0 < roughness <= 1` and
    `|dot(n,h)| <= 1`, the divisor is positive, the result non-negative and the value at
    `dot(n,h) = 1` is `1 / (pi * a)`. With rounding to `float` (`pi >= 1`, same ranges) the
    computed `denominator` and divisor are never negative; the divisor is positive and the
    result non-negative when the computed `a` is at least `2^-24`, or the rounded `a - 1` is
    at least `-(1 - 2^-24)` (the `float` next to `-1`), or the rounded `dot(n,h)^2` is at most
    `1 - 2^-24`; when the rounded `a - 1` is `-1` and the rounded `dot(n,h)^2` is 1 the
    divisor is 0. -/
theorem C25_NormalDistribution_GGX (fl : F → F) (PI : F) (n h : Vector3 F) (roughness : F) :
    BRDF.NormalDistribution_GGX id PI n h roughness =
      roughness ^ 4 / (PI * (Vector3.Dot n h ^ 2 * (roughness ^ 4 - 1) + 1) ^ 2) ∧
    (0 < PI → 0 < roughness → roughness ≤ 1 → |Vector3.Dot n h| ≤ 1 →
      0 < PI * (Vector3.Dot n h ^ 2 * (roughness ^ 4 - 1) + 1) ^ 2 ∧
      0 ≤ BRDF.NormalDistribution_GGX id PI n h roughness ∧
      (Vector3.Dot n h = 1 →
        BRDF.NormalDistribution_GGX id PI n h roughness = 1 / (PI * roughness ^ 4))) ∧
    (RoundsToFloat fl → 1 ≤ PI → 0 < roughness → roughness ≤ 1 → |Vector3.Dot n h| ≤ 1 →
      (0 ≤ ggxDenominator fl n h roughness ∧ 0 ≤ ggxComputedDivisor fl PI n h roughness) ∧
      ((1 / 16777216 ≤ ggxRoughnessPow4 fl roughness ∨
          -(1 - 1 / 16777216) ≤ fl (ggxRoughnessPow4 fl roughness - 1) ∨
          fl (Vector3.Dot n h * Vector3.Dot n h) ≤ 1 - 1 / 16777216) →
        0 < ggxComputedDivisor fl PI n h roughness ∧
        0 ≤ BRDF.NormalDistribution_GGX fl PI n h roughness) ∧
      (fl (ggxRoughnessPow4 fl roughness - 1) = -1 →
        fl (Vector3.Dot n h * Vector3.Dot n h) = 1 →
        ggxComputedDivisor fl PI n h roughness = 0)) := by
  have heq := NormalDistribution_GGX_eq PI n h roughness
  unfold ggxDivisor at heq
  refine ⟨heq, fun hpi h0 h1 hd => ?_, fun hfl hpi h0 h1 hd => ?_⟩
  · have ha : 0 < roughness ^ 4 := pow_pos h0 4
    have hin := ggx_inner_ge n h roughness h0 h1 hd
    have hpos : 0 < PI * (Vector3.Dot n h ^ 2 * (roughness ^ 4 - 1) + 1) ^ 2 :=
      mul_pos hpi (pow_pos (lt_of_lt_of_le ha hin) 2)
    refine ⟨hpos, ?_, fun hone => ?_⟩
    · rw [heq]; exact div_nonneg (le_of_lt ha) (le_of_lt hpos)
    · rw [heq, hone]
      have hne : roughness ^ 4 ≠ 0 := ne_of_gt ha
      have hpne : PI ≠ 0 := ne_of_gt hpi
      field_simp
      ring
  · have hr0 : 0 ≤ roughness := le_of_lt h0
    obtain ⟨_, _, hden⟩ := ggxDenominator_unit fl hfl n h roughness hr0 h1 hd
    have ha := ggxRoughnessPow4_unit fl hfl roughness hr0 h1
    have hDD : 0 ≤ fl (ggxDenominator fl n h roughness * ggxDenominator fl n h roughness) := by
      have := hfl.mono 0 _ (mul_self_nonneg (ggxDenominator fl n h roughness))
      rwa [hfl.exact_zero] at this
    have hV : 0 ≤ ggxComputedDivisor fl PI n h roughness := by
      unfold ggxComputedDivisor
      have := hfl.mono 0 _ (mul_nonneg (le_trans zero_le_one hpi) hDD)
      rwa [hfl.exact_zero] at this
    refine ⟨⟨hden.1, hV⟩, fun hcase => ?_, fun hm hsq =>
      (ggxComputedDivisor_zero fl hfl PI n h roughness hm hsq).2⟩
    have hcase' : -(1 - 1 / 16777216) ≤ fl (ggxRoughnessPow4 fl roughness - 1) ∨
        fl (Vector3.Dot n h * Vector3.Dot n h) ≤ 1 - 1 / 16777216 := by
      rcases hcase with hc | hc | hc
      · left
        have := hfl.mono (-(1 - 1 / 16777216)) (ggxRoughnessPow4 fl roughness - 1) (by linarith)
        rwa [hfl.exact_next_to_neg_one] at this
      · exact Or.inl hc
      · exact Or.inr hc
    have hpos := (ggxComputedDivisor_pos fl hfl PI n h roughness hpi hr0 h1 hd hcase').2
    have hVpos : 0 < ggxComputedDivisor fl PI n h roughness :=
      lt_of_lt_of_le (by norm_num) hpos
    refine ⟨hVpos, ?_⟩
    rw [NormalDistribution_GGX_computed]
    have := hfl.mono 0 _ (div_nonneg ha.1 (le_of_lt hVpos))
    rwa [hfl.exact_zero] at this

/-- C25 at `n = h = (0,0,1)` and roughness `1/2`: in exact arithmetic with `pi = 355/113`
    the value is `16 * 113 / 355`; in binary32 with the `float` `pi`, `roughnessPow4` is
    `1/16`, at least `2^-24`, and the divisor is positive. -/
theorem C25_NormalDistribution_GGX_witness :
    (0 : ℚ) < piApprox ∧ |Vector3.Dot upNormal upNormal| ≤ 1 ∧
    BRDF.NormalDistribution_GGX id piApprox upNormal upNormal (1 / 2) = 1808 / 355 ∧
    RoundsToFloat roundBinary32 ∧ (1 : ℚ) ≤ piFloat ∧
    ggxRoughnessPow4 roundBinary32 (1 / 2) = 1 / 16 ∧
    0 < ggxComputedDivisor roundBinary32 piFloat upNormal upNormal (1 / 2) ∧
    0 ≤ BRDF.NormalDistribution_GGX roundBinary32 piFloat upNormal upNormal (1 / 2) := by
  have hd : Vector3.Dot upNormal upNormal = 1 := by norm_num [upNormal, Vector3.Dot]
  have hpi : (0 : ℚ) < piApprox := by norm_num [piApprox]
  have hpf : (1 : ℚ) ≤ piFloat := by norm_num [piFloat]
  have habs : |Vector3.Dot upNormal upNormal| ≤ 1 := by rw [hd]; norm_num
  have hexact := (C25_NormalDistribution_GGX (id : ℚ → ℚ) piApprox upNormal upNormal (1 / 2)).2.1
    hpi (by norm_num) (by norm_num) habs
  have hround := (C25_NormalDistribution_GGX roundBinary32 piFloat upNormal upNormal (1 / 2)).2.2
    RoundsToFloat_roundBinary32 hpf (by norm_num) (by norm_num) habs
  have hcase := hround.2.1 (Or.inl (by rw [ggxRoughnessPow4_half]; norm_num))
  refine ⟨hpi, habs, ?_, RoundsToFloat_roundBinary32, hpf, ggxRoughnessPow4_half, hcase.1,
    hcase.2⟩
  rw [hexact.2.2 hd]
  norm_num [piApprox]

/-- C26, the code at the failing input: for the point light at `(0,2,0)` and the target
    `(0,0,0)` (different from the light's origin) the unit vector from the target to the
    light is `(0,1,0)`, which is also the `directionToLight` of `RenderPixel`, while
    `GetDirectionToLight` returns `(0,-1,0)`. -/
theorem C26_GetDirectionToLight_reversed :
    (⟨0, 0, 0⟩ : Vector3 ℚ) ≠ lampLight.origin ∧
    directionTowardsLight Rat.sqrt lampLight ⟨0, 0, 0⟩ = ⟨0, 1, 0⟩ ∧
    (Renderer.RenderPixel_pointToLight Rat.sqrt floorHit lampLight).direction = ⟨0, 1, 0⟩ ∧
    LightUtils.GetDirectionToLight Rat.sqrt lampLight ⟨0, 0, 0⟩ = ⟨0, -1, 0⟩ ∧
    LightUtils.GetDirectionToLight Rat.sqrt lampLight ⟨0, 0, 0⟩ ≠
      directionTowardsLight Rat.sqrt lampLight ⟨0, 0, 0⟩ := by
  have hm : Rat.sqrt (Vector3.SqrMagnitude (Vector3.sub lampLight.origin (⟨0, 0, 0⟩ : Vector3 ℚ)))
      = 2 := by
    have : Vector3.SqrMagnitude (Vector3.sub lampLight.origin (⟨0, 0, 0⟩ : Vector3 ℚ)) = 2 * 2 := by
      norm_num [lampLight, Vector3.SqrMagnitude, Vector3.sub]
    rw [this, Rat.sqrt_eq]; norm_num
  have ht : directionTowardsLight Rat.sqrt lampLight ⟨0, 0, 0⟩ = ⟨0, 1, 0⟩ := by
    simp only [directionTowardsLight, Vector3.Magnitude, hm]
    norm_num [lampLight, Vector3.divide, Vector3.sub]
  have hg : LightUtils.GetDirectionToLight Rat.sqrt lampLight ⟨0, 0, 0⟩ = ⟨0, -1, 0⟩ := by
    rw [GetDirectionToLight_eq_neg_towards, ht]
    norm_num [Vector3.neg]
  refine ⟨?_, ht, ?_, hg, ?_⟩
  · intro h
    have := congrArg Vector3.y h
    norm_num [lampLight] at this
  · have : (Renderer.RenderPixel_pointToLight Rat.sqrt floorHit lampLight).direction =
        directionTowardsLight Rat.sqrt lampLight ⟨0, 0, 0⟩ := rfl
    rw [this, ht]
  · rw [hg, ht]
    intro h
    have := congrArg Vector3.y h
    norm_num at this

/-- C27: for every renderer with `0 < m_Width` (an `int`, so below `2^31`) and
    `0 < m_Height` and every `pixelIndex` (a `uint32_t`) below `m_Width * m_Height`, with the
    material of the closest hit (if any) in the material list, `RenderPixel` writes one
    element, `px + py * m_Width` with `px = pixelIndex mod m_Width` and
    `py = pixelIndex div m_Width`; that element is `pixelIndex`, `px < m_Width` and
    `py < m_Height`, and the call for any other pixel index does not write it. -/
theorem C27_RenderPixel_slot (sqrtf : F → F) (areEqual : F → F → Bool) (renderer : Renderer)
    (scene : Scene F) (pixelIndex : Nat) (FOV aspectRatio : F) (cameraToWorld : Matrix F)
    (cameraOrigin : Vector3 F)
    (hw0 : 0 < renderer.m_Width) (hw : renderer.m_Width < 2147483648)
    (hh0 : 0 < renderer.m_Height)
    (hrange : pixelIndex < 4294967296)
    (hidx : (pixelIndex : Int) < renderer.m_Width * renderer.m_Height)
    (hmat : (Renderer.closestHitOfPixel sqrtf areEqual renderer scene pixelIndex FOV aspectRatio
        cameraToWorld cameraOrigin).1 = true →
      ∃ material : Material F,
        scene.m_Materials[(Renderer.closestHitOfPixel sqrtf areEqual renderer scene pixelIndex FOV
          aspectRatio cameraToWorld cameraOrigin).2.materialIndex]? = some material) :
    (Renderer.RenderPixel sqrtf areEqual renderer scene pixelIndex FOV aspectRatio
        cameraToWorld cameraOrigin).map Prod.fst =
      some (pixelIndex % renderer.m_Width.toNat +
        pixelIndex / renderer.m_Width.toNat * renderer.m_Width.toNat) ∧
    pixelIndex % renderer.m_Width.toNat +
      pixelIndex / renderer.m_Width.toNat * renderer.m_Width.toNat = pixelIndex ∧
    ((pixelIndex % renderer.m_Width.toNat : Nat) : Int) < renderer.m_Width ∧
    ((pixelIndex / renderer.m_Width.toNat : Nat) : Int) < renderer.m_Height ∧
    (∀ other : Nat, other < 4294967296 → other ≠ pixelIndex →
      (Renderer.RenderPixel sqrtf areEqual renderer scene other FOV aspectRatio
        cameraToWorld cameraOrigin).map Prod.fst ≠ some pixelIndex) := by
  have hconv : toUInt32 renderer.m_Width = renderer.m_Width.toNat :=
    toUInt32_of_range _ (le_of_lt hw0) (by linarith)
  have hwnat : 0 < renderer.m_Width.toNat := by omega
  have hwidth : toUInt32 renderer.m_Width ≠ 0 := by rw [hconv]; omega
  have hslot : ∀ k : Nat, k < 4294967296 →
      (k % toUInt32 renderer.m_Width + k / toUInt32 renderer.m_Width * toUInt32 renderer.m_Width)
        % 4294967296 = k := by
    intro k hk
    rw [Nat.mod_add_div', Nat.mod_eq_of_lt hk]
  have hsum : pixelIndex % renderer.m_Width.toNat +
      pixelIndex / renderer.m_Width.toNat * renderer.m_Width.toNat = pixelIndex :=
    Nat.mod_add_div' _ _
  refine ⟨?_, hsum, ?_, ?_, ?_⟩
  · obtain ⟨r, hr⟩ := Option.isSome_iff_exists.mp
      (RenderPixel_isSome sqrtf areEqual renderer scene pixelIndex FOV aspectRatio cameraToWorld
        cameraOrigin hwidth hmat)
    have h1 : (Renderer.RenderPixel sqrtf areEqual renderer scene pixelIndex FOV aspectRatio
        cameraToWorld cameraOrigin).map Prod.fst = some r.1 := by rw [hr]; rfl
    have h2 := RenderPixel_slot sqrtf areEqual renderer scene pixelIndex FOV aspectRatio
      cameraToWorld cameraOrigin r.1 h1
    rw [hslot pixelIndex hrange] at h2
    rw [h1, h2, hsum]
  · have := Nat.mod_lt pixelIndex hwnat
    omega
  · have hwn : (renderer.m_Width.toNat : Int) = renderer.m_Width := Int.toNat_of_nonneg (le_of_lt hw0)
    have hhn : (renderer.m_Height.toNat : Int) = renderer.m_Height :=
      Int.toNat_of_nonneg (le_of_lt hh0)
    have hlt : pixelIndex < renderer.m_Height.toNat * renderer.m_Width.toNat := by
      have : (pixelIndex : Int) < (renderer.m_Height.toNat : Int) * (renderer.m_Width.toNat : Int) := by
        rw [hwn, hhn, mul_comm]; exact hidx
      exact_mod_cast this
    have := (Nat.div_lt_iff_lt_mul hwnat).mpr hlt
    omega
  · intro other hother hne h
    have h2 := RenderPixel_slot sqrtf areEqual renderer scene other FOV aspectRatio
      cameraToWorld cameraOrigin pixelIndex h
    rw [hslot other hother] at h2
    exact hne h2.symm

/-- C27 for a window of 4 by 3 pixels and the scene without geometry: the task of pixel 7
    has `px = 3`, `py = 1` and writes element 7. -/
theorem C27_RenderPixel_slot_witness :
    (0 : Int) < stripRenderer.m_Width ∧ (0 : Int) < stripRenderer.m_Height ∧
    ((7 : Nat) : Int) < stripRenderer.m_Width * stripRenderer.m_Height ∧
    (Renderer.closestHitOfPixel Rat.sqrt AreEqual stripRenderer (Scene.new : Scene ℚ) 7 (3 / 4)
      (4 / 3) Matrix.identity ⟨0, 0, 0⟩).1 = false ∧
    7 % stripRenderer.m_Width.toNat = 3 ∧ 7 / stripRenderer.m_Width.toNat = 1 ∧
    (Renderer.RenderPixel Rat.sqrt AreEqual stripRenderer (Scene.new : Scene ℚ) 7 (3 / 4) (4 / 3)
      Matrix.identity ⟨0, 0, 0⟩).map Prod.fst = some 7 := by
  have hmiss : (Renderer.closestHitOfPixel Rat.sqrt AreEqual stripRenderer (Scene.new : Scene ℚ) 7
      (3 / 4) (4 / 3) Matrix.identity ⟨0, 0, 0⟩).1 = false := by
    simp [Renderer.closestHitOfPixel, Scene.TryGetClosestHit, Scene.closestLoops, Scene.new]
  have hw0 : (0 : Int) < stripRenderer.m_Width := by simp [stripRenderer, Renderer.new]
  have hh0 : (0 : Int) < stripRenderer.m_Height := by simp [stripRenderer, Renderer.new]
  have hidx : ((7 : Nat) : Int) < stripRenderer.m_Width * stripRenderer.m_Height := by
    simp [stripRenderer, Renderer.new]
  have h := C27_RenderPixel_slot Rat.sqrt AreEqual stripRenderer (Scene.new : Scene ℚ) 7 (3 / 4)
    (4 / 3) Matrix.identity ⟨0, 0, 0⟩ hw0 (by simp [stripRenderer, Renderer.new]) hh0
    (by norm_num) hidx (fun hhit => absurd hhit (by rw [hmiss]; simp))
  refine ⟨hw0, hh0, hidx, hmiss, by simp [stripRenderer, Renderer.new],
    by simp [stripRenderer, Renderer.new], ?_⟩
  rw [h.1, h.2.1]

/-- C31: for any two lights that agree in every member other than `direction`,
    `GetDirectionToLight`, `GetObservedArea`, `GetRadiance` and the shadow ray of
    `RenderPixel` are identical, and for two scenes that differ only in the `direction`
    members of their lights `RenderPixel` writes the same element with the same colour; the
    light made by `AddDirectionalLight` has origin `(0,0,0)`, so its direction-to-light and
    its shadow ray (direction and length) are those of a point light at the world origin:
    direction `(0 - hit.origin) / |0 - hit.origin|`, length `|0 - hit.origin|`. -/
theorem C31_light_direction_unused (sqrtf : F → F) (areEqual : F → F → Bool)
    (light light' : Light F) (h : light.sameButDirection light')
    (target : Vector3 F) (hitRecord : HitRecord F) :
    LightUtils.GetDirectionToLight sqrtf light target =
      LightUtils.GetDirectionToLight sqrtf light' target ∧
    LightUtils.GetObservedArea sqrtf light hitRecord =
      LightUtils.GetObservedArea sqrtf light' hitRecord ∧
    LightUtils.GetRadiance light target = LightUtils.GetRadiance light' target ∧
    Renderer.RenderPixel_pointToLight sqrtf hitRecord light =
      Renderer.RenderPixel_pointToLight sqrtf hitRecord light' ∧
    (∀ (renderer : Renderer) (scene scene' : Scene F) (pixelIndex : Nat) (FOV aspectRatio : F)
        (cameraToWorld : Matrix F) (cameraOrigin : Vector3 F),
      scene.sameButLightDirections scene' →
      Renderer.RenderPixel sqrtf areEqual renderer scene pixelIndex FOV aspectRatio cameraToWorld
          cameraOrigin =
        Renderer.RenderPixel sqrtf areEqual renderer scene' pixelIndex FOV aspectRatio
          cameraToWorld cameraOrigin) ∧
    (∀ (scene : Scene F) (direction : Vector3 F) (intensity : F) (color : ColorRGB F),
      (scene.AddDirectionalLight direction intensity color).2.origin = Vector3.zero ∧
      LightUtils.GetDirectionToLight sqrtf
          (scene.AddDirectionalLight direction intensity color).2 target =
        LightUtils.GetDirectionToLight sqrtf
          (scene.AddPointLight Vector3.zero intensity color).2 target ∧
      Renderer.RenderPixel_pointToLight sqrtf hitRecord
          (scene.AddDirectionalLight direction intensity color).2 =
        Renderer.RenderPixel_pointToLight sqrtf hitRecord
          (scene.AddPointLight Vector3.zero intensity color).2 ∧
      (Renderer.RenderPixel_pointToLight sqrtf hitRecord
          (scene.AddDirectionalLight direction intensity color).2).direction =
        Vector3.divide (Vector3.sub Vector3.zero hitRecord.origin)
          (Vector3.Magnitude sqrtf (Vector3.sub Vector3.zero hitRecord.origin)) ∧
      (Renderer.RenderPixel_pointToLight sqrtf hitRecord
          (scene.AddDirectionalLight direction intensity color).2).max =
        Vector3.Magnitude sqrtf (Vector3.sub Vector3.zero hitRecord.origin)) := by
  have hu := LightUtils_congr sqrtf light light' h target hitRecord
  exact ⟨hu.1, hu.2.1, hu.2.2, RenderPixel_pointToLight_congr sqrtf hitRecord light light' h,
    fun renderer scene scene' pixelIndex FOV aspectRatio cameraToWorld cameraOrigin hs =>
      RenderPixel_congr sqrtf areEqual renderer scene scene' hs pixelIndex FOV aspectRatio
        cameraToWorld cameraOrigin,
    fun _ _ _ _ => ⟨rfl, rfl, rfl, rfl, rfl⟩⟩

/-- C31 at the wall scene: changing the `direction` members of its two lights changes
    neither the observed area at the wall hit nor what `RenderPixel` returns; the light made
    by `AddDirectionalLight((0,-1,0), 10, white)` is `sunLight`, with origin `(0,0,0)`, and
    its shadow ray from the wall hit `(0,3,4)` has direction `(0,-3/5,-4/5)` and length 5. -/
theorem C31_light_direction_unused_witness :
    Light.sameButDirection nearLight ({ nearLight with direction := ⟨0, -1, 0⟩ } : Light ℚ) ∧
    wallScene.sameButLightDirections wallSceneRedirected ∧
    LightUtils.GetObservedArea Rat.sqrt nearLight wallHit =
      LightUtils.GetObservedArea Rat.sqrt { nearLight with direction := ⟨0, -1, 0⟩ } wallHit ∧
    Renderer.RenderPixel Rat.sqrt AreEqual onePixelRenderer wallScene 0 (3 / 4) 1
        Matrix.identity (⟨0, 0, 0⟩ : Vector3 ℚ) =
      Renderer.RenderPixel Rat.sqrt AreEqual onePixelRenderer wallSceneRedirected 0 (3 / 4) 1
        Matrix.identity (⟨0, 0, 0⟩ : Vector3 ℚ) ∧
    ((Scene.new : Scene ℚ).AddDirectionalLight ⟨0, -1, 0⟩ 10 white).2 = sunLight ∧
    Renderer.RenderPixel_pointToLight Rat.sqrt wallHit sunLight =
      ⟨⟨0, 3, 4⟩, ⟨0, -3 / 5, -4 / 5⟩, 1 / 100, 5⟩ := by
  have hl : Light.sameButDirection nearLight
      ({ nearLight with direction := ⟨0, -1, 0⟩ } : Light ℚ) := ⟨rfl, rfl, rfl, rfl⟩
  have hs : wallScene.sameButLightDirections wallSceneRedirected :=
    ⟨rfl, rfl, rfl, rfl,
      List.Forall₂.cons ⟨rfl, rfl, rfl, rfl⟩ (List.Forall₂.cons ⟨rfl, rfl, rfl, rfl⟩ List.Forall₂.nil)⟩
  have h := C31_light_direction_unused Rat.sqrt AreEqual nearLight
    { nearLight with direction := ⟨0, -1, 0⟩ } hl wallHit.origin wallHit
  have hsun : ((Scene.new : Scene ℚ).AddDirectionalLight ⟨0, -1, 0⟩ 10 white).2 = sunLight := rfl
  have hm : Rat.sqrt (Vector3.SqrMagnitude (Vector3.sub sunLight.origin wallHit.origin)) = 5 := by
    have : Vector3.SqrMagnitude (Vector3.sub sunLight.origin wallHit.origin) = 5 * 5 := by
      norm_num [sunLight, wallHit, Vector3.zero, Vector3.SqrMagnitude, Vector3.sub]
    rw [this, Rat_sqrt_sq 5 (by norm_num)]
  refine ⟨hl, hs, h.2.1, h.2.2.2.2.1 onePixelRenderer wallScene wallSceneRedirected 0 (3 / 4) 1
    Matrix.identity ⟨0, 0, 0⟩ hs, hsun, ?_⟩
  simp only [Renderer.RenderPixel_pointToLight, Vector3.Magnitude, hm]
  norm_num [sunLight, wallHit, Vector3.zero, Vector3.divide, Vector3.sub]

/-- C33: `TriangleMesh::CreateTriangles` reads only elements that exist iff
    `normals.size() >= indices.size() / 3` and each of the first `3 * (indices.size() / 3)`
    indices `i` satisfies `0 <= i < positions.size()`; the same condition on their arguments
    is necessary and sufficient for the two constructors that call it; for the constructor
    without normals, where `normals` is empty at the call, it holds iff there are fewer than
    3 indices. -/
theorem C33_CreateTriangles_in_range (sqrtf : F → F) (mesh : TriangleMesh F)
    (_positions : List (Vector3 F)) (_indices : List Int) (_normals : List (Vector3 F))
    (_cullMode : TriangleCullMode) :
    ((TriangleMesh.CreateTriangles sqrtf mesh).isSome = true ↔
      (mesh.indices.length / 3 ≤ mesh.normals.length ∧
        ∀ k : Nat, k < 3 * (mesh.indices.length / 3) →
          ∀ index : Int, mesh.indices[k]? = some index →
            0 ≤ index ∧ index < (mesh.positions.length : Int))) ∧
    ((TriangleMesh.new4 sqrtf _positions _indices _normals _cullMode).isSome = true ↔
      (_indices.length / 3 ≤ _normals.length ∧
        ∀ k : Nat, k < 3 * (_indices.length / 3) →
          ∀ index : Int, _indices[k]? = some index →
            0 ≤ index ∧ index < (_positions.length : Int))) ∧
    ((TriangleMesh.new3 sqrtf _positions _indices _cullMode).isSome = true ↔
      _indices.length < 3) := by
  refine ⟨CreateTriangles_isSome_iff sqrtf mesh, ?_, ?_⟩
  · exact construct_isSome_iff sqrtf
      { (TriangleMesh.default : TriangleMesh F) with
        positions := _positions, indices := _indices, normals := _normals,
        cullMode := _cullMode }
  · have h := construct_isSome_iff sqrtf
      { (TriangleMesh.default : TriangleMesh F) with
        positions := _positions, indices := _indices, cullMode := _cullMode }
    refine Iff.trans h ?_
    simp only [TriangleMesh.inRange, TriangleMesh.indicesInRange, TriangleMesh.default,
      List.length_nil, Nat.le_zero]
    constructor
    · rintro ⟨h0, _⟩
      omega
    · intro hlt
      have h0 : _indices.length / 3 = 0 := by omega
      refine ⟨h0, fun k hk => ?_⟩
      rw [h0] at hk
      omega

/-- C33 at the triangle `(0,0,0)`, `(1,0,0)`, `(0,1,0)` with indices 0, 1, 2: the constructor
    without normals reads `normals[0]` of an empty vector, the one with a normal reads only
    elements that exist, and an index 3 is outside the three positions. -/
theorem C33_CreateTriangles_in_range_witness :
    (TriangleMesh.new3 Rat.sqrt [⟨0, 0, 0⟩, ⟨1, 0, 0⟩, ⟨0, 1, 0⟩] [0, 1, 2]
      TriangleCullMode.NoCulling).isSome = false ∧
    (TriangleMesh.new3 Rat.sqrt [⟨0, 0, 0⟩, ⟨1, 0, 0⟩, ⟨0, 1, 0⟩] [0, 1]
      TriangleCullMode.NoCulling).isSome = true ∧
    (TriangleMesh.new4 Rat.sqrt [⟨0, 0, 0⟩, ⟨1, 0, 0⟩, ⟨0, 1, 0⟩] [0, 1, 2] [⟨0, 0, 1⟩]
      TriangleCullMode.NoCulling).isSome = true ∧
    (TriangleMesh.new4 Rat.sqrt [⟨0, 0, 0⟩, ⟨1, 0, 0⟩, ⟨0, 1, 0⟩] [0, 1, 3] [⟨0, 0, 1⟩]
      TriangleCullMode.NoCulling).isSome = false := by
  have h3 := fun (indices : List Int) =>
    (C33_CreateTriangles_in_range Rat.sqrt (TriangleMesh.default : TriangleMesh ℚ)
      [⟨0, 0, 0⟩, ⟨1, 0, 0⟩, ⟨0, 1, 0⟩] indices [] TriangleCullMode.NoCulling).2.2
  have h4 := fun (indices : List Int) =>
    (C33_CreateTriangles_in_range Rat.sqrt (TriangleMesh.default : TriangleMesh ℚ)
      [⟨0, 0, 0⟩, ⟨1, 0, 0⟩, ⟨0, 1, 0⟩] indices [⟨0, 0, 1⟩] TriangleCullMode.NoCulling).2.1
  refine ⟨?_, ?_, ?_, ?_⟩
  · rw [← Bool.not_eq_true, h3 [0, 1, 2]]
    simp
  · rw [h3 [0, 1]]
    simp
  · rw [h4 [0, 1, 2]]
    refine ⟨by simp, fun k hk index hidx => ?_⟩
    simp only [List.length_cons, List.length_nil] at hk ⊢
    have hk' : k < 3 := by omega
    interval_cases k <;> simp at hidx <;> subst hidx <;> norm_num
  · rw [← Bool.not_eq_true, h4 [0, 1, 3]]
    rintro ⟨_, h⟩
    have := h 2 (by simp) 3 (by simp)
    simp at this

/-- C34 fails as stated: the record passed in is fresh (`didHit = false`) and the far
    triangle of the mesh passes `HitTest_Triangle` for the unbounded ray (at `t = FLT_MAX`),
    yet the full `HitTest_TriangleMesh` returns `false`: with `didHit = false` passed in,
    'returns true' and 'some triangle was hit' do not coincide here. -/
theorem C34_counterexample :
    (HitRecord.fresh : HitRecord ℚ).didHit = false ∧
    someTriangleHit AreEqual (meshOf [farTriangle]) unboundedRay ∧
    (HitTest_TriangleMesh AreEqual (meshOf [farTriangle]) unboundedRay HitRecord.fresh false).1 =
      false ∧
    (HitTest_TriangleMesh AreEqual (meshOf [farTriangle]) unboundedRay HitRecord.fresh false).2 =
      HitRecord.fresh := by
  have hsome : someTriangleHit AreEqual (meshOf [farTriangle]) unboundedRay :=
    ⟨farTriangle, by simp [meshOf], farTriangle_hit⟩
  have hret := HitTest_TriangleMesh_returns_didHit AreEqual (meshOf [farTriangle]) unboundedRay
    HitRecord.fresh
  refine ⟨rfl, hsome, farMesh_miss, ?_⟩
  have h := farTriangle_hit
  have hrec := HitTest_Triangle_snd AreEqual farTriangle unboundedRay HitRecord.fresh h
  simp only [HitTest_TriangleMesh, meshOf, HitTest_TriangleMesh_loop, h, hrec, if_true]
  norm_num [trianglePlaneDistance, farTriangle, unboundedRay, Vector3.Dot, Vector3.sub, FLT_MAX,
    HitRecord.fresh]

/-- C34 (amended): the return value of the full `HitTest_TriangleMesh` equals the `didHit`
    flag of the output record on exit. When no triangle of the mesh is hit the record is
    left unchanged and the flag passed in is returned, so a record passed in with
    `didHit = true` makes the function return `true` (it does so whether or not a triangle
    is hit). For a record passed in with `didHit = false`, 'returns true' implies 'some
    triangle was hit', and for every ray with `ray.max <= FLT_MAX` the two coincide. -/
theorem C34_HitTest_TriangleMesh_return (areEqual : F → F → Bool) (mesh : TriangleMesh F)
    (ray : Ray F) (hitRecord : HitRecord F) :
    (HitTest_TriangleMesh areEqual mesh ray hitRecord false).1 =
      (HitTest_TriangleMesh areEqual mesh ray hitRecord false).2.didHit ∧
    (¬ someTriangleHit areEqual mesh ray →
      HitTest_TriangleMesh areEqual mesh ray hitRecord false = (hitRecord.didHit, hitRecord)) ∧
    (hitRecord.didHit = true →
      (HitTest_TriangleMesh areEqual mesh ray hitRecord false).1 = true) ∧
    (hitRecord.didHit = true → ¬ someTriangleHit areEqual mesh ray →
      HitTest_TriangleMesh areEqual mesh ray hitRecord false = (true, hitRecord)) ∧
    (hitRecord.didHit = false →
      ((HitTest_TriangleMesh areEqual mesh ray hitRecord false).1 = true →
        someTriangleHit areEqual mesh ray) ∧
      (ray.max ≤ FLT_MAX →
        ((HitTest_TriangleMesh areEqual mesh ray hitRecord false).1 = true ↔
          someTriangleHit areEqual mesh ray))) := by
  refine ⟨HitTest_TriangleMesh_returns_didHit areEqual mesh ray hitRecord,
    HitTest_TriangleMesh_no_hit areEqual mesh ray hitRecord,
    HitTest_TriangleMesh_stale areEqual mesh ray hitRecord, fun hstale hnone => ?_,
    fun hclean => ?_⟩
  · rw [HitTest_TriangleMesh_no_hit areEqual mesh ray hitRecord hnone, hstale]
  · have h := HitTest_TriangleMesh_clean areEqual mesh ray hitRecord hclean
    exact ⟨h.1, fun hmax => ⟨h.1, h.2 hmax⟩⟩

/-- C34 at the empty mesh and a record already marked as a hit: no triangle is hit, the
    function returns `true` and the record is unchanged. -/
theorem C34_HitTest_TriangleMesh_return_witness :
    staleHit.didHit = true ∧
    ¬ someTriangleHit AreEqual (meshOf []) sphereRay ∧
    HitTest_TriangleMesh AreEqual (meshOf []) sphereRay staleHit false = (true, staleHit) := by
  have hnone : ¬ someTriangleHit AreEqual (meshOf []) sphereRay := by
    rintro ⟨tri, hmem, _⟩
    simp [meshOf] at hmem
  exact ⟨rfl, hnone,
    (C34_HitTest_TriangleMesh_return AreEqual (meshOf []) sphereRay staleHit).2.2.2.1 rfl hnone⟩

end dae
